import Mathlib

/-!
# Verification of the tactical-arena-shooter authoritative server

Shallow embedding of the Railway WebSocket game server (the server code embedded
in `GITHUB_SETUP.md`): connection registry, matchmaking queue, match/round state
machine, hit application, and the broadcast dispatcher.

Modelling choices:
* JS `Map`s (`connectedPlayers`, `activeMatches`) become association lists whose
  iteration order is insertion order, matching JS `Map` semantics.
* Match ids `match_${++matchIdCounter}_${Date.now()}` are modelled by the counter
  alone (which already makes them unique).
* All damage values produced by the hit engine are integers (`100` or a
  `Math.floor` result) and every health mutation keeps health integral, so
  health and damage are modelled as `ℤ`.
* `ws.send` / `broadcast` are modelled by appending an `Emitted` record (message
  plus the list of recipient player ids) to an event log.
* `setTimeout` callbacks become explicit `TimerTask`s kept in the state; firing
  a pending task removes it and runs the callback, mirroring the source's
  guard-at-execution-time pattern.  The `player_joined` notification timer
  captures the match's player list, as the JS closure captures the match object.
* Timestamps (`Date.now()`) are threaded as explicit `now : ℕ` arguments where
  the source reads the clock; the fields that are written and never read by any
  modelled behaviour (`finishedAt`, `lastActivity`, `connectedAt`) are omitted.
* The geometric hit-resolution engine (`performHitDetection`,
  `calculateRaycastHit`) operates on IEEE doubles in the source; it is modelled
  over `ℝ` in a separate section below.
-/

namespace Arena

/-- A 3D position with rational coordinates (orchestration layer). -/
structure Vec3Q where
  x : ℚ
  y : ℚ
  z : ℚ
deriving DecidableEq

/-- The `playerInfo` record stored in `connectedPlayers`. -/
structure PlayerInfo where
  id : ℕ
  position : Vec3Q
  health : ℤ
  maxHealth : ℤ
  isAlive : Bool
  matchId : Option ℕ
  team : Option String
  kills : ℕ
  deaths : ℕ
deriving DecidableEq

/-- A matchmaking queue entry. -/
structure Ticket where
  playerId : ℕ
  gameMode : String
  queueTime : ℕ
deriving DecidableEq

/-- The `status` field of a match. -/
inductive MatchStatus where
  | starting
  | active
  | round_ended
  | completed
deriving DecidableEq

/-- The reason literal passed to `endRound`. -/
inductive RoundEndReason where
  | elimination
  | timeout
deriving DecidableEq

/-- The match record stored in `activeMatches` (keyed by the match-id counter). -/
structure MatchData where
  players : List ℕ
  gameMode : String
  currentRound : ℕ
  maxRounds : ℕ
  roundTimeLimit : ℕ
  scores : List (ℕ × ℕ)
  roundStartTime : Option ℕ
  roundEndTime : Option ℕ
  status : MatchStatus
  winner : Option ℕ
deriving DecidableEq

/-- Outbound messages produced by the server. -/
inductive GameMsg where
  | welcome (playerId : ℕ)
  | playerLeft (playerId : ℕ)
  | roundStart (matchId : ℕ) (round : ℕ) (spawnPosition : Vec3Q) (health : ℤ)
      (timeLimit : ℕ) (scores : List (ℕ × ℕ))
  | playerJoined (playerId : ℕ) (position : Vec3Q) (health : ℤ)
  | playerHitMsg (shooterId : ℕ) (targetId : ℕ) (damage : ℤ) (isHeadshot : Bool)
      (newHealth : ℤ)
  | playerDeath (killerId : ℕ) (victimId : ℕ) (isHeadshot : Bool)
  | roundEndMsg (matchId : ℕ) (round : ℕ) (winner : Option ℕ) (reason : RoundEndReason)
      (scores : List (ℕ × ℕ))
  | matchEndMsg (matchId : ℕ) (winner : Option ℕ) (finalScores : List (ℕ × ℕ))
      (totalRounds : ℕ)
deriving DecidableEq

/-- One delivery: a serialized message and the player ids it was sent to. -/
structure Emitted where
  msg : GameMsg
  recipients : List ℕ
deriving DecidableEq

/-- Pending `setTimeout` callbacks. -/
inductive TimerTask where
  | roundTimeout (matchId : ℕ)
  | nextRoundStart (matchId : ℕ)
  | joinedNotify (players : List ℕ)
deriving DecidableEq

/-- The process-wide mutable state of the server. -/
structure ServerState where
  connectedPlayers : List (ℕ × PlayerInfo)
  playerIdCounter : ℕ
  matchmakingQueue : List Ticket
  matchIdCounter : ℕ
  activeMatches : List (ℕ × MatchData)
  timers : List TimerTask
  events : List Emitted
deriving DecidableEq

/-! ## Association-list primitives (JS `Map.get` / in-place mutation / `delete`) -/

/-- `Map.get`: the value of the first entry with the given key. -/
def alookup {α : Type} (l : List (ℕ × α)) (k : ℕ) : Option α :=
  (l.find? (fun e => e.1 == k)).map (·.2)

/-- In-place mutation of the entry with the given key. -/
def aupdate {α : Type} (l : List (ℕ × α)) (k : ℕ) (f : α → α) : List (ℕ × α) :=
  l.map (fun e => if e.1 == k then (e.1, f e.2) else e)

/-- `Map.delete`. -/
def aremove {α : Type} (l : List (ℕ × α)) (k : ℕ) : List (ℕ × α) :=
  l.filter (fun e => !(e.1 == k))

def lookupPlayer (s : ServerState) (pid : ℕ) : Option PlayerInfo :=
  alookup s.connectedPlayers pid

def updatePlayer (s : ServerState) (pid : ℕ) (f : PlayerInfo → PlayerInfo) : ServerState :=
  { s with connectedPlayers := aupdate s.connectedPlayers pid f }

def lookupMatch (s : ServerState) (mid : ℕ) : Option MatchData :=
  alookup s.activeMatches mid

def updateMatch (s : ServerState) (mid : ℕ) (f : MatchData → MatchData) : ServerState :=
  { s with activeMatches := aupdate s.activeMatches mid f }

def removeMatch (s : ServerState) (mid : ℕ) : ServerState :=
  { s with activeMatches := aremove s.activeMatches mid }

/-! ## Message delivery -/

/-- `player.ws.send(...)` to a single player. -/
def sendTo (s : ServerState) (pid : ℕ) (msg : GameMsg) : ServerState :=
  { s with events := s.events ++ [⟨msg, [pid]⟩] }

/-- `broadcast(message, excludePlayerId?)`: serialize once and send to every
connected player; a player is skipped only when `excludePlayerId` is truthy
(nonzero) and equals their id. -/
def broadcast (s : ServerState) (msg : GameMsg) (excludePlayerId : Option ℕ) : ServerState :=
  let recips := s.connectedPlayers.filterMap (fun e =>
    match excludePlayerId with
    | some ex => if ex ≠ 0 ∧ e.1 = ex then none else some e.1
    | none => some e.1)
  { s with events := s.events ++ [⟨msg, recips⟩] }

/-! ## Connection registry -/

/-- Spawn point for seat 0 (`SPAWN_POINTS.player1`). -/
def spawnPointPlayer1 : Vec3Q := ⟨-6, 0, 10⟩

/-- Spawn point for seat 1 (`SPAWN_POINTS.player2`). -/
def spawnPointPlayer2 : Vec3Q := ⟨6, 0, -10⟩

/-- The fresh `playerInfo` record built in the `connection` handler. -/
def freshPlayer (pid : ℕ) : PlayerInfo :=
  { id := pid, position := ⟨0, 0, 0⟩, health := 100, maxHealth := 100, isAlive := true,
    matchId := none, team := none, kills := 0, deaths := 0 }

/-- `wss.on('connection', ...)`: assign `++playerIdCounter`, register, send welcome. -/
def connectPlayer (s : ServerState) : ServerState :=
  let pid := s.playerIdCounter + 1
  let s1 := { s with
    playerIdCounter := pid,
    connectedPlayers := s.connectedPlayers ++ [(pid, freshPlayer pid)] }
  sendTo s1 pid (.welcome pid)

/-- `splice` of the first queue entry for a player, if any (`findIndex` + `splice`). -/
def eraseFirstTicket (q : List Ticket) (pid : ℕ) : List Ticket :=
  match q.findIdx? (fun t => t.playerId == pid) with
  | some i => q.eraseIdx i
  | none => q

/-- `ws.on('close', ...)`: drop the player, drop their queue ticket, broadcast
`player_left`.  The match table is not touched (the known mid-match-disconnect gap). -/
def disconnectPlayer (s : ServerState) (pid : ℕ) : ServerState :=
  let s1 := { s with
    connectedPlayers := s.connectedPlayers.filter (fun e => !(e.1 == pid)),
    matchmakingQueue := eraseFirstTicket s.matchmakingQueue pid }
  broadcast s1 (.playerLeft pid) (some pid)

/-! ## Match orchestrator -/

/-- The per-player reset of `startRound`'s `match.players.forEach`: restore full
health and alive flag, move to the seat's spawn point, send `round_start`.  The
argument pairs the seat index with the player id (`List.enum`). -/
def resetForRound (mid : ℕ) (m : MatchData) (acc : ServerState) (ip : ℕ × ℕ) : ServerState :=
  match lookupPlayer acc ip.2 with
  | none => acc
  | some p =>
    let spawn := if ip.1 = 0 then spawnPointPlayer1 else spawnPointPlayer2
    let acc1 := updatePlayer acc ip.2 (fun q =>
      { q with health := q.maxHealth, isAlive := true, position := spawn })
    sendTo acc1 ip.2
      (.roundStart mid m.currentRound spawn p.maxHealth m.roundTimeLimit m.scores)

/-- `startRound`: reset both players to full health/alive at their seat's spawn
point, send each a `round_start`, schedule the deferred `player_joined`
notifications, stamp the round timer fields, set status `active`, and schedule
the round-timeout callback. -/
def startRound (s : ServerState) (mid : ℕ) (now : ℕ) : ServerState :=
  match lookupMatch s mid with
  | none => s
  | some m =>
    let s1 := m.players.enum.foldl (resetForRound mid m) s
    let s2 := { s1 with timers := s1.timers ++ [.joinedNotify m.players] }
    let s3 := updateMatch s2 mid (fun mm =>
      { mm with roundStartTime := some now,
                roundEndTime := some (now + mm.roundTimeLimit),
                status := .active })
    { s3 with timers := s3.timers ++ [.roundTimeout mid] }

/-- `startMatch`: look up the match and start its first round. -/
def startMatch (s : ServerState) (mid : ℕ) (now : ℕ) : ServerState :=
  match lookupMatch s mid with
  | none => s
  | some _ => startRound s mid now

/-- The fresh match record built in `findMatches`.  A JS object with
integer-like keys enumerates them in ascending numeric order, so the `scores`
entries are kept sorted by player id. -/
def mkMatchData (p1 p2 : ℕ) : MatchData :=
  { players := [p1, p2], gameMode := "1v1", currentRound := 1, maxRounds := 5,
    roundTimeLimit := 120000,
    scores := if p1 ≤ p2 then [(p1, 0), (p2, 0)] else [(p2, 0), (p1, 0)],
    roundStartTime := none, roundEndTime := none, status := .starting, winner := none }

/-- The two `findIndex`/`splice` calls that remove a paired couple of tickets
from the main queue; both indices are computed before the first removal, and
the second index is adjusted by one for the removed element. -/
def removePairedTickets (q : List Ticket) (pid1 pid2 : ℕ) : List Ticket :=
  let index1 := q.findIdx? (fun t => t.playerId == pid1)
  let index2 := q.findIdx? (fun t => t.playerId == pid2)
  let q1 := match index1 with
    | some i => q.eraseIdx i
    | none => q
  match index2 with
  | some i => q1.eraseIdx (i - 1)
  | none => q1

/-- The body of `findMatches`' `while (queue1v1.length >= 2)` loop, recursing on
the snapshot of 1v1 tickets taken at entry.  Each iteration removes the paired
tickets from the main queue, registers a fresh match, assigns the two players to
it (when both are still connected) and starts it. -/
def findMatchesLoop (now : ℕ) : ServerState → List Ticket → ServerState
  | s, t1 :: t2 :: rest =>
    let s1 := { s with
      matchmakingQueue := removePairedTickets s.matchmakingQueue t1.playerId t2.playerId }
    let mid := s1.matchIdCounter + 1
    let s2 := { s1 with
      matchIdCounter := mid,
      activeMatches := s1.activeMatches ++ [(mid, mkMatchData t1.playerId t2.playerId)] }
    let s3 :=
      match lookupPlayer s2 t1.playerId, lookupPlayer s2 t2.playerId with
      | some _, some _ =>
        let s2a := updatePlayer s2 t1.playerId (fun p =>
          { p with matchId := some mid, team := some "team1" })
        let s2b := updatePlayer s2a t2.playerId (fun p =>
          { p with matchId := some mid, team := some "team2" })
        startMatch s2b mid now
      | _, _ => s2
    findMatchesLoop now s3 rest
  | s, _ => s

/-- The ticket-removal and match-registration part of one `findMatches`
iteration. -/
def pairBase (s : ServerState) (t1 t2 : Ticket) : ServerState :=
  { s with
    matchmakingQueue := removePairedTickets s.matchmakingQueue t1.playerId t2.playerId,
    matchIdCounter := s.matchIdCounter + 1,
    activeMatches := s.activeMatches ++
      [(s.matchIdCounter + 1, mkMatchData t1.playerId t2.playerId)] }

/-- One iteration of `findMatches`' pairing loop, as a standalone function
(definitionally the loop body of `findMatchesLoop`). -/
def pairStep (now : ℕ) (s : ServerState) (t1 t2 : Ticket) : ServerState :=
  match lookupPlayer (pairBase s t1 t2) t1.playerId,
      lookupPlayer (pairBase s t1 t2) t2.playerId with
  | some _, some _ =>
    startMatch (updatePlayer (updatePlayer (pairBase s t1 t2) t1.playerId
      (fun p => { p with matchId := some (s.matchIdCounter + 1), team := some "team1" }))
      t2.playerId
      (fun p => { p with matchId := some (s.matchIdCounter + 1), team := some "team2" }))
      (s.matchIdCounter + 1) now
  | _, _ => pairBase s t1 t2

/-- `findMatches`: snapshot the 1v1 sub-queue and pair it off two at a time. -/
def findMatches (s : ServerState) (now : ℕ) : ServerState :=
  findMatchesLoop now s (s.matchmakingQueue.filter (fun t => t.gameMode == "1v1"))

/-- `handleMatchmakingRequest`: ignore unknown players, ignore players already in
the queue, otherwise append a ticket and try to find matches. -/
def handleMatchmakingRequest (s : ServerState) (pid : ℕ) (gameMode : String) (now : ℕ) :
    ServerState :=
  match lookupPlayer s pid with
  | none => s
  | some _ =>
    if (s.matchmakingQueue.findIdx? (fun t => t.playerId == pid)).isSome then s
    else
      findMatches
        { s with matchmakingQueue := s.matchmakingQueue ++ [⟨pid, gameMode, now⟩] } now

/-! ## Hit application and round end -/

/-- `target.health = Math.max(0, target.health - damage)`. -/
def applyDamage (health damage : ℤ) : ℤ :=
  max 0 (health - damage)

/-- One step of the `for ... of Object.entries(match.scores)` scan of `endMatch`. -/
def winnerScanStep (acc : ℤ × Option ℕ) (e : ℕ × ℕ) : ℤ × Option ℕ :=
  if (e.2 : ℤ) > acc.1 then ((e.2 : ℤ), some e.1) else acc

/-- The winner scan of `endMatch`: the first entry whose score strictly exceeds
every earlier one (`highestScore` starting from `-1`). -/
def matchWinnerOf (scores : List (ℕ × ℕ)) : Option ℕ :=
  (scores.foldl winnerScanStep (-1, none)).2

/-- The per-player reset performed by `endMatch` after a match completes. -/
def releasePlayer (acc : ServerState) (pid : ℕ) : ServerState :=
  match lookupPlayer acc pid with
  | none => acc
  | some _ => updatePlayer acc pid (fun p =>
      { p with matchId := none, team := none, health := p.maxHealth, isAlive := true })

/-- `endMatch`: pick the entry with the (first strictly) highest score as winner,
record it, broadcast `match_end`, reset and release both players, and delete the
match from live storage. -/
def endMatch (s : ServerState) (mid : ℕ) : ServerState :=
  match lookupMatch s mid with
  | none => s
  | some m =>
    let matchWinner := matchWinnerOf m.scores
    let s1 := updateMatch s mid (fun mm => { mm with winner := matchWinner, status := .completed })
    let s2 := broadcast s1 (.matchEndMsg mid matchWinner m.scores m.currentRound) none
    let s3 := m.players.foldl releasePlayer s2
    removeMatch s3 mid

/-- The round-winner determination of `endRound`: the first alive player for
eliminations; for timeouts the strictly-highest-health scan (starting from
`-1`), nulled out when more than one player holds the highest health. -/
def roundWinnerOf (s : ServerState) (m : MatchData) (reason : RoundEndReason) : Option ℕ :=
  match reason with
  | .elimination =>
    m.players.find? (fun pid =>
      match lookupPlayer s pid with
      | some p => p.isAlive
      | none => false)
  | .timeout =>
    let scan := m.players.foldl (fun (acc : ℤ × Option ℕ) pid =>
      match lookupPlayer s pid with
      | some p => if p.health > acc.1 then (p.health, some pid) else acc
      | none => acc) (-1, none)
    let top := m.players.filter (fun pid =>
      match lookupPlayer s pid with
      | some p => p.health == scan.1
      | none => false)
    if top.length > 1 then none else scan.2

/-- `match.scores[roundWinner]++` (a no-op when the round was a tie). -/
def newScoresOf (m : MatchData) (roundWinner : Option ℕ) : List (ℕ × ℕ) :=
  match roundWinner with
  | some w => aupdate m.scores w (· + 1)
  | none => m.scores

/-- The body of `endRound` behind its status guard: determine the round winner,
bump their score, set status `round_ended`, broadcast `round_end`, then either
end the match (majority reached) or increment the round counter and schedule the
next round. -/
def endRoundClose (s : ServerState) (mid : ℕ) (m : MatchData) (reason : RoundEndReason) :
    ServerState :=
  let roundWinner := roundWinnerOf s m reason
  let newScores := newScoresOf m roundWinner
  let s1 := updateMatch s mid (fun mm =>
    { mm with status := .round_ended, scores := newScores })
  let s2 := broadcast s1 (.roundEndMsg mid m.currentRound roundWinner reason newScores) none
  if (newScores.map (·.2)).foldl max 0 ≥ (m.maxRounds + 1) / 2 then endMatch s2 mid
  else
    let s3 := updateMatch s2 mid (fun mm => { mm with currentRound := mm.currentRound + 1 })
    { s3 with timers := s3.timers ++ [.nextRoundStart mid] }

/-- `endRound`: guarded by `!match || match.status !== 'active'`. -/
def endRound (s : ServerState) (mid : ℕ) (reason : RoundEndReason) : ServerState :=
  match lookupMatch s mid with
  | none => s
  | some m =>
    if m.status = .active then endRoundClose s mid m reason
    else s

/-- `checkRoundEnd`: guarded by `match.status === 'active'`; ends the round when
at most one of the match's players is still alive. -/
def checkRoundEnd (s : ServerState) (mid : ℕ) (reason : RoundEndReason) : ServerState :=
  match lookupMatch s mid with
  | none => s
  | some m =>
    if m.status = .active then
      let alivePlayers := m.players.filter (fun pid =>
        match lookupPlayer s pid with
        | some p => p.isAlive
        | none => false)
      if alivePlayers.length ≤ 1 then endRound s mid reason else s
    else s

/-- `handlePlayerDeath`: mark the victim dead, bump counters, broadcast
`player_death` (whose `isHeadshot` field tests `victim.health <= -65`), then
re-evaluate round end for the victim's match. -/
def handlePlayerDeath (s : ServerState) (killerId victimId : ℕ) : ServerState :=
  match lookupPlayer s killerId, lookupPlayer s victimId with
  | some _, some victim =>
    let s1 := updatePlayer s victimId (fun p => { p with isAlive := false, deaths := p.deaths + 1 })
    let s2 := updatePlayer s1 killerId (fun p => { p with kills := p.kills + 1 })
    let s3 := broadcast s2 (.playerDeath killerId victimId (decide (victim.health ≤ -65))) none
    match victim.matchId with
    | some mid => checkRoundEnd s3 mid .elimination
    | none => s3
  | _, _ => s

/-- `handlePlayerHit`: ignore hits when shooter or target is unknown or the
target is already dead; otherwise clamp-apply the damage, broadcast
`player_hit`, and run death handling when health reached zero. -/
def handlePlayerHit (s : ServerState) (shooterId targetId : ℕ) (damage : ℤ)
    (isHeadshot : Bool) : ServerState :=
  match lookupPlayer s shooterId, lookupPlayer s targetId with
  | some _, some target =>
    if target.isAlive then
      let newHealth := applyDamage target.health damage
      let s1 := updatePlayer s targetId (fun p => { p with health := applyDamage p.health damage })
      let s2 := broadcast s1 (.playerHitMsg shooterId targetId damage isHeadshot newHealth) none
      if newHealth ≤ 0 then handlePlayerDeath s2 shooterId targetId else s2
    else s
  | _, _ => s

/-! ## Timers and the event loop -/

/-- The deferred `player_joined` notification callback of `startRound`: tell each
(still connected) player of the captured list about every other one. -/
def joinedNotifyRun (s : ServerState) (players : List ℕ) : ServerState :=
  players.foldl (fun acc pid =>
    match lookupPlayer acc pid with
    | none => acc
    | some _ =>
      players.foldl (fun acc2 other =>
        if other = pid then acc2
        else
          match lookupPlayer acc2 other with
          | some op => sendTo acc2 pid (.playerJoined other op.position op.health)
          | none => acc2) acc) s

/-- Fire a pending timer: remove it from the pending set and run its callback
(`endRound(mid, 'timeout')`, `startRound(mid)`, or the join notification).
Firing a timer that is not pending does nothing. -/
def fireTimer (s : ServerState) (t : TimerTask) (now : ℕ) : ServerState :=
  if t ∈ s.timers then
    let s1 := { s with timers := s.timers.erase t }
    match t with
    | .roundTimeout mid => endRound s1 mid .timeout
    | .nextRoundStart mid => startRound s1 mid now
    | .joinedNotify players => joinedNotifyRun s1 players
  else s

/-- The inbound events of the single-threaded event loop that the claims range
over: connection open/close, matchmaking requests (which pair and start
matches), resolved hits (the engine's delegation to `handlePlayerHit`), and
timer firings. -/
inductive GameEvent where
  | connect
  | disconnect (pid : ℕ)
  | requestMatchmaking (pid : ℕ) (gameMode : String) (now : ℕ)
  | hitResolved (shooterId targetId : ℕ) (damage : ℤ) (isHeadshot : Bool)
  | timerFires (t : TimerTask) (now : ℕ)

/-- One event-loop iteration. -/
def step (s : ServerState) : GameEvent → ServerState
  | .connect => connectPlayer s
  | .disconnect pid => disconnectPlayer s pid
  | .requestMatchmaking pid mode now => handleMatchmakingRequest s pid mode now
  | .hitResolved sh tg d hs => handlePlayerHit s sh tg d hs
  | .timerFires t now => fireTimer s t now

/-- The empty state at process start. -/
def initState : ServerState :=
  { connectedPlayers := [], playerIdCounter := 0, matchmakingQueue := [],
    matchIdCounter := 0, activeMatches := [], timers := [], events := [] }

/-- Run a sequence of events from process start. -/
def runEvents (evs : List GameEvent) : ServerState :=
  evs.foldl step initState

/-! ## Hit resolution engine

The source computes with IEEE doubles; it is modelled here over `ℝ` (the
idealisation of JS `number` arithmetic).  The loop of `performHitDetection`
reads `match.players` together with `connectedPlayers.get`; the latter is
abstracted as a lookup function `getTarget` returning the position and alive
flag of a player. -/

/-- A 3D vector with real coordinates (hit-engine layer). -/
structure Vec3R where
  x : ℝ
  y : ℝ
  z : ℝ

/-- What the hit-detection loop reads about a potential target. -/
structure TargetState where
  position : Vec3R
  isAlive : Bool

/-- The record returned by `calculateRaycastHit`. -/
structure RaycastResult where
  hit : Bool
  distance : ℝ
  hitHeight : ℝ

/-- The record returned by `performHitDetection`. -/
structure HitOutcome where
  hit : Bool
  targetId : Option ℕ
  damage : ℤ
  isHeadshot : Bool
  distance : ℝ

/-- `calculateRaycastHit(shooterPos, direction, targetPos, maxRange)`: miss when
the target is out of range; otherwise normalize the aim direction and the
shooter-to-target vector and hit exactly when their dot product reaches the
accuracy threshold `0.95`, reporting the target distance and the aim ray's
height at that distance. -/
noncomputable def calculateRaycastHit (shooterPos direction targetPos : Vec3R)
    (maxRange : ℝ) : RaycastResult :=
  let toTarget : Vec3R :=
    ⟨targetPos.x - shooterPos.x, targetPos.y - shooterPos.y, targetPos.z - shooterPos.z⟩
  let targetDistance :=
    Real.sqrt (toTarget.x * toTarget.x + toTarget.y * toTarget.y + toTarget.z * toTarget.z)
  if targetDistance > maxRange then ⟨false, targetDistance, 0⟩
  else
    let dirLength :=
      Real.sqrt (direction.x * direction.x + direction.y * direction.y +
        direction.z * direction.z)
    let normalizedDir : Vec3R :=
      ⟨direction.x / dirLength, direction.y / dirLength, direction.z / dirLength⟩
    let normalizedToTarget : Vec3R :=
      ⟨toTarget.x / targetDistance, toTarget.y / targetDistance, toTarget.z / targetDistance⟩
    let dotProduct := normalizedDir.x * normalizedToTarget.x +
      normalizedDir.y * normalizedToTarget.y + normalizedDir.z * normalizedToTarget.z
    if dotProduct ≥ 0.95 then
      ⟨true, targetDistance, shooterPos.y + normalizedDir.y * targetDistance⟩
    else ⟨false, targetDistance, 0⟩

/-- The damage computation of `performHitDetection`'s loop body: `100` for a
headshot, otherwise base damage `35` scaled by the distance falloff
`Math.max(0.3, 1 - distance / maxRange)` and floored. -/
noncomputable def shotDamage (isHeadshot : Bool) (distance : ℝ) : ℤ :=
  if isHeadshot then 100 else Int.floor (35 * max 0.3 (1 - distance / 100))

/-- The loop of `performHitDetection` over `match.players`, carrying
`closestDistance` (initially `maxRange`) and `closestHit` (initially null). -/
noncomputable def performHitDetectionLoop (shooterId : ℕ) (direction shooterPosition : Vec3R)
    (getTarget : ℕ → Option TargetState) :
    List ℕ → ℝ → Option HitOutcome → Option HitOutcome
  | [], _, closestHit => closestHit
  | targetId :: rest, closestDistance, closestHit =>
    if targetId = shooterId then
      performHitDetectionLoop shooterId direction shooterPosition getTarget rest
        closestDistance closestHit
    else
      match getTarget targetId with
      | none =>
        performHitDetectionLoop shooterId direction shooterPosition getTarget rest
          closestDistance closestHit
      | some target =>
        if target.isAlive then
          let hitResult := calculateRaycastHit shooterPosition direction target.position 100
          if hitResult.hit ∧ hitResult.distance < closestDistance then
            performHitDetectionLoop shooterId direction shooterPosition getTarget rest
              hitResult.distance
              (some ⟨true, some targetId,
                shotDamage (decide (hitResult.hitHeight > 1.6)) hitResult.distance,
                decide (hitResult.hitHeight > 1.6), hitResult.distance⟩)
          else
            performHitDetectionLoop shooterId direction shooterPosition getTarget rest
              closestDistance closestHit
        else
          performHitDetectionLoop shooterId direction shooterPosition getTarget rest
            closestDistance closestHit

/-- `performHitDetection(shooterId, direction, shooterPosition)` with
`maxRange = 100`: the closest-hit loop, or the all-false outcome when no hit was
recorded. -/
noncomputable def performHitDetection (shooterId : ℕ) (direction shooterPosition : Vec3R)
    (matchPlayers : List ℕ) (getTarget : ℕ → Option TargetState) : HitOutcome :=
  (performHitDetectionLoop shooterId direction shooterPosition getTarget matchPlayers 100
    none).getD ⟨false, none, 0, false, 0⟩

/-- The spec's qualification words, written from the spec text, for comparison
with the code: a candidate qualifies exactly when its distance from the shot
origin is within the maximum weapon range (`≤ 100`) and the cosine of the angle
between the normalized aim direction and the normalized shooter-to-target
vector meets or exceeds `0.95`. -/
def specQualifies (shooterPos direction targetPos : Vec3R) : Prop :=
  Real.sqrt ((targetPos.x - shooterPos.x) * (targetPos.x - shooterPos.x) +
    (targetPos.y - shooterPos.y) * (targetPos.y - shooterPos.y) +
    (targetPos.z - shooterPos.z) * (targetPos.z - shooterPos.z)) ≤ 100 ∧
  (direction.x / Real.sqrt (direction.x * direction.x + direction.y * direction.y +
      direction.z * direction.z)) *
    ((targetPos.x - shooterPos.x) / Real.sqrt ((targetPos.x - shooterPos.x) *
      (targetPos.x - shooterPos.x) + (targetPos.y - shooterPos.y) * (targetPos.y - shooterPos.y) +
      (targetPos.z - shooterPos.z) * (targetPos.z - shooterPos.z))) +
  (direction.y / Real.sqrt (direction.x * direction.x + direction.y * direction.y +
      direction.z * direction.z)) *
    ((targetPos.y - shooterPos.y) / Real.sqrt ((targetPos.x - shooterPos.x) *
      (targetPos.x - shooterPos.x) + (targetPos.y - shooterPos.y) * (targetPos.y - shooterPos.y) +
      (targetPos.z - shooterPos.z) * (targetPos.z - shooterPos.z))) +
  (direction.z / Real.sqrt (direction.x * direction.x + direction.y * direction.y +
      direction.z * direction.z)) *
    ((targetPos.z - shooterPos.z) / Real.sqrt ((targetPos.x - shooterPos.x) *
      (targetPos.x - shooterPos.x) + (targetPos.y - shooterPos.y) * (targetPos.y - shooterPos.y) +
      (targetPos.z - shooterPos.z) * (targetPos.z - shooterPos.z))) ≥ 0.95

/-- The returned hit outcome was built from target `tid` by the loop body. -/
def FromTid (shooterId : ℕ) (direction shooterPosition : Vec3R)
    (getTarget : ℕ → Option TargetState) (tid : ℕ) (o : HitOutcome) : Prop :=
  tid ≠ shooterId ∧ ∃ t, getTarget tid = some t ∧ t.isAlive = true ∧
    (calculateRaycastHit shooterPosition direction t.position 100).hit = true ∧
    o = ⟨true, some tid,
      shotDamage (decide ((calculateRaycastHit shooterPosition direction t.position 100).hitHeight > 1.6))
        (calculateRaycastHit shooterPosition direction t.position 100).distance,
      decide ((calculateRaycastHit shooterPosition direction t.position 100).hitHeight > 1.6),
      (calculateRaycastHit shooterPosition direction t.position 100).distance⟩

/-- A single living target straight down the z axis at the given depth. -/
noncomputable def zTarget (z : ℝ) : ℕ → Option TargetState :=
  fun tid => if tid = 2 then some ⟨⟨0, 0, z⟩, true⟩ else none

/-! ## Predicates used by the verification -/

/-- Pointwise score domination: every score entry reappears with no smaller value. -/
def ScoresLe (sc sc' : List (ℕ × ℕ)) : Prop :=
  ∀ e ∈ sc, ∃ v, (e.1, v) ∈ sc' ∧ e.2 ≤ v

/-- Recognizes `player_death` messages. -/
def isDeathMsg : GameMsg → Bool
  | .playerDeath _ _ _ => true
  | _ => false

/-- Recognizes `match_end` messages. -/
def isMatchEndMsg : GameMsg → Bool
  | .matchEndMsg _ _ _ _ => true
  | _ => false

/-- Basic per-player facts that hold in every reachable state: `maxHealth` is the
constant 100 and health is clamped nonnegative. -/
def PBase (p : PlayerInfo) : Prop :=
  p.maxHealth = 100 ∧ 0 ≤ p.health

/-- All connected players satisfy `PBase`. -/
def PlayersBase (s : ServerState) : Prop :=
  ∀ e ∈ s.connectedPlayers, PBase (e : ℕ × PlayerInfo).2

/-- Every `player_death` event ever emitted carries `isHeadshot = false`. -/
def DeathEventsFlagged (s : ServerState) : Prop :=
  ∀ em ∈ s.events, ∀ k v hs, (em : Emitted).msg = GameMsg.playerDeath k v hs → hs = false

/-- Well-formedness of the match table: distinct keys, keys bounded by the id
counter, and no stored match is `completed` (completed matches are deleted in
the same event-loop iteration). -/
def MatchKeysOk (s : ServerState) : Prop :=
  (s.activeMatches.map Prod.fst).Nodup ∧
  (∀ k ∈ s.activeMatches.map Prod.fst, k ≤ s.matchIdCounter) ∧
  ∀ e ∈ s.activeMatches, (e : ℕ × MatchData).2.status ≠ MatchStatus.completed

/-- The unconditional reachable-state invariant. -/
def BaseInv (s : ServerState) : Prop :=
  PlayersBase s ∧ DeathEventsFlagged s ∧ MatchKeysOk s

/-- Health never exceeds the maximum. -/
def HealthCap (s : ServerState) : Prop :=
  ∀ e ∈ s.connectedPlayers, (e : ℕ × PlayerInfo).2.health ≤ e.2.maxHealth

/-- Hit events whose damage is nonnegative (every damage value the hit engine
produces is positive). -/
def NonnegHit : GameEvent → Prop
  | .hitResolved _ _ d _ => 0 ≤ d
  | _ => True

/-- Full health bounds for one player record: the base facts plus the cap. -/
def PCap (p : PlayerInfo) : Prop :=
  PBase p ∧ p.health ≤ p.maxHealth

/-- Every connected player's health lies in `[0, maxHealth]`. -/
def PlayersCap (s : ServerState) : Prop :=
  ∀ e ∈ s.connectedPlayers, PCap (e : ℕ × PlayerInfo).2

/-- The matchmaking queue never holds two tickets of the same player. -/
def QueueIdsNodup (s : ServerState) : Prop :=
  (s.matchmakingQueue.map Ticket.playerId).Nodup

/-! ## Concrete fixtures used to instantiate the theorems -/

/-- A connected player in a given match with a given health and alive flag. -/
def demoPlayer (pid : ℕ) (mid : Option ℕ) (h : ℤ) (alive : Bool) : PlayerInfo :=
  { id := pid, position := ⟨0, 0, 0⟩, health := h, maxHealth := 100, isAlive := alive,
    matchId := mid, team := none, kills := 0, deaths := 0 }

/-- A 1v1 match record with the given players, scores, status and round. -/
def demoMatch (ps : List ℕ) (sc : List (ℕ × ℕ)) (st : MatchStatus) (round : ℕ) : MatchData :=
  { players := ps, gameMode := "1v1", currentRound := round, maxRounds := 5,
    roundTimeLimit := 120000, scores := sc, roundStartTime := some 0,
    roundEndTime := some 120000, status := st, winner := none }

/-- A server state holding one active match between players 1 and 2 (player 2
already eliminated) with a pending round-timeout timer. -/
def c3S : ServerState :=
  { connectedPlayers := [(1, demoPlayer 1 (some 1) 100 true), (2, demoPlayer 2 (some 1) 0 false)],
    playerIdCounter := 2, matchmakingQueue := [], matchIdCounter := 1,
    activeMatches := [(1, demoMatch [1, 2] [(1, 0), (2, 0)] .active 1)],
    timers := [.roundTimeout 1], events := [] }

/-- Like `c3S` but the round is already closed (`round_ended`). -/
def c3Sne : ServerState :=
  { connectedPlayers := [(1, demoPlayer 1 (some 1) 100 true), (2, demoPlayer 2 (some 1) 0 false)],
    playerIdCounter := 2, matchmakingQueue := [], matchIdCounter := 1,
    activeMatches := [(1, demoMatch [1, 2] [(1, 0), (2, 0)] .round_ended 1)],
    timers := [.roundTimeout 1], events := [] }

/-- A server state with an active match at scores 2-2, player 2 eliminated. -/
def c6S : ServerState :=
  { connectedPlayers := [(1, demoPlayer 1 (some 1) 100 true), (2, demoPlayer 2 (some 1) 0 false)],
    playerIdCounter := 2, matchmakingQueue := [], matchIdCounter := 1,
    activeMatches := [(1, demoMatch [1, 2] [(1, 2), (2, 2)] .active 5)],
    timers := [], events := [] }

/-- A server state with one active match and both players at equal health 40. -/
def c7S : ServerState :=
  { connectedPlayers := [(1, demoPlayer 1 (some 1) 40 true), (2, demoPlayer 2 (some 1) 40 true)],
    playerIdCounter := 2, matchmakingQueue := [], matchIdCounter := 1,
    activeMatches := [(1, demoMatch [1, 2] [(1, 0), (2, 0)] .active 2)],
    timers := [], events := [] }

/-- Like `c7S` but player 1 has strictly higher health (70 vs 40). -/
def c7S2 : ServerState :=
  { connectedPlayers := [(1, demoPlayer 1 (some 1) 70 true), (2, demoPlayer 2 (some 1) 40 true)],
    playerIdCounter := 2, matchmakingQueue := [], matchIdCounter := 1,
    activeMatches := [(1, demoMatch [1, 2] [(1, 0), (2, 0)] .active 2)],
    timers := [], events := [] }

/-- Two players connected, nobody matched yet. -/
def c10S : ServerState := runEvents [.connect, .connect]

/-- A run in which player 1 is matched against player 2, then (the match still
running) queues again and is matched against the freshly connected player 3. -/
def c4run : ServerState :=
  runEvents [.connect, .connect, .requestMatchmaking 1 "1v1" 10,
    .requestMatchmaking 2 "1v1" 20, .requestMatchmaking 1 "1v1" 30, .connect,
    .requestMatchmaking 3 "1v1" 40]

/-- Two players connect and are paired into match 1. -/
def c4wEvs : List GameEvent :=
  [.connect, .connect, .requestMatchmaking 1 "1v1" 10, .requestMatchmaking 2 "1v1" 20]

/-- Player 1's record after the `c4wEvs` run: seat 0 of match 1. -/
def c4wP : PlayerInfo :=
  { id := 1, position := spawnPointPlayer1, health := 100, maxHealth := 100, isAlive := true,
    matchId := some 1, team := some "team1", kills := 0, deaths := 0 }

/-- Two players connected, player 1 waiting in the 1v1 queue. -/
def c9S : ServerState :=
  runEvents [.connect, .connect, .requestMatchmaking 1 "1v1" 10]

/-- Two players both requesting the (unserved) "2v2" mode. -/
def c9run : ServerState :=
  runEvents [.connect, .connect, .requestMatchmaking 1 "2v2" 10,
    .requestMatchmaking 2 "2v2" 20]

/-- A third player connects after a match between players 1 and 2 started; then
player 1 lands a (non-lethal) hit on player 2. -/
def c5run : ServerState :=
  runEvents [.connect, .connect, .requestMatchmaking 1 "1v1" 10,
    .requestMatchmaking 2 "1v1" 20, .connect, .hitResolved 1 2 10 false]

/-- The state of `c5run` just before the hit. -/
def c5S : ServerState :=
  runEvents [.connect, .connect, .requestMatchmaking 1 "1v1" 10,
    .requestMatchmaking 2 "1v1" 20, .connect]

/-- Player 2's record after the `c5S` run: seat 1 of match 1. -/
def c5P2 : PlayerInfo :=
  { id := 2, position := spawnPointPlayer2, health := 100, maxHealth := 100, isAlive := true,
    matchId := some 1, team := some "team2", kills := 0, deaths := 0 }

/-! ## Association-list lemmas -/

theorem alookup_nil {α : Type} (k : ℕ) : alookup ([] : List (ℕ × α)) k = none := rfl

theorem alookup_cons {α : Type} (e : ℕ × α) (l : List (ℕ × α)) (k : ℕ) :
    alookup (e :: l) k = if e.1 = k then some e.2 else alookup l k := by
  by_cases h : e.1 = k
  · simp [alookup, List.find?_cons, h]
  · simp [alookup, List.find?_cons, h]

theorem alookup_aupdate_self {α : Type} (l : List (ℕ × α)) (k : ℕ) (f : α → α) :
    alookup (aupdate l k f) k = (alookup l k).map f := by
  induction l with
  | nil => rfl
  | cons e t ih =>
    by_cases h : e.1 = k
    · simp [aupdate, alookup_cons, h]
    · simpa [aupdate, alookup_cons, h] using ih

theorem alookup_aupdate_ne {α : Type} (l : List (ℕ × α)) (k k' : ℕ) (f : α → α)
    (h : k' ≠ k) : alookup (aupdate l k f) k' = alookup l k' := by
  have hkk : ¬k = k' := fun hh => h hh.symm
  induction l with
  | nil => rfl
  | cons e t ih =>
    by_cases he : e.1 = k
    · simpa [aupdate, alookup_cons, he, hkk] using ih
    · by_cases he' : e.1 = k'
      · simp [aupdate, alookup_cons, he, he', h]
      · simpa [aupdate, alookup_cons, he, he'] using ih

theorem alookup_aremove_self {α : Type} (l : List (ℕ × α)) (k : ℕ) :
    alookup (aremove l k) k = none := by
  induction l with
  | nil => rfl
  | cons e t ih =>
    simp only [aremove, List.filter_cons] at ih ⊢
    by_cases h : e.1 = k
    · simpa [h] using ih
    · simpa [h, alookup_cons] using ih

theorem alookup_aremove_ne {α : Type} (l : List (ℕ × α)) (k k' : ℕ) (h : k' ≠ k) :
    alookup (aremove l k) k' = alookup l k' := by
  have hkk : ¬k = k' := fun hh => h hh.symm
  induction l with
  | nil => rfl
  | cons e t ih =>
    by_cases he : e.1 = k
    · simpa [aremove, List.filter_cons, he, alookup_cons, hkk] using ih
    · by_cases he' : e.1 = k'
      · simp [aremove, List.filter_cons, he, he', alookup_cons, h]
      · simpa [aremove, List.filter_cons, he, he', alookup_cons] using ih

theorem alookup_append {α : Type} (l l' : List (ℕ × α)) (k : ℕ) :
    alookup (l ++ l') k = (alookup l k).or (alookup l' k) := by
  induction l with
  | nil => simp [alookup_nil]
  | cons e t ih =>
    by_cases h : e.1 = k
    · simp [alookup_cons, h]
    · simpa [alookup_cons, h] using ih

theorem alookup_eq_none_of_forall {α : Type} (l : List (ℕ × α)) (k : ℕ)
    (h : ∀ e ∈ l, e.1 ≠ k) : alookup l k = none := by
  induction l with
  | nil => rfl
  | cons e t ih =>
    simp [alookup_cons, h e (by simp)]
    exact ih (fun e' he' => h e' (by simp [he']))

theorem aupdate_eq_self_of_forall {α : Type} (l : List (ℕ × α)) (k : ℕ) (f : α → α)
    (h : ∀ e ∈ l, e.1 ≠ k) : aupdate l k f = l := by
  induction l with
  | nil => rfl
  | cons e t ih =>
    have h1 : ¬e.1 = k := h e (by simp)
    have h2 := ih (fun e' he' => h e' (by simp [he']))
    simp only [aupdate] at h2 ⊢
    simp only [beq_iff_eq] at h2 ⊢
    simp [h1, h2]

theorem aupdate_map_fst {α : Type} (l : List (ℕ × α)) (k : ℕ) (f : α → α) :
    (aupdate l k f).map Prod.fst = l.map Prod.fst := by
  induction l with
  | nil => rfl
  | cons e t ih =>
    by_cases h : e.1 = k <;> simp [aupdate, h] at ih ⊢ <;> simpa using ih

theorem aupdate_append {α : Type} (l l' : List (ℕ × α)) (k : ℕ) (f : α → α) :
    aupdate (l ++ l') k f = aupdate l k f ++ aupdate l' k f := by
  simp [aupdate]

theorem mem_aupdate {α : Type} {l : List (ℕ × α)} {k : ℕ} {f : α → α} {e : ℕ × α}
    (h : e ∈ aupdate l k f) : ∃ e' ∈ l, e = (if e'.1 = k then (e'.1, f e'.2) else e') := by
  simp only [aupdate, List.mem_map] at h
  obtain ⟨e', he', rfl⟩ := h
  exact ⟨e', he', by by_cases hk : e'.1 = k <;> simp [hk]⟩

theorem mem_aremove {α : Type} {l : List (ℕ × α)} {k : ℕ} {e : ℕ × α}
    (h : e ∈ aremove l k) : e ∈ l :=
  List.mem_of_mem_filter h

/-! ## Generic fold and state-component lemmas -/

theorem foldl_preserve {β γ : Type} (f : ServerState → β → ServerState) (g : ServerState → γ)
    (hf : ∀ s b, g (f s b) = g s) : ∀ (l : List β) (s : ServerState), g (l.foldl f s) = g s := by
  intro l
  induction l with
  | nil => intro s; rfl
  | cons b t ih => intro s; rw [List.foldl_cons, ih, hf]

theorem foldl_events_extension {β : Type} (f : ServerState → β → ServerState)
    (hf : ∀ s b, ∃ l, (f s b).events = s.events ++ l) :
    ∀ (l : List β) (s : ServerState), ∃ l', (l.foldl f s).events = s.events ++ l' := by
  intro l
  induction l with
  | nil => intro s; exact ⟨[], by simp⟩
  | cons b t ih =>
    intro s
    obtain ⟨l1, h1⟩ := hf s b
    obtain ⟨l2, h2⟩ := ih (f s b)
    exact ⟨l1 ++ l2, by rw [List.foldl_cons, h2, h1, List.append_assoc]⟩

/-! ## Lemmas about `endMatch` and `endRound` (round/match closing) -/

theorem lookupMatch_endMatch_self (s : ServerState) (mid : ℕ) :
    lookupMatch (endMatch s mid) mid = none := by
  unfold endMatch
  cases h : lookupMatch s mid with
  | none => exact h
  | some m => simp only [lookupMatch, removeMatch, alookup_aremove_self]

theorem endRound_eq_close (s : ServerState) (mid : ℕ) (m : MatchData) (reason : RoundEndReason)
    (hm : lookupMatch s mid = some m) (hact : m.status = .active) :
    endRound s mid reason = endRoundClose s mid m reason := by
  unfold endRound
  rw [hm]
  exact if_pos hact

theorem endRound_of_not_active (s : ServerState) (mid : ℕ) (reason : RoundEndReason)
    (h : ∀ m, lookupMatch s mid = some m → m.status ≠ .active) :
    endRound s mid reason = s := by
  unfold endRound
  cases hm : lookupMatch s mid with
  | none => rfl
  | some m => simp [h m hm]

theorem endRoundClose_lookup (s : ServerState) (mid : ℕ) (m : MatchData)
    (reason : RoundEndReason) :
    lookupMatch (endRoundClose s mid m reason) mid = none ∨
    ∃ m', lookupMatch (endRoundClose s mid m reason) mid = some m' ∧
      m'.status = .round_ended ∧
      m'.scores = newScoresOf m (roundWinnerOf s m reason) := by
  unfold endRoundClose
  by_cases hc : ((newScoresOf m (roundWinnerOf s m reason)).map (·.2)).foldl max 0 ≥
      (m.maxRounds + 1) / 2
  · rw [if_pos hc]
    exact Or.inl (lookupMatch_endMatch_self _ _)
  · rw [if_neg hc]
    cases h : lookupMatch s mid with
    | none =>
      refine Or.inl ?_
      simp only [lookupMatch, updateMatch, broadcast, alookup_aupdate_self]
      rw [show alookup s.activeMatches mid = lookupMatch s mid from rfl, h]
      rfl
    | some m0 =>
      refine Or.inr ⟨{ m0 with status := MatchStatus.round_ended, scores := newScoresOf m (roundWinnerOf s m reason), currentRound := m0.currentRound + 1 }, ?_, rfl, rfl⟩
      simp only [lookupMatch, updateMatch, broadcast, alookup_aupdate_self]
      rw [show alookup s.activeMatches mid = lookupMatch s mid from rfl, h]
      rfl

theorem endRound_closes (s : ServerState) (mid : ℕ) (m : MatchData) (reason : RoundEndReason)
    (hm : lookupMatch s mid = some m) (hact : m.status = .active) :
    ∀ m', lookupMatch (endRound s mid reason) mid = some m' → m'.status = .round_ended := by
  intro m' hm'
  rw [endRound_eq_close s mid m reason hm hact] at hm'
  rcases endRoundClose_lookup s mid m reason with h | ⟨m2, h2, h3, _⟩
  · rw [h] at hm'
    exact absurd hm' (by simp)
  · rw [h2] at hm'
    obtain rfl : m2 = m' := by injection hm'
    exact h3

theorem fireTimer_roundTimeout_noop (s : ServerState) (mid : ℕ) (now : ℕ)
    (h : ∀ m, lookupMatch s mid = some m → m.status ≠ .active) :
    (fireTimer s (.roundTimeout mid) now).activeMatches = s.activeMatches ∧
    (fireTimer s (.roundTimeout mid) now).connectedPlayers = s.connectedPlayers ∧
    (fireTimer s (.roundTimeout mid) now).events = s.events := by
  unfold fireTimer
  by_cases ht : TimerTask.roundTimeout mid ∈ s.timers
  · rw [if_pos ht]
    have hx := endRound_of_not_active
      { s with timers := s.timers.erase (TimerTask.roundTimeout mid) } mid .timeout h
    show (endRound { s with timers := s.timers.erase (TimerTask.roundTimeout mid) } mid
        .timeout).activeMatches = s.activeMatches ∧
      (endRound { s with timers := s.timers.erase (TimerTask.roundTimeout mid) } mid
        .timeout).connectedPlayers = s.connectedPlayers ∧
      (endRound { s with timers := s.timers.erase (TimerTask.roundTimeout mid) } mid
        .timeout).events = s.events
    rw [hx]
    exact ⟨rfl, rfl, rfl⟩
  · rw [if_neg ht]
    exact ⟨rfl, rfl, rfl⟩

/-! ## Event-emission lemmas -/

theorem filterMap_some_fst {α β : Type} (l : List (α × β)) :
    l.filterMap (fun e => some e.1) = l.map Prod.fst := by
  induction l with
  | nil => rfl
  | cons e t ih => simp [List.filterMap_cons, ih]

theorem broadcast_none_events (s : ServerState) (msg : GameMsg) :
    (broadcast s msg none).events =
      s.events ++ [⟨msg, s.connectedPlayers.map Prod.fst⟩] := by
  simp only [broadcast]
  rw [filterMap_some_fst]

theorem releasePlayer_events (s : ServerState) (pid : ℕ) :
    (releasePlayer s pid).events = s.events := by
  unfold releasePlayer
  cases lookupPlayer s pid <;> rfl

theorem endMatch_events_of_some (s : ServerState) (mid : ℕ) (m : MatchData)
    (hm : lookupMatch s mid = some m) :
    (endMatch s mid).events = s.events ++
      [⟨.matchEndMsg mid (matchWinnerOf m.scores) m.scores m.currentRound,
        s.connectedPlayers.map Prod.fst⟩] := by
  unfold endMatch
  rw [hm]
  show (removeMatch (m.players.foldl releasePlayer _) mid).events = _
  have h1 : ∀ (l : List ℕ) (s' : ServerState), (l.foldl releasePlayer s').events = s'.events :=
    fun l s' => foldl_preserve releasePlayer (fun st => st.events) releasePlayer_events l s'
  show (m.players.foldl releasePlayer _).events = _
  rw [h1]
  rw [broadcast_none_events]
  rfl

theorem endRoundClose_events (s : ServerState) (mid : ℕ) (m : MatchData)
    (reason : RoundEndReason) :
    ∃ rest, (endRoundClose s mid m reason).events =
      s.events ++ ⟨.roundEndMsg mid m.currentRound (roundWinnerOf s m reason) reason
        (newScoresOf m (roundWinnerOf s m reason)), s.connectedPlayers.map Prod.fst⟩ :: rest := by
  unfold endRoundClose
  by_cases hc : ((newScoresOf m (roundWinnerOf s m reason)).map (·.2)).foldl max 0 ≥
      (m.maxRounds + 1) / 2
  · rw [if_pos hc]
    cases h2 : lookupMatch (broadcast (updateMatch s mid fun mm =>
        { mm with status := MatchStatus.round_ended,
                  scores := newScoresOf m (roundWinnerOf s m reason) })
        (.roundEndMsg mid m.currentRound (roundWinnerOf s m reason) reason
          (newScoresOf m (roundWinnerOf s m reason))) none) mid with
    | none =>
      unfold endMatch
      rw [h2, broadcast_none_events]
      exact ⟨[], rfl⟩
    | some m2 =>
      rw [endMatch_events_of_some _ _ _ h2, broadcast_none_events]
      exact ⟨[⟨.matchEndMsg mid (matchWinnerOf m2.scores) m2.scores m2.currentRound,
        s.connectedPlayers.map Prod.fst⟩], by rw [List.append_assoc]; rfl⟩
  · rw [if_neg hc]
    refine ⟨[], ?_⟩
    show (broadcast _ _ none).events = _
    rw [broadcast_none_events]
    rfl

/-! ## Timeout winner computation for a two-player match -/

theorem roundWinnerOf_timeout_two (s : ServerState) (m : MatchData) (a b : ℕ)
    (pa pb : PlayerInfo) (hp : m.players = [a, b]) (ha : lookupPlayer s a = some pa)
    (hb : lookupPlayer s b = some pb) (h0a : -1 < pa.health) (_h0b : -1 < pb.health) :
    roundWinnerOf s m .timeout =
      (if pa.health = pb.health then none
       else if pb.health < pa.health then some a else some b) := by
  unfold roundWinnerOf
  rw [hp]
  simp only [List.foldl_cons, List.foldl_nil, ha, hb, List.filter_cons, List.filter_nil]
  rw [if_pos (show pa.health > (-1 : ℤ) from h0a)]
  by_cases hgt : pb.health > pa.health
  · rw [if_pos hgt]
    have h1 : (pa.health == pb.health) = false := by simp; omega
    have hne : ¬pa.health = pb.health := by omega
    have h3 : ¬pb.health < pa.health := by omega
    simp [h1, hne, h3]
  · rw [if_neg hgt]
    by_cases heq : pa.health = pb.health
    · have h2 : (pb.health == pa.health) = true := by simp [heq]
      simp [h2, heq]
    · have h2 : (pb.health == pa.health) = false := by simp; omega
      have h3 : pb.health < pa.health := by omega
      simp [h2, heq, h3]

/-! ## Score monotonicity infrastructure -/

theorem ScoresLe_refl (sc : List (ℕ × ℕ)) : ScoresLe sc sc :=
  fun e he => ⟨e.2, he, le_rfl⟩

theorem ScoresLe_bump (sc : List (ℕ × ℕ)) (w : ℕ) : ScoresLe sc (aupdate sc w (· + 1)) := by
  intro e he
  have hmem := List.mem_map_of_mem (fun e : ℕ × ℕ => if e.1 == w then (e.1, e.2 + 1) else e) he
  by_cases h : e.1 = w
  · exact ⟨e.2 + 1, by simpa [aupdate, h] using hmem, by omega⟩
  · exact ⟨e.2, by simpa [aupdate, h] using hmem, le_rfl⟩

theorem ScoresLe_newScores (m : MatchData) (w : Option ℕ) :
    ScoresLe m.scores (newScoresOf m w) := by
  cases w with
  | none => exact ScoresLe_refl _
  | some w' => exact ScoresLe_bump _ _

theorem releasePlayer_activeMatches (s : ServerState) (pid : ℕ) :
    (releasePlayer s pid).activeMatches = s.activeMatches := by
  unfold releasePlayer
  cases lookupPlayer s pid <;> rfl

theorem foldl_releasePlayer_activeMatches (l : List ℕ) (s : ServerState) :
    (l.foldl releasePlayer s).activeMatches = s.activeMatches :=
  foldl_preserve releasePlayer (fun st => st.activeMatches) releasePlayer_activeMatches l s

theorem joinedNotifyRun_activeMatches (s : ServerState) (ps : List ℕ) :
    (joinedNotifyRun s ps).activeMatches = s.activeMatches := by
  unfold joinedNotifyRun
  refine foldl_preserve _ (fun st => st.activeMatches) (fun s' pid => ?_) ps s
  cases lookupPlayer s' pid with
  | none => rfl
  | some p =>
    refine foldl_preserve _ (fun st => st.activeMatches) (fun s2 other => ?_) ps s'
    by_cases ho : other = pid
    · simp [ho]
    · simp only [ho, if_false]
      cases lookupPlayer s2 other <;> rfl

theorem resetForRound_activeMatches (mid : ℕ) (m : MatchData) (s : ServerState) (ip : ℕ × ℕ) :
    (resetForRound mid m s ip).activeMatches = s.activeMatches := by
  unfold resetForRound
  cases lookupPlayer s ip.2 <;> rfl

theorem startRound_fold_activeMatches (s : ServerState) (mid : ℕ) (m : MatchData)
    (l : List (ℕ × ℕ)) :
    (l.foldl (resetForRound mid m) s).activeMatches = s.activeMatches :=
  foldl_preserve (resetForRound mid m) (fun st => st.activeMatches)
    (resetForRound_activeMatches mid m) l s

/-- The match-table effect of `startRound`: either nothing (unknown match) or the
status/round-timer update of the target match. -/
theorem startRound_activeMatches_char (s : ServerState) (mid0 : ℕ) (now : ℕ) :
    (startRound s mid0 now).activeMatches = s.activeMatches ∨
    (startRound s mid0 now).activeMatches = aupdate s.activeMatches mid0 (fun mm =>
      { mm with roundStartTime := some now, roundEndTime := some (now + mm.roundTimeLimit),
                status := MatchStatus.active }) := by
  unfold startRound
  cases h : lookupMatch s mid0 with
  | none => exact Or.inl rfl
  | some m0 =>
    refine Or.inr ?_
    show aupdate ((m0.players.enum.foldl (resetForRound mid0 m0) s).activeMatches) mid0
      (fun mm => { mm with roundStartTime := some now, roundEndTime := some (now + mm.roundTimeLimit), status := MatchStatus.active }) = _
    rw [startRound_fold_activeMatches]

theorem lookupMatch_startRound_of_some (s : ServerState) (mid0 now mid : ℕ) (m : MatchData)
    (h : lookupMatch s mid = some m) :
    ∃ m', lookupMatch (startRound s mid0 now) mid = some m' ∧
      m'.scores = m.scores ∧ m'.players = m.players := by
  rcases startRound_activeMatches_char s mid0 now with hc | hc
  · refine ⟨m, ?_, rfl, rfl⟩
    show alookup (startRound s mid0 now).activeMatches mid = some m
    rw [hc]
    exact h
  · by_cases hmid : mid = mid0
    · subst hmid
      refine ⟨{ m with roundStartTime := some now, roundEndTime := some (now + m.roundTimeLimit), status := MatchStatus.active }, ?_, rfl, rfl⟩
      show alookup (startRound s mid now).activeMatches mid = _
      rw [hc, alookup_aupdate_self]
      rw [show alookup s.activeMatches mid = lookupMatch s mid from rfl, h]
      rfl
    · refine ⟨m, ?_, rfl, rfl⟩
      show alookup (startRound s mid0 now).activeMatches mid = some m
      rw [hc, alookup_aupdate_ne _ _ _ _ hmid]
      exact h

theorem lookupMatch_startMatch_of_some (s : ServerState) (mid0 now mid : ℕ) (m : MatchData)
    (h : lookupMatch s mid = some m) :
    ∃ m', lookupMatch (startMatch s mid0 now) mid = some m' ∧
      m'.scores = m.scores ∧ m'.players = m.players := by
  unfold startMatch
  cases h0 : lookupMatch s mid0 with
  | none => exact ⟨m, h, rfl, rfl⟩
  | some _ => exact lookupMatch_startRound_of_some s mid0 now mid m h

theorem lookupMatch_findMatchesLoop_of_some (now mid : ℕ) :
    ∀ (snap : List Ticket) (s : ServerState) (m : MatchData), lookupMatch s mid = some m →
      ∃ m', lookupMatch (findMatchesLoop now s snap) mid = some m' ∧
        m'.scores = m.scores ∧ m'.players = m.players
  | [], s, m, h => ⟨m, h, rfl, rfl⟩
  | [t], s, m, h => ⟨m, h, rfl, rfl⟩
  | t1 :: t2 :: rest, s, m, h => by
    have hstep : ∃ m'', lookupMatch (
        match lookupPlayer { s with
            matchmakingQueue := removePairedTickets s.matchmakingQueue t1.playerId t2.playerId,
            matchIdCounter := s.matchIdCounter + 1,
            activeMatches := s.activeMatches ++
              [(s.matchIdCounter + 1, mkMatchData t1.playerId t2.playerId)] } t1.playerId,
          lookupPlayer { s with
            matchmakingQueue := removePairedTickets s.matchmakingQueue t1.playerId t2.playerId,
            matchIdCounter := s.matchIdCounter + 1,
            activeMatches := s.activeMatches ++
              [(s.matchIdCounter + 1, mkMatchData t1.playerId t2.playerId)] } t2.playerId with
        | some _, some _ => startMatch (updatePlayer (updatePlayer { s with
            matchmakingQueue := removePairedTickets s.matchmakingQueue t1.playerId t2.playerId,
            matchIdCounter := s.matchIdCounter + 1,
            activeMatches := s.activeMatches ++
              [(s.matchIdCounter + 1, mkMatchData t1.playerId t2.playerId)] } t1.playerId
              (fun p => { p with matchId := some (s.matchIdCounter + 1), team := some "team1" }))
              t2.playerId
              (fun p => { p with matchId := some (s.matchIdCounter + 1), team := some "team2" }))
            (s.matchIdCounter + 1) now
        | _, _ => { s with
            matchmakingQueue := removePairedTickets s.matchmakingQueue t1.playerId t2.playerId,
            matchIdCounter := s.matchIdCounter + 1,
            activeMatches := s.activeMatches ++
              [(s.matchIdCounter + 1, mkMatchData t1.playerId t2.playerId)] }) mid = some m'' ∧
        m''.scores = m.scores ∧ m''.players = m.players := by
      have happ : lookupMatch { s with
          matchmakingQueue := removePairedTickets s.matchmakingQueue t1.playerId t2.playerId,
          matchIdCounter := s.matchIdCounter + 1,
          activeMatches := s.activeMatches ++
            [(s.matchIdCounter + 1, mkMatchData t1.playerId t2.playerId)] } mid = some m := by
        show alookup (s.activeMatches ++ _) mid = some m
        rw [alookup_append]
        rw [show alookup s.activeMatches mid = lookupMatch s mid from rfl, h]
        rfl
      cases lookupPlayer { s with
          matchmakingQueue := removePairedTickets s.matchmakingQueue t1.playerId t2.playerId,
          matchIdCounter := s.matchIdCounter + 1,
          activeMatches := s.activeMatches ++
            [(s.matchIdCounter + 1, mkMatchData t1.playerId t2.playerId)] } t1.playerId with
      | none => exact ⟨m, happ, rfl, rfl⟩
      | some _ =>
        cases lookupPlayer { s with
            matchmakingQueue := removePairedTickets s.matchmakingQueue t1.playerId t2.playerId,
            matchIdCounter := s.matchIdCounter + 1,
            activeMatches := s.activeMatches ++
              [(s.matchIdCounter + 1, mkMatchData t1.playerId t2.playerId)] } t2.playerId with
        | none => exact ⟨m, happ, rfl, rfl⟩
        | some _ => exact lookupMatch_startMatch_of_some _ _ now mid m happ
    obtain ⟨m'', h'', hs'', hp''⟩ := hstep
    obtain ⟨m', h', hs', hp'⟩ := lookupMatch_findMatchesLoop_of_some now mid rest _ m'' h''
    exact ⟨m', h', by rw [hs', hs''], by rw [hp', hp'']⟩

theorem activeMatches_broadcast (s : ServerState) (msg : GameMsg) (ex : Option ℕ) :
    (broadcast s msg ex).activeMatches = s.activeMatches := rfl

theorem activeMatches_sendTo (s : ServerState) (pid : ℕ) (msg : GameMsg) :
    (sendTo s pid msg).activeMatches = s.activeMatches := rfl

theorem activeMatches_updatePlayer (s : ServerState) (pid : ℕ) (f : PlayerInfo → PlayerInfo) :
    (updatePlayer s pid f).activeMatches = s.activeMatches := rfl

theorem activeMatches_updateMatch (s : ServerState) (mid : ℕ) (f : MatchData → MatchData) :
    (updateMatch s mid f).activeMatches = aupdate s.activeMatches mid f := rfl

theorem activeMatches_removeMatch (s : ServerState) (mid : ℕ) :
    (removeMatch s mid).activeMatches = aremove s.activeMatches mid := rfl

theorem endMatch_eq_of_none (s : ServerState) (mid : ℕ) (h : lookupMatch s mid = none) :
    endMatch s mid = s := by
  unfold endMatch
  rw [h]

theorem endMatch_eq_of_some (s : ServerState) (mid : ℕ) (m : MatchData)
    (h : lookupMatch s mid = some m) :
    endMatch s mid = removeMatch ((m.players.foldl releasePlayer
      (broadcast (updateMatch s mid (fun mm =>
        { mm with winner := matchWinnerOf m.scores, status := .completed }))
        (.matchEndMsg mid (matchWinnerOf m.scores) m.scores m.currentRound) none))) mid := by
  unfold endMatch
  rw [h]

theorem lookupMatch_endMatch_ne (s : ServerState) (mid0 mid : ℕ) (hne : mid ≠ mid0) :
    lookupMatch (endMatch s mid0) mid = lookupMatch s mid := by
  cases h : lookupMatch s mid0 with
  | none => rw [endMatch_eq_of_none s mid0 h]
  | some m0 =>
    rw [endMatch_eq_of_some s mid0 m0 h]
    show alookup (aremove _ mid0) mid = _
    rw [alookup_aremove_ne _ _ _ hne, foldl_releasePlayer_activeMatches,
      activeMatches_broadcast, activeMatches_updateMatch, alookup_aupdate_ne _ _ _ _ hne]
    rfl

theorem lookupMatch_endRoundClose_ne (s : ServerState) (mid0 : ℕ) (m0 : MatchData)
    (reason : RoundEndReason) (mid : ℕ) (hne : mid ≠ mid0) :
    lookupMatch (endRoundClose s mid0 m0 reason) mid = lookupMatch s mid := by
  unfold endRoundClose
  by_cases hc : ((newScoresOf m0 (roundWinnerOf s m0 reason)).map (·.2)).foldl max 0 ≥
      (m0.maxRounds + 1) / 2
  · rw [if_pos hc, lookupMatch_endMatch_ne _ _ _ hne]
    simp only [lookupMatch, activeMatches_broadcast, activeMatches_updateMatch]
    rw [alookup_aupdate_ne _ _ _ _ hne]
  · rw [if_neg hc]
    simp only [lookupMatch, activeMatches_broadcast, activeMatches_updateMatch]
    rw [alookup_aupdate_ne _ _ _ _ hne, alookup_aupdate_ne _ _ _ _ hne]

theorem endRound_eq_of_none (s : ServerState) (mid : ℕ) (reason : RoundEndReason)
    (h : lookupMatch s mid = none) : endRound s mid reason = s := by
  unfold endRound
  rw [h]

theorem endRound_eq_of_inactive (s : ServerState) (mid : ℕ) (reason : RoundEndReason)
    (m : MatchData) (h : lookupMatch s mid = some m) (hst : ¬m.status = .active) :
    endRound s mid reason = s := by
  unfold endRound
  rw [h]
  exact if_neg hst

theorem endRound_scores_mono (s : ServerState) (mid0 : ℕ) (reason : RoundEndReason)
    (mid : ℕ) (m m' : MatchData) (h1 : lookupMatch s mid = some m)
    (h2 : lookupMatch (endRound s mid0 reason) mid = some m') :
    ScoresLe m.scores m'.scores := by
  by_cases hmid : mid = mid0
  · subst hmid
    by_cases hst : m.status = .active
    · rw [endRound_eq_close s mid m reason h1 hst] at h2
      rcases endRoundClose_lookup s mid m reason with h | ⟨m2, hm2, _, hsc⟩
      · rw [h] at h2
        exact absurd h2 (by simp)
      · rw [hm2] at h2
        obtain rfl : m2 = m' := by injection h2
        rw [hsc]
        exact ScoresLe_newScores m _
    · rw [endRound_eq_of_inactive s mid reason m h1 hst] at h2
      rw [h1] at h2
      obtain rfl : m = m' := by injection h2
      exact ScoresLe_refl _
  · cases h0 : lookupMatch s mid0 with
    | none =>
      rw [endRound_eq_of_none s mid0 reason h0] at h2
      rw [h1] at h2
      obtain rfl : m = m' := by injection h2
      exact ScoresLe_refl _
    | some mm =>
      by_cases hst : mm.status = .active
      · rw [endRound_eq_close s mid0 mm reason h0 hst] at h2
        rw [lookupMatch_endRoundClose_ne _ _ _ _ _ hmid] at h2
        rw [h1] at h2
        obtain rfl : m = m' := by injection h2
        exact ScoresLe_refl _
      · rw [endRound_eq_of_inactive s mid0 reason mm h0 hst] at h2
        rw [h1] at h2
        obtain rfl : m = m' := by injection h2
        exact ScoresLe_refl _

theorem checkRoundEnd_eq_of_none (s : ServerState) (mid : ℕ) (reason : RoundEndReason)
    (h : lookupMatch s mid = none) : checkRoundEnd s mid reason = s := by
  unfold checkRoundEnd
  rw [h]

theorem checkRoundEnd_eq_of_some (s : ServerState) (mid : ℕ) (reason : RoundEndReason)
    (m : MatchData) (h : lookupMatch s mid = some m) :
    checkRoundEnd s mid reason =
      (if m.status = .active then
        (if (m.players.filter (fun pid =>
            match lookupPlayer s pid with
            | some p => p.isAlive
            | none => false)).length ≤ 1 then endRound s mid reason else s)
       else s) := by
  unfold checkRoundEnd
  rw [h]

theorem checkRoundEnd_scores_mono (s : ServerState) (mid0 : ℕ) (reason : RoundEndReason)
    (mid : ℕ) (m m' : MatchData) (h1 : lookupMatch s mid = some m)
    (h2 : lookupMatch (checkRoundEnd s mid0 reason) mid = some m') :
    ScoresLe m.scores m'.scores := by
  cases h0 : lookupMatch s mid0 with
  | none =>
    rw [checkRoundEnd_eq_of_none s mid0 reason h0] at h2
    rw [h1] at h2
    obtain rfl : m = m' := by injection h2
    exact ScoresLe_refl _
  | some mm =>
    rw [checkRoundEnd_eq_of_some s mid0 reason mm h0] at h2
    by_cases hst : mm.status = .active
    · rw [if_pos hst] at h2
      by_cases hal : (mm.players.filter (fun pid =>
          match lookupPlayer s pid with
          | some p => p.isAlive
          | none => false)).length ≤ 1
      · rw [if_pos hal] at h2
        exact endRound_scores_mono s mid0 reason mid m m' h1 h2
      · rw [if_neg hal] at h2
        rw [h1] at h2
        obtain rfl : m = m' := by injection h2
        exact ScoresLe_refl _
    · rw [if_neg hst] at h2
      rw [h1] at h2
      obtain rfl : m = m' := by injection h2
      exact ScoresLe_refl _

theorem handlePlayerDeath_eq_of_noKiller (s : ServerState) (kid vid : ℕ)
    (hk : lookupPlayer s kid = none) : handlePlayerDeath s kid vid = s := by
  unfold handlePlayerDeath
  rw [hk]

theorem handlePlayerDeath_eq_of_noVictim (s : ServerState) (kid vid : ℕ) (k : PlayerInfo)
    (hk : lookupPlayer s kid = some k) (hv : lookupPlayer s vid = none) :
    handlePlayerDeath s kid vid = s := by
  unfold handlePlayerDeath
  rw [hk, hv]

theorem handlePlayerDeath_eq_of_some (s : ServerState) (kid vid : ℕ) (k victim : PlayerInfo)
    (hk : lookupPlayer s kid = some k) (hv : lookupPlayer s vid = some victim) :
    handlePlayerDeath s kid vid =
      (match victim.matchId with
       | some mid => checkRoundEnd (broadcast (updatePlayer (updatePlayer s vid
           (fun p => { p with isAlive := false, deaths := p.deaths + 1 })) kid
           (fun p => { p with kills := p.kills + 1 }))
           (.playerDeath kid vid (decide (victim.health ≤ -65))) none) mid .elimination
       | none => broadcast (updatePlayer (updatePlayer s vid
           (fun p => { p with isAlive := false, deaths := p.deaths + 1 })) kid
           (fun p => { p with kills := p.kills + 1 }))
           (.playerDeath kid vid (decide (victim.health ≤ -65))) none) := by
  unfold handlePlayerDeath
  rw [hk, hv]

theorem handlePlayerDeath_scores_mono (s : ServerState) (kid vid : ℕ) (mid : ℕ)
    (m m' : MatchData) (h1 : lookupMatch s mid = some m)
    (h2 : lookupMatch (handlePlayerDeath s kid vid) mid = some m') :
    ScoresLe m.scores m'.scores := by
  cases hk : lookupPlayer s kid with
  | none =>
    rw [handlePlayerDeath_eq_of_noKiller s kid vid hk] at h2
    rw [h1] at h2
    obtain rfl : m = m' := by injection h2
    exact ScoresLe_refl _
  | some k =>
    cases hv : lookupPlayer s vid with
    | none =>
      rw [handlePlayerDeath_eq_of_noVictim s kid vid k hk hv] at h2
      rw [h1] at h2
      obtain rfl : m = m' := by injection h2
      exact ScoresLe_refl _
    | some victim =>
      rw [handlePlayerDeath_eq_of_some s kid vid k victim hk hv] at h2
      cases hvm : victim.matchId with
      | none =>
        rw [hvm] at h2
        have h2' : lookupMatch s mid = some m' := h2
        rw [h1] at h2'
        obtain rfl : m = m' := by injection h2'
        exact ScoresLe_refl _
      | some mid0 =>
        rw [hvm] at h2
        exact checkRoundEnd_scores_mono (broadcast (updatePlayer (updatePlayer s vid (fun p => { p with isAlive := false, deaths := p.deaths + 1 })) kid (fun p => { p with kills := p.kills + 1 })) (.playerDeath kid vid (decide (victim.health ≤ -65))) none) mid0 .elimination mid m m' h1 h2

theorem handlePlayerHit_eq_of_noShooter (s : ServerState) (sh tg : ℕ) (d : ℤ) (hs : Bool)
    (hsh : lookupPlayer s sh = none) : handlePlayerHit s sh tg d hs = s := by
  unfold handlePlayerHit
  rw [hsh]

theorem handlePlayerHit_eq_of_noTarget (s : ServerState) (sh tg : ℕ) (d : ℤ) (hs : Bool)
    (p : PlayerInfo) (hsh : lookupPlayer s sh = some p) (htg : lookupPlayer s tg = none) :
    handlePlayerHit s sh tg d hs = s := by
  unfold handlePlayerHit
  rw [hsh, htg]

theorem handlePlayerHit_eq_of_some (s : ServerState) (sh tg : ℕ) (d : ℤ) (hs : Bool)
    (p target : PlayerInfo) (hsh : lookupPlayer s sh = some p)
    (htg : lookupPlayer s tg = some target) :
    handlePlayerHit s sh tg d hs =
      (if target.isAlive then
        (if applyDamage target.health d ≤ 0 then
          handlePlayerDeath (broadcast (updatePlayer s tg
            (fun q => { q with health := applyDamage q.health d }))
            (.playerHitMsg sh tg d hs (applyDamage target.health d)) none) sh tg
         else broadcast (updatePlayer s tg
            (fun q => { q with health := applyDamage q.health d }))
            (.playerHitMsg sh tg d hs (applyDamage target.health d)) none)
       else s) := by
  unfold handlePlayerHit
  rw [hsh, htg]

theorem handlePlayerHit_scores_mono (s : ServerState) (sh tg : ℕ) (d : ℤ) (hs : Bool)
    (mid : ℕ) (m m' : MatchData) (h1 : lookupMatch s mid = some m)
    (h2 : lookupMatch (handlePlayerHit s sh tg d hs) mid = some m') :
    ScoresLe m.scores m'.scores := by
  cases hsh : lookupPlayer s sh with
  | none =>
    rw [handlePlayerHit_eq_of_noShooter s sh tg d hs hsh] at h2
    rw [h1] at h2
    obtain rfl : m = m' := by injection h2
    exact ScoresLe_refl _
  | some p =>
    cases htg : lookupPlayer s tg with
    | none =>
      rw [handlePlayerHit_eq_of_noTarget s sh tg d hs p hsh htg] at h2
      rw [h1] at h2
      obtain rfl : m = m' := by injection h2
      exact ScoresLe_refl _
    | some target =>
      rw [handlePlayerHit_eq_of_some s sh tg d hs p target hsh htg] at h2
      by_cases halive : target.isAlive
      · rw [if_pos halive] at h2
        by_cases hdead : applyDamage target.health d ≤ 0
        · rw [if_pos hdead] at h2
          exact handlePlayerDeath_scores_mono (broadcast (updatePlayer s tg (fun q => { q with health := applyDamage q.health d })) (.playerHitMsg sh tg d hs (applyDamage target.health d)) none) sh tg mid m m' h1 h2
        · rw [if_neg hdead] at h2
          have h2' : lookupMatch s mid = some m' := h2
          rw [h1] at h2'
          obtain rfl : m = m' := by injection h2'
          exact ScoresLe_refl _
      · rw [if_neg halive] at h2
        rw [h1] at h2
        obtain rfl : m = m' := by injection h2
        exact ScoresLe_refl _

theorem handleMatchmakingRequest_eq_of_none (s : ServerState) (pid : ℕ) (mode : String)
    (now : ℕ) (hp : lookupPlayer s pid = none) :
    handleMatchmakingRequest s pid mode now = s := by
  unfold handleMatchmakingRequest
  rw [hp]

theorem handleMatchmakingRequest_eq_queued (s : ServerState) (pid : ℕ) (mode : String)
    (now : ℕ) (p : PlayerInfo) (hp : lookupPlayer s pid = some p)
    (hq : (s.matchmakingQueue.findIdx? (fun t => t.playerId == pid)).isSome = true) :
    handleMatchmakingRequest s pid mode now = s := by
  unfold handleMatchmakingRequest
  rw [hp]
  exact if_pos hq

theorem handleMatchmakingRequest_eq_fresh (s : ServerState) (pid : ℕ) (mode : String)
    (now : ℕ) (p : PlayerInfo) (hp : lookupPlayer s pid = some p)
    (hq : ¬(s.matchmakingQueue.findIdx? (fun t => t.playerId == pid)).isSome = true) :
    handleMatchmakingRequest s pid mode now =
      findMatches { s with matchmakingQueue := s.matchmakingQueue ++ [⟨pid, mode, now⟩] } now := by
  unfold handleMatchmakingRequest
  rw [hp]
  exact if_neg hq

theorem fireTimer_scores_mono (s : ServerState) (t : TimerTask) (now : ℕ) (mid : ℕ)
    (m m' : MatchData) (h1 : lookupMatch s mid = some m)
    (h2 : lookupMatch (fireTimer s t now) mid = some m') :
    ScoresLe m.scores m'.scores := by
  unfold fireTimer at h2
  by_cases ht : t ∈ s.timers
  · rw [if_pos ht] at h2
    cases t with
    | roundTimeout mid0 =>
      exact endRound_scores_mono { s with timers := s.timers.erase (TimerTask.roundTimeout mid0) } mid0 .timeout mid m m' h1 h2
    | nextRoundStart mid0 =>
      obtain ⟨m'', h'', hs'', _⟩ := lookupMatch_startRound_of_some
        { s with timers := s.timers.erase (TimerTask.nextRoundStart mid0) } mid0 now mid m h1
      rw [h''] at h2
      obtain rfl : m'' = m' := by injection h2
      rw [hs'']
      exact ScoresLe_refl _
    | joinedNotify ps =>
      have hj : lookupMatch (joinedNotifyRun
          { s with timers := s.timers.erase (TimerTask.joinedNotify ps) } ps) mid =
          lookupMatch s mid := by
        simp only [lookupMatch, joinedNotifyRun_activeMatches]
      rw [hj, h1] at h2
      obtain rfl : m = m' := by injection h2
      exact ScoresLe_refl _
  · rw [if_neg ht] at h2
    rw [h1] at h2
    obtain rfl : m = m' := by injection h2
    exact ScoresLe_refl _

theorem step_scores_mono (s : ServerState) (ev : GameEvent) (mid : ℕ) (m m' : MatchData)
    (h1 : lookupMatch s mid = some m) (h2 : lookupMatch (step s ev) mid = some m') :
    ScoresLe m.scores m'.scores := by
  cases ev with
  | connect =>
    have h2' : lookupMatch s mid = some m' := h2
    rw [h1] at h2'
    obtain rfl : m = m' := by injection h2'
    exact ScoresLe_refl _
  | disconnect pid =>
    have h2' : lookupMatch s mid = some m' := h2
    rw [h1] at h2'
    obtain rfl : m = m' := by injection h2'
    exact ScoresLe_refl _
  | requestMatchmaking pid mode now =>
    show ScoresLe m.scores m'.scores
    have h2 : lookupMatch (handleMatchmakingRequest s pid mode now) mid = some m' := h2
    cases hp : lookupPlayer s pid with
    | none =>
      rw [handleMatchmakingRequest_eq_of_none s pid mode now hp] at h2
      rw [h1] at h2
      obtain rfl : m = m' := by injection h2
      exact ScoresLe_refl _
    | some p =>
      by_cases hq : (s.matchmakingQueue.findIdx? (fun t => t.playerId == pid)).isSome = true
      · rw [handleMatchmakingRequest_eq_queued s pid mode now p hp hq] at h2
        rw [h1] at h2
        obtain rfl : m = m' := by injection h2
        exact ScoresLe_refl _
      · rw [handleMatchmakingRequest_eq_fresh s pid mode now p hp hq] at h2
        obtain ⟨m'', h'', hs'', _⟩ := lookupMatch_findMatchesLoop_of_some now mid
          (({ s with matchmakingQueue := s.matchmakingQueue ++
              [({ playerId := pid, gameMode := mode, queueTime := now } : Ticket)] } :
            ServerState).matchmakingQueue.filter (fun t => t.gameMode == "1v1"))
          { s with matchmakingQueue := s.matchmakingQueue ++
              [({ playerId := pid, gameMode := mode, queueTime := now } : Ticket)] } m h1
        have hx : some m'' = some m' := h''.symm.trans h2
        obtain rfl : m'' = m' := by injection hx
        rw [hs'']
        exact ScoresLe_refl _
  | hitResolved sh tg d hs =>
    exact handlePlayerHit_scores_mono s sh tg d hs mid m m' h1 h2
  | timerFires t now =>
    exact fireTimer_scores_mono s t now mid m m' h1 h2

/-! ## The `endMatch` winner scan returns a maximizer -/

theorem winnerScan_spec : ∀ (sc : List (ℕ × ℕ)) (acc : ℤ × Option ℕ),
    (sc.foldl winnerScanStep acc = acc ∨
      ∃ e ∈ sc, sc.foldl winnerScanStep acc = ((e.2 : ℤ), some e.1)) ∧
    acc.1 ≤ (sc.foldl winnerScanStep acc).1 ∧
    ∀ e ∈ sc, (e.2 : ℤ) ≤ (sc.foldl winnerScanStep acc).1 := by
  intro sc
  induction sc with
  | nil => exact fun acc => ⟨Or.inl rfl, le_rfl, by simp⟩
  | cons e t ih =>
    intro acc
    rw [List.foldl_cons]
    by_cases hgt : (e.2 : ℤ) > acc.1
    · have hstep : winnerScanStep acc e = ((e.2 : ℤ), some e.1) := if_pos hgt
      rw [hstep]
      obtain ⟨hd, hle, hall⟩ := ih ((e.2 : ℤ), some e.1)
      refine ⟨?_, ?_, ?_⟩
      · rcases hd with hd | ⟨e', he', hd⟩
        · exact Or.inr ⟨e, by simp, hd⟩
        · exact Or.inr ⟨e', by simp [he'], hd⟩
      · exact le_trans (le_of_lt hgt) hle
      · intro e' he'
        rcases List.mem_cons.mp he' with rfl | he'
        · exact hle
        · exact hall e' he'
    · have hstep : winnerScanStep acc e = acc := if_neg hgt
      rw [hstep]
      obtain ⟨hd, hle, hall⟩ := ih acc
      refine ⟨?_, hle, ?_⟩
      · rcases hd with hd | ⟨e', he', hd⟩
        · exact Or.inl hd
        · exact Or.inr ⟨e', by simp [he'], hd⟩
      · intro e' he'
        rcases List.mem_cons.mp he' with rfl | he'
        · exact le_trans (not_lt.mp hgt) hle
        · exact hall e' he'

theorem matchWinnerOf_maximizer (sc : List (ℕ × ℕ)) (w : ℕ)
    (hw : matchWinnerOf sc = some w) :
    ∃ e ∈ sc, e.1 = w ∧ ∀ e' ∈ sc, e'.2 ≤ e.2 := by
  obtain ⟨hd, _, hall⟩ := winnerScan_spec sc (-1, none)
  rcases hd with hd | ⟨e, he, hd⟩
  · unfold matchWinnerOf at hw
    rw [hd] at hw
    exact absurd hw (by simp)
  · refine ⟨e, he, ?_, ?_⟩
    · unfold matchWinnerOf at hw
      rw [hd] at hw
      exact Option.some.inj hw
    · intro e' he'
      have h1 := hall e' he'
      rw [hd] at h1
      have h2 : (e'.2 : ℤ) ≤ (e.2 : ℤ) := h1
      exact_mod_cast h2

/-- Exact event output of `endRoundClose`: the `round_end` broadcast, followed by
the `match_end` broadcast exactly when the updated maximum score reaches the
required majority. -/
theorem endRoundClose_events_exact (s : ServerState) (mid : ℕ) (m : MatchData)
    (reason : RoundEndReason) (hm : lookupMatch s mid = some m) :
    (endRoundClose s mid m reason).events = s.events ++
      ⟨.roundEndMsg mid m.currentRound (roundWinnerOf s m reason) reason
        (newScoresOf m (roundWinnerOf s m reason)), s.connectedPlayers.map Prod.fst⟩ ::
      (if ((newScoresOf m (roundWinnerOf s m reason)).map (·.2)).foldl max 0 ≥
          (m.maxRounds + 1) / 2 then
        [⟨.matchEndMsg mid (matchWinnerOf (newScoresOf m (roundWinnerOf s m reason)))
          (newScoresOf m (roundWinnerOf s m reason)) m.currentRound,
          s.connectedPlayers.map Prod.fst⟩]
       else []) := by
  unfold endRoundClose
  by_cases hc : ((newScoresOf m (roundWinnerOf s m reason)).map (·.2)).foldl max 0 ≥
      (m.maxRounds + 1) / 2
  · rw [if_pos hc, if_pos hc]
    have h2 : lookupMatch (broadcast (updateMatch s mid (fun mm =>
        { mm with status := MatchStatus.round_ended,
                  scores := newScoresOf m (roundWinnerOf s m reason) }))
        (.roundEndMsg mid m.currentRound (roundWinnerOf s m reason) reason
          (newScoresOf m (roundWinnerOf s m reason))) none) mid =
        some { m with status := MatchStatus.round_ended, scores := newScoresOf m (roundWinnerOf s m reason) } := by
      simp only [lookupMatch, activeMatches_broadcast, activeMatches_updateMatch,
        alookup_aupdate_self]
      rw [show alookup s.activeMatches mid = lookupMatch s mid from rfl, hm]
      rfl
    rw [endMatch_events_of_some _ _ _ h2, broadcast_none_events, List.append_assoc]
    rfl
  · rw [if_neg hc, if_neg hc]
    exact broadcast_none_events (updateMatch s mid (fun mm =>
      { mm with status := MatchStatus.round_ended,
                scores := newScoresOf m (roundWinnerOf s m reason) }))
      (.roundEndMsg mid m.currentRound (roundWinnerOf s m reason) reason
        (newScoresOf m (roundWinnerOf s m reason)))

/-! ## Preservation of the reachable-state invariant `BaseInv` -/

theorem foldl_pres_prop {β : Type} (P : ServerState → Prop) (f : ServerState → β → ServerState)
    (hf : ∀ s b, P s → P (f s b)) : ∀ (l : List β) (s : ServerState), P s → P (l.foldl f s) := by
  intro l
  induction l with
  | nil => exact fun s h => h
  | cons b t ih => exact fun s h => ih (f s b) (hf s b h)

theorem mem_of_alookup {α : Type} {l : List (ℕ × α)} {k : ℕ} {v : α}
    (h : alookup l k = some v) : (k, v) ∈ l := by
  induction l with
  | nil => exact absurd h (by simp [alookup_nil])
  | cons e t ih =>
    rw [alookup_cons] at h
    by_cases he : e.1 = k
    · rw [if_pos he] at h
      obtain rfl : e.2 = v := by injection h
      subst he
      exact List.mem_cons_self _ _
    · rw [if_neg he] at h
      exact List.mem_cons_of_mem _ (ih h)

theorem baseInv_sendTo (s : ServerState) (pid : ℕ) (msg : GameMsg) (h : BaseInv s)
    (hmsg : ∀ k v hs, msg = GameMsg.playerDeath k v hs → hs = false) :
    BaseInv (sendTo s pid msg) := by
  obtain ⟨hp, hd, hk⟩ := h
  refine ⟨hp, ?_, hk⟩
  intro em hem k v hs hm
  rcases List.mem_append.mp hem with hem | hem
  · exact hd em hem k v hs hm
  · rw [List.mem_singleton] at hem
    exact hmsg k v hs (by rw [← hm, hem])

theorem baseInv_broadcast (s : ServerState) (msg : GameMsg) (ex : Option ℕ) (h : BaseInv s)
    (hmsg : ∀ k v hs, msg = GameMsg.playerDeath k v hs → hs = false) :
    BaseInv (broadcast s msg ex) := by
  obtain ⟨hp, hd, hk⟩ := h
  refine ⟨hp, ?_, hk⟩
  intro em hem k v hs hm
  rcases List.mem_append.mp hem with hem | hem
  · exact hd em hem k v hs hm
  · rw [List.mem_singleton] at hem
    exact hmsg k v hs (by rw [← hm, hem])

theorem baseInv_updatePlayer (s : ServerState) (pid : ℕ) (f : PlayerInfo → PlayerInfo)
    (h : BaseInv s) (hf : ∀ p, PBase p → PBase (f p)) : BaseInv (updatePlayer s pid f) := by
  obtain ⟨hp, hd, hk⟩ := h
  refine ⟨?_, hd, hk⟩
  intro e he
  obtain ⟨e', he', hee⟩ := mem_aupdate he
  by_cases hx : e'.1 = pid
  · rw [hee, if_pos hx]
    exact hf _ (hp e' he')
  · rw [hee, if_neg hx]
    exact hp e' he'

theorem baseInv_updateMatch (s : ServerState) (mid : ℕ) (f : MatchData → MatchData)
    (h : BaseInv s) (hf : ∀ mm, mm.status ≠ .completed → (f mm).status ≠ .completed) :
    BaseInv (updateMatch s mid f) := by
  obtain ⟨hp, hd, ⟨hnd, hle, hst⟩⟩ := h
  refine ⟨hp, hd, ?_, ?_, ?_⟩
  · show ((aupdate s.activeMatches mid f).map Prod.fst).Nodup
    rw [aupdate_map_fst]
    exact hnd
  · show ∀ k ∈ (aupdate s.activeMatches mid f).map Prod.fst, k ≤ s.matchIdCounter
    rw [aupdate_map_fst]
    exact hle
  · intro e he
    obtain ⟨e', he', hee⟩ := mem_aupdate he
    by_cases hx : e'.1 = mid
    · rw [hee, if_pos hx]
      exact hf _ (hst e' he')
    · rw [hee, if_neg hx]
      exact hst e' he'

theorem baseInv_connectPlayer (s : ServerState) (h : BaseInv s) : BaseInv (connectPlayer s) := by
  obtain ⟨hp, hd, hk⟩ := h
  refine baseInv_sendTo _ _ _ ⟨?_, hd, hk⟩ (fun k v hs hm => by simp at hm)
  intro e he
  rcases List.mem_append.mp he with he | he
  · exact hp e he
  · rw [List.mem_singleton] at he
    rw [he]
    exact ⟨rfl, by norm_num [freshPlayer]⟩

theorem baseInv_disconnectPlayer (s : ServerState) (pid : ℕ) (h : BaseInv s) :
    BaseInv (disconnectPlayer s pid) := by
  obtain ⟨hp, hd, hk⟩ := h
  exact baseInv_broadcast _ _ _ ⟨fun e he => hp e (List.mem_of_mem_filter he), hd, hk⟩
    (fun k v hs hm => by simp at hm)

theorem baseInv_resetForRound (mid : ℕ) (m : MatchData) (s : ServerState) (ip : ℕ × ℕ)
    (h : BaseInv s) : BaseInv (resetForRound mid m s ip) := by
  unfold resetForRound
  cases lookupPlayer s ip.2 with
  | none => exact h
  | some p =>
    refine baseInv_sendTo _ _ _ (baseInv_updatePlayer _ _ _ h ?_) (fun k v hs hm => by simp at hm)
    intro q hq
    exact ⟨hq.1, by rw [hq.1]; norm_num⟩

theorem baseInv_startRound (s : ServerState) (mid : ℕ) (now : ℕ) (h : BaseInv s) :
    BaseInv (startRound s mid now) := by
  unfold startRound
  cases hm : lookupMatch s mid with
  | none => exact h
  | some m =>
    have h1 : BaseInv (m.players.enum.foldl (resetForRound mid m) s) :=
      foldl_pres_prop BaseInv (resetForRound mid m) (baseInv_resetForRound mid m) _ s h
    exact baseInv_updateMatch (m.players.enum.foldl (resetForRound mid m) s) mid
      (fun mm => { mm with roundStartTime := some now, roundEndTime := some (now + mm.roundTimeLimit), status := MatchStatus.active })
      h1 (fun mm _ => by simp)

theorem baseInv_startMatch (s : ServerState) (mid : ℕ) (now : ℕ) (h : BaseInv s) :
    BaseInv (startMatch s mid now) := by
  unfold startMatch
  cases lookupMatch s mid with
  | none => exact h
  | some _ => exact baseInv_startRound s mid now h

theorem playersBase_updatePlayer (s : ServerState) (pid : ℕ) (f : PlayerInfo → PlayerInfo)
    (h : PlayersBase s) (hf : ∀ p, PBase p → PBase (f p)) :
    PlayersBase (updatePlayer s pid f) := by
  intro e he
  obtain ⟨e', he', hee⟩ := mem_aupdate he
  by_cases hx : e'.1 = pid
  · rw [hee, if_pos hx]
    exact hf _ (h e' he')
  · rw [hee, if_neg hx]
    exact h e' he'

theorem playersBase_releasePlayer (s : ServerState) (pid : ℕ) (h : PlayersBase s) :
    PlayersBase (releasePlayer s pid) := by
  unfold releasePlayer
  cases lookupPlayer s pid with
  | none => exact h
  | some _ =>
    exact playersBase_updatePlayer s pid _ h (fun p hp => ⟨hp.1, by rw [hp.1]; norm_num⟩)

theorem foldl_releasePlayer_matchIdCounter (l : List ℕ) (s : ServerState) :
    (l.foldl releasePlayer s).matchIdCounter = s.matchIdCounter :=
  foldl_preserve releasePlayer (fun st => st.matchIdCounter)
    (fun st pid => by unfold releasePlayer; cases lookupPlayer st pid <;> rfl) l s

theorem baseInv_endMatch (s : ServerState) (mid : ℕ) (h : BaseInv s) : BaseInv (endMatch s mid) := by
  cases hm : lookupMatch s mid with
  | none =>
    rw [endMatch_eq_of_none s mid hm]
    exact h
  | some m =>
    obtain ⟨hp, hd, hnd, hle, hst⟩ := h
    refine ⟨?_, ?_, ?_, ?_, ?_⟩
    · rw [endMatch_eq_of_some s mid m hm]
      have hx : PlayersBase (m.players.foldl releasePlayer
          (broadcast (updateMatch s mid (fun mm =>
            { mm with winner := matchWinnerOf m.scores, status := .completed }))
            (.matchEndMsg mid (matchWinnerOf m.scores) m.scores m.currentRound) none)) :=
        foldl_pres_prop PlayersBase releasePlayer playersBase_releasePlayer m.players _ hp
      exact hx
    · intro em hem k v hs hmsg
      rw [endMatch_events_of_some s mid m hm] at hem
      rcases List.mem_append.mp hem with hem | hem
      · exact hd em hem k v hs hmsg
      · rw [List.mem_singleton] at hem
        rw [hem] at hmsg
        simp at hmsg
    · rw [endMatch_eq_of_some s mid m hm]
      show ((aremove ((m.players.foldl releasePlayer _ : ServerState)).activeMatches mid).map
        Prod.fst).Nodup
      rw [foldl_releasePlayer_activeMatches, activeMatches_broadcast, activeMatches_updateMatch]
      exact ((List.filter_sublist _).map Prod.fst).nodup (by rw [aupdate_map_fst]; exact hnd)
    · rw [endMatch_eq_of_some s mid m hm]
      intro k hk
      rw [show (removeMatch ((m.players.foldl releasePlayer _ : ServerState)) mid).activeMatches
        = aremove ((m.players.foldl releasePlayer _ : ServerState)).activeMatches mid from rfl,
        foldl_releasePlayer_activeMatches, activeMatches_broadcast, activeMatches_updateMatch]
        at hk
      obtain ⟨e, he, rfl⟩ := List.mem_map.mp hk
      have he' := mem_aremove he
      obtain ⟨e', he'', hee⟩ := mem_aupdate he'
      have : e.1 = e'.1 := by
        by_cases hx : e'.1 = mid
        · rw [hee, if_pos hx]
        · rw [hee, if_neg hx]
      rw [this]
      exact le_trans (hle e'.1 (List.mem_map_of_mem Prod.fst he''))
        (le_of_eq (foldl_releasePlayer_matchIdCounter m.players
          (broadcast (updateMatch s mid (fun mm => { mm with winner := matchWinnerOf m.scores, status := MatchStatus.completed })) (.matchEndMsg mid (matchWinnerOf m.scores) m.scores m.currentRound) none)).symm)
    · rw [endMatch_eq_of_some s mid m hm]
      intro e he
      rw [show (removeMatch ((m.players.foldl releasePlayer _ : ServerState)) mid).activeMatches
        = aremove ((m.players.foldl releasePlayer _ : ServerState)).activeMatches mid from rfl,
        foldl_releasePlayer_activeMatches, activeMatches_broadcast, activeMatches_updateMatch]
        at he
      have hne : ¬(e.1 = mid) := by
        have := (List.mem_filter.mp he).2
        simpa using this
      obtain ⟨e', he'', hee⟩ := mem_aupdate (mem_aremove he)
      by_cases hx : e'.1 = mid
      · exfalso
        apply hne
        rw [hee, if_pos hx]
        exact hx
      · rw [hee, if_neg hx]
        exact hst e' he''

theorem baseInv_endRoundClose (s : ServerState) (mid : ℕ) (m : MatchData)
    (reason : RoundEndReason) (h : BaseInv s) : BaseInv (endRoundClose s mid m reason) := by
  unfold endRoundClose
  have h2 : BaseInv (broadcast (updateMatch s mid (fun mm =>
      { mm with status := MatchStatus.round_ended,
                scores := newScoresOf m (roundWinnerOf s m reason) }))
      (.roundEndMsg mid m.currentRound (roundWinnerOf s m reason) reason
        (newScoresOf m (roundWinnerOf s m reason))) none) :=
    baseInv_broadcast _ _ _
      (baseInv_updateMatch s mid _ h (fun mm _ => by simp))
      (fun k v hs hm => by simp at hm)
  by_cases hc : ((newScoresOf m (roundWinnerOf s m reason)).map (·.2)).foldl max 0 ≥
      (m.maxRounds + 1) / 2
  · rw [if_pos hc]
    exact baseInv_endMatch _ mid h2
  · rw [if_neg hc]
    exact baseInv_updateMatch _ mid
      (fun mm => { mm with currentRound := mm.currentRound + 1 })
      h2 (fun mm hmm => by simpa using hmm)

theorem baseInv_endRound (s : ServerState) (mid : ℕ) (reason : RoundEndReason)
    (h : BaseInv s) : BaseInv (endRound s mid reason) := by
  cases hm : lookupMatch s mid with
  | none =>
    rw [endRound_eq_of_none s mid reason hm]
    exact h
  | some m =>
    by_cases hst : m.status = .active
    · rw [endRound_eq_close s mid m reason hm hst]
      exact baseInv_endRoundClose s mid m reason h
    · rw [endRound_eq_of_inactive s mid reason m hm hst]
      exact h

theorem baseInv_checkRoundEnd (s : ServerState) (mid : ℕ) (reason : RoundEndReason)
    (h : BaseInv s) : BaseInv (checkRoundEnd s mid reason) := by
  cases hm : lookupMatch s mid with
  | none =>
    rw [checkRoundEnd_eq_of_none s mid reason hm]
    exact h
  | some m =>
    rw [checkRoundEnd_eq_of_some s mid reason m hm]
    by_cases hst : m.status = .active
    · rw [if_pos hst]
      by_cases hal : (m.players.filter (fun pid =>
          match lookupPlayer s pid with
          | some p => p.isAlive
          | none => false)).length ≤ 1
      · rw [if_pos hal]
        exact baseInv_endRound s mid reason h
      · rw [if_neg hal]
        exact h
    · rw [if_neg hst]
      exact h

theorem baseInv_handlePlayerDeath (s : ServerState) (kid vid : ℕ) (h : BaseInv s) :
    BaseInv (handlePlayerDeath s kid vid) := by
  cases hk : lookupPlayer s kid with
  | none =>
    rw [handlePlayerDeath_eq_of_noKiller s kid vid hk]
    exact h
  | some k =>
    cases hv : lookupPlayer s vid with
    | none =>
      rw [handlePlayerDeath_eq_of_noVictim s kid vid k hk hv]
      exact h
    | some victim =>
      rw [handlePlayerDeath_eq_of_some s kid vid k victim hk hv]
      have hvh : 0 ≤ victim.health := (h.1 (vid, victim) (mem_of_alookup hv)).2
      have h3 : BaseInv (broadcast (updatePlayer (updatePlayer s vid
          (fun p => { p with isAlive := false, deaths := p.deaths + 1 })) kid
          (fun p => { p with kills := p.kills + 1 }))
          (.playerDeath kid vid (decide (victim.health ≤ -65))) none) := by
        refine baseInv_broadcast _ _ _ ?_ ?_
        · exact baseInv_updatePlayer _ kid _
            (baseInv_updatePlayer _ vid _ h (fun p hp => ⟨hp.1, hp.2⟩))
            (fun p hp => ⟨hp.1, hp.2⟩)
        · intro k' v' hs' hm
          injection hm with h1 h2 h3
          rw [← h3]
          exact decide_eq_false (by omega)
      cases victim.matchId with
      | none => exact h3
      | some mid0 => exact baseInv_checkRoundEnd _ mid0 .elimination h3

theorem baseInv_handlePlayerHit (s : ServerState) (sh tg : ℕ) (d : ℤ) (hs : Bool)
    (h : BaseInv s) : BaseInv (handlePlayerHit s sh tg d hs) := by
  cases hsh : lookupPlayer s sh with
  | none =>
    rw [handlePlayerHit_eq_of_noShooter s sh tg d hs hsh]
    exact h
  | some p =>
    cases htg : lookupPlayer s tg with
    | none =>
      rw [handlePlayerHit_eq_of_noTarget s sh tg d hs p hsh htg]
      exact h
    | some target =>
      rw [handlePlayerHit_eq_of_some s sh tg d hs p target hsh htg]
      by_cases halive : target.isAlive
      · rw [if_pos halive]
        have h2 : BaseInv (broadcast (updatePlayer s tg
            (fun q => { q with health := applyDamage q.health d }))
            (.playerHitMsg sh tg d hs (applyDamage target.health d)) none) := by
          refine baseInv_broadcast _ _ _ ?_ (fun k v hs' hm => by simp at hm)
          exact baseInv_updatePlayer _ tg _ h
            (fun q hq => ⟨hq.1, le_max_left 0 _⟩)
        by_cases hdead : applyDamage target.health d ≤ 0
        · rw [if_pos hdead]
          exact baseInv_handlePlayerDeath _ sh tg h2
        · rw [if_neg hdead]
          exact h2
      · rw [if_neg halive]
        exact h

theorem baseInv_joinedNotifyRun (s : ServerState) (ps : List ℕ) (h : BaseInv s) :
    BaseInv (joinedNotifyRun s ps) := by
  unfold joinedNotifyRun
  refine foldl_pres_prop BaseInv _ (fun s' pid h' => ?_) ps s h
  cases lookupPlayer s' pid with
  | none => exact h'
  | some p =>
    refine foldl_pres_prop BaseInv _ (fun s2 other h2 => ?_) ps s' h'
    by_cases ho : other = pid
    · simp only [ho, if_true]
      exact h2
    · simp only [ho, if_false]
      cases lookupPlayer s2 other with
      | none => exact h2
      | some op => exact baseInv_sendTo _ _ _ h2 (fun k v hs hm => by simp at hm)

theorem baseInv_fireTimer (s : ServerState) (t : TimerTask) (now : ℕ) (h : BaseInv s) :
    BaseInv (fireTimer s t now) := by
  unfold fireTimer
  by_cases ht : t ∈ s.timers
  · rw [if_pos ht]
    have h1 : BaseInv { s with timers := s.timers.erase t } := h
    cases t with
    | roundTimeout mid => exact baseInv_endRound _ mid .timeout h1
    | nextRoundStart mid => exact baseInv_startRound _ mid now h1
    | joinedNotify ps => exact baseInv_joinedNotifyRun _ ps h1
  · rw [if_neg ht]
    exact h

theorem baseInv_findMatchesLoop (now : ℕ) :
    ∀ (snap : List Ticket) (s : ServerState), BaseInv s → BaseInv (findMatchesLoop now s snap)
  | [], s, h => h
  | [t], s, h => h
  | t1 :: t2 :: rest, s, h => by
    show BaseInv (findMatchesLoop now _ rest)
    refine baseInv_findMatchesLoop now rest _ ?_
    obtain ⟨hp, hd, hnd, hle, hst⟩ := h
    have h2 : BaseInv { s with
        matchmakingQueue := removePairedTickets s.matchmakingQueue t1.playerId t2.playerId,
        matchIdCounter := s.matchIdCounter + 1,
        activeMatches := s.activeMatches ++
          [(s.matchIdCounter + 1, mkMatchData t1.playerId t2.playerId)] } := by
      refine ⟨hp, hd, ?_, ?_, ?_⟩
      · show ((s.activeMatches ++ [(s.matchIdCounter + 1, _)]).map Prod.fst).Nodup
        rw [List.map_append]
        rw [List.nodup_append]
        refine ⟨hnd, by simp, ?_⟩
        intro a ha hb
        simp at hb
        have := hle a ha
        omega
      · intro k hk
        rw [List.map_append] at hk
        show k ≤ s.matchIdCounter + 1
        rcases List.mem_append.mp hk with hk | hk
        · exact le_trans (hle k hk) (by omega)
        · simp at hk
          omega
      · intro e he
        rcases List.mem_append.mp he with he | he
        · exact hst e he
        · rw [List.mem_singleton] at he
          rw [he]
          simp [mkMatchData]
    cases lookupPlayer { s with
        matchmakingQueue := removePairedTickets s.matchmakingQueue t1.playerId t2.playerId,
        matchIdCounter := s.matchIdCounter + 1,
        activeMatches := s.activeMatches ++
          [(s.matchIdCounter + 1, mkMatchData t1.playerId t2.playerId)] } t1.playerId with
    | none => exact h2
    | some _ =>
      cases lookupPlayer { s with
          matchmakingQueue := removePairedTickets s.matchmakingQueue t1.playerId t2.playerId,
          matchIdCounter := s.matchIdCounter + 1,
          activeMatches := s.activeMatches ++
            [(s.matchIdCounter + 1, mkMatchData t1.playerId t2.playerId)] } t2.playerId with
      | none => exact h2
      | some _ =>
        refine baseInv_startMatch _ _ now ?_
        refine baseInv_updatePlayer _ t2.playerId _ ?_ (fun p hp => ⟨hp.1, hp.2⟩)
        exact baseInv_updatePlayer _ t1.playerId _ h2 (fun p hp => ⟨hp.1, hp.2⟩)

theorem baseInv_handleMatchmakingRequest (s : ServerState) (pid : ℕ) (mode : String)
    (now : ℕ) (h : BaseInv s) : BaseInv (handleMatchmakingRequest s pid mode now) := by
  cases hp : lookupPlayer s pid with
  | none =>
    rw [handleMatchmakingRequest_eq_of_none s pid mode now hp]
    exact h
  | some p =>
    by_cases hq : (s.matchmakingQueue.findIdx? (fun t => t.playerId == pid)).isSome = true
    · rw [handleMatchmakingRequest_eq_queued s pid mode now p hp hq]
      exact h
    · rw [handleMatchmakingRequest_eq_fresh s pid mode now p hp hq]
      exact baseInv_findMatchesLoop now _ _ h

theorem baseInv_step (s : ServerState) (ev : GameEvent) (h : BaseInv s) :
    BaseInv (step s ev) := by
  cases ev with
  | connect => exact baseInv_connectPlayer s h
  | disconnect pid => exact baseInv_disconnectPlayer s pid h
  | requestMatchmaking pid mode now => exact baseInv_handleMatchmakingRequest s pid mode now h
  | hitResolved sh tg d hs => exact baseInv_handlePlayerHit s sh tg d hs h
  | timerFires t now => exact baseInv_fireTimer s t now h

theorem baseInv_initState : BaseInv initState :=
  ⟨fun e he => absurd he (by simp [initState]),
   fun em hem => absurd hem (by simp [initState]),
   by simp [initState],
   fun k hk => absurd hk (by simp [initState]),
   fun e he => absurd he (by simp [initState])⟩

theorem baseInv_runEvents (evs : List GameEvent) : BaseInv (runEvents evs) := by
  unfold runEvents
  exact foldl_pres_prop BaseInv step baseInv_step evs initState baseInv_initState

/-! ## Events are append-only -/

theorem events_ext_endMatch (s : ServerState) (mid : ℕ) :
    ∃ l, (endMatch s mid).events = s.events ++ l := by
  cases hm : lookupMatch s mid with
  | none =>
    rw [endMatch_eq_of_none s mid hm]
    exact ⟨[], by simp⟩
  | some m =>
    exact ⟨_, endMatch_events_of_some s mid m hm⟩

theorem events_ext_endRound (s : ServerState) (mid : ℕ) (reason : RoundEndReason) :
    ∃ l, (endRound s mid reason).events = s.events ++ l := by
  cases hm : lookupMatch s mid with
  | none =>
    rw [endRound_eq_of_none s mid reason hm]
    exact ⟨[], by simp⟩
  | some m =>
    by_cases hst : m.status = .active
    · rw [endRound_eq_close s mid m reason hm hst]
      obtain ⟨rest, hr⟩ := endRoundClose_events s mid m reason
      exact ⟨_, hr⟩
    · rw [endRound_eq_of_inactive s mid reason m hm hst]
      exact ⟨[], by simp⟩

theorem events_ext_checkRoundEnd (s : ServerState) (mid : ℕ) (reason : RoundEndReason) :
    ∃ l, (checkRoundEnd s mid reason).events = s.events ++ l := by
  cases hm : lookupMatch s mid with
  | none =>
    rw [checkRoundEnd_eq_of_none s mid reason hm]
    exact ⟨[], by simp⟩
  | some m =>
    rw [checkRoundEnd_eq_of_some s mid reason m hm]
    by_cases hst : m.status = .active
    · rw [if_pos hst]
      by_cases hal : (m.players.filter (fun pid =>
          match lookupPlayer s pid with
          | some p => p.isAlive
          | none => false)).length ≤ 1
      · rw [if_pos hal]
        exact events_ext_endRound s mid reason
      · rw [if_neg hal]
        exact ⟨[], by simp⟩
    · rw [if_neg hst]
      exact ⟨[], by simp⟩

theorem map_fst_updatePlayer (s : ServerState) (pid : ℕ) (f : PlayerInfo → PlayerInfo) :
    (updatePlayer s pid f).connectedPlayers.map Prod.fst =
      s.connectedPlayers.map Prod.fst :=
  aupdate_map_fst s.connectedPlayers pid f

/-- **C10**: every `player_death` event reachable from process start carries
`isHeadshot = false`: `handlePlayerHit` clamps the victim's health at 0 before
death handling runs, so the populating condition `victim.health <= -65` can
never hold; the death broadcast for a victim with clamped (nonnegative) health
is emitted with the flag `false`. -/
theorem c10_death_event_never_headshot :
    (∀ (evs : List GameEvent), ∀ em ∈ (runEvents evs).events, ∀ k v hs,
      (em : Emitted).msg = GameMsg.playerDeath k v hs → hs = false) ∧
    (∀ h d : ℤ, 0 ≤ applyDamage h d) ∧
    (∀ (s : ServerState) (kid vid : ℕ) (k victim : PlayerInfo),
      lookupPlayer s kid = some k → lookupPlayer s vid = some victim →
      0 ≤ victim.health →
      (⟨.playerDeath kid vid false, s.connectedPlayers.map Prod.fst⟩ : Emitted) ∈
        (handlePlayerDeath s kid vid).events) := by
  refine ⟨fun evs => (baseInv_runEvents evs).2.1, fun h d => le_max_left 0 _, ?_⟩
  intro s kid vid k victim hk hv h0
  rw [handlePlayerDeath_eq_of_some s kid vid k victim hk hv]
  have hflag : decide (victim.health ≤ -65) = false := decide_eq_false (by omega)
  rw [hflag]
  have hev : (broadcast (updatePlayer (updatePlayer s vid
      (fun p => { p with isAlive := false, deaths := p.deaths + 1 })) kid
      (fun p => { p with kills := p.kills + 1 }))
      (.playerDeath kid vid false) none).events =
      s.events ++ [⟨.playerDeath kid vid false,
        s.connectedPlayers.map Prod.fst⟩] := by
    rw [broadcast_none_events, map_fst_updatePlayer, map_fst_updatePlayer]
    rfl
  cases victim.matchId with
  | none =>
    rw [hev]
    exact List.mem_append_right _ (List.mem_singleton.mpr rfl)
  | some mid0 =>
    obtain ⟨l, hl⟩ := events_ext_checkRoundEnd (broadcast (updatePlayer (updatePlayer s vid
      (fun p => { p with isAlive := false, deaths := p.deaths + 1 })) kid
      (fun p => { p with kills := p.kills + 1 }))
      (.playerDeath kid vid false) none) mid0 .elimination
    rw [hl, hev]
    refine List.mem_append_left _ ?_
    exact List.mem_append_right _ (List.mem_singleton.mpr rfl)

theorem c10_witness :
    (⟨.playerDeath 1 2 false, [1, 2]⟩ : Emitted) ∈ (handlePlayerDeath c10S 1 2).events :=
  c10_death_event_never_headshot.2.2 c10S 1 2 (freshPlayer 1) (freshPlayer 2)
    (by decide) (by decide) (by decide)

theorem countP_key_eq_count {α : Type} (l : List (ℕ × α)) (mid : ℕ) :
    l.countP (fun e => e.1 == mid) = (l.map Prod.fst).count mid := by
  induction l with
  | nil => rfl
  | cons e t ih =>
    rw [List.countP_cons, List.map_cons, List.count_cons, ih]

/-- Amended **C4**: in every reachable state, a player's `matchId` refers to at
most one stored match, and any match it refers to is not `completed` (the server
deletes a match in the same event-loop iteration that completes it). -/
theorem c4_match_exclusivity_amended (evs : List GameEvent) (pid : ℕ) (p : PlayerInfo)
    (mid : ℕ) (_hp : lookupPlayer (runEvents evs) pid = some p)
    (_hm : p.matchId = some mid) :
    ((runEvents evs).activeMatches.countP (fun e => e.1 == mid)) ≤ 1 ∧
    (∀ m, lookupMatch (runEvents evs) mid = some m → m.status ≠ MatchStatus.completed) := by
  obtain ⟨_, _, hnd, _, hst⟩ := baseInv_runEvents evs
  constructor
  · rw [countP_key_eq_count]
    exact List.nodup_iff_count_le_one.mp hnd mid
  · intro m hmm
    exact hst (mid, m) (mem_of_alookup hmm)

/-- Counterexample to C4 as stated: after the `c4run` event sequence, the two
stored matches 1 and 2 are both `active` and both list player 1 among their
players — the matchmaker never checks whether a requesting player is already in
a match. -/
theorem c4_counterexample :
    ((lookupMatch c4run 1).map MatchData.players = some [1, 2]) ∧
    ((lookupMatch c4run 2).map MatchData.players = some [1, 3]) ∧
    ((lookupMatch c4run 1).map MatchData.status = some MatchStatus.active) ∧
    ((lookupMatch c4run 2).map MatchData.status = some MatchStatus.active) := by
  decide

theorem c4_witness :
    ((runEvents c4wEvs).activeMatches.countP (fun e => e.1 == 1) ≤ 1) ∧
    (∀ m, lookupMatch (runEvents c4wEvs) 1 = some m → m.status ≠ MatchStatus.completed) :=
  c4_match_exclusivity_amended c4wEvs 1 c4wP 1 (by decide) (by decide)

/-- **C6**: at a round end of an active match, the `match_end` declaration is
emitted exactly when some player's updated round-win count has reached
`ceil(maxRounds / 2)` (3 for the best-of-5 matches the server creates), the
declared winner is a player holding the maximal round-win count, and no state
transition of the event loop ever decreases a stored round-win score. -/
theorem c6_winner_declared_iff_majority :
    (∀ (s : ServerState) (mid : ℕ) (m : MatchData) (reason : RoundEndReason),
      lookupMatch s mid = some m → m.status = MatchStatus.active →
      (endRound s mid reason).events = s.events ++
        ⟨.roundEndMsg mid m.currentRound (roundWinnerOf s m reason) reason
          (newScoresOf m (roundWinnerOf s m reason)), s.connectedPlayers.map Prod.fst⟩ ::
        (if ((newScoresOf m (roundWinnerOf s m reason)).map (·.2)).foldl max 0 ≥
            (m.maxRounds + 1) / 2 then
          [⟨.matchEndMsg mid (matchWinnerOf (newScoresOf m (roundWinnerOf s m reason)))
            (newScoresOf m (roundWinnerOf s m reason)) m.currentRound,
            s.connectedPlayers.map Prod.fst⟩]
         else [])) ∧
    (∀ (sc : List (ℕ × ℕ)) (w : ℕ), matchWinnerOf sc = some w →
      ∃ e ∈ sc, e.1 = w ∧ ∀ e' ∈ sc, e'.2 ≤ e.2) ∧
    (∀ p1 p2 : ℕ, ((mkMatchData p1 p2).maxRounds + 1) / 2 = 3) ∧
    (∀ (s : ServerState) (ev : GameEvent) (mid : ℕ) (m m' : MatchData),
      lookupMatch s mid = some m → lookupMatch (step s ev) mid = some m' →
      ScoresLe m.scores m'.scores) := by
  refine ⟨?_, matchWinnerOf_maximizer, fun p1 p2 => by norm_num [mkMatchData], step_scores_mono⟩
  intro s mid m reason hm hact
  rw [endRound_eq_close s mid m reason hm hact]
  exact endRoundClose_events_exact s mid m reason hm

/-- Witness for C6: from a 2-2 score, an elimination win by player 1 bumps the
score to 3, reaches the majority 3 = ceil(5/2), and declares player 1 (the
maximal scorer) the winner in a `match_end` event. -/
theorem c6_witness :
    (endRound c6S 1 .elimination).events =
      [⟨.roundEndMsg 1 5 (some 1) .elimination [(1, 3), (2, 2)], [1, 2]⟩,
       ⟨.matchEndMsg 1 (some 1) [(1, 3), (2, 2)] 5, [1, 2]⟩] :=
  ((c6_winner_declared_iff_majority.1 c6S 1 (demoMatch [1, 2] [(1, 2), (2, 2)] .active 5)
    .elimination rfl rfl)).trans (by decide)

/-- **C7**: when an active round ends by timeout, the round win is credited to the
player with strictly higher remaining health; with equal health the round-end
event fires with winner null, reason timeout, and neither player's score
changes (neither in the broadcast scores nor in the stored match). -/
theorem c7_timeout_winner_attribution
    (s : ServerState) (mid : ℕ) (m : MatchData) (a b : ℕ) (pa pb : PlayerInfo)
    (hm : lookupMatch s mid = some m) (hact : m.status = MatchStatus.active)
    (hp : m.players = [a, b])
    (ha : lookupPlayer s a = some pa) (hb : lookupPlayer s b = some pb)
    (h0a : 0 ≤ pa.health) (h0b : 0 ≤ pb.health) :
    (pa.health = pb.health →
      (⟨.roundEndMsg mid m.currentRound none .timeout m.scores,
        s.connectedPlayers.map Prod.fst⟩ : Emitted) ∈ (endRound s mid .timeout).events ∧
      ∀ m', lookupMatch (endRound s mid .timeout) mid = some m' → m'.scores = m.scores) ∧
    (pb.health < pa.health →
      (⟨.roundEndMsg mid m.currentRound (some a) .timeout (aupdate m.scores a (· + 1)),
        s.connectedPlayers.map Prod.fst⟩ : Emitted) ∈ (endRound s mid .timeout).events) ∧
    (pa.health < pb.health →
      (⟨.roundEndMsg mid m.currentRound (some b) .timeout (aupdate m.scores b (· + 1)),
        s.connectedPlayers.map Prod.fst⟩ : Emitted) ∈ (endRound s mid .timeout).events) := by
  have hw := roundWinnerOf_timeout_two s m a b pa pb hp ha hb (by omega) (by omega)
  rw [endRound_eq_close s mid m .timeout hm hact]
  obtain ⟨rest, hev⟩ := endRoundClose_events s mid m .timeout
  refine ⟨?_, ?_, ?_⟩
  · intro heq
    have hwn : roundWinnerOf s m .timeout = none := by rw [hw, if_pos heq]
    constructor
    · rw [hev, hwn]
      exact List.mem_append_right _ (List.mem_cons_self _ _)
    · intro m' hm'
      rcases endRoundClose_lookup s mid m .timeout with h | ⟨m2, h2, _, h4⟩
      · rw [h] at hm'
        exact absurd hm' (by simp)
      · rw [h2] at hm'
        obtain rfl : m2 = m' := by injection hm'
        rw [h4, hwn]
        rfl
  · intro hlt
    have hwn : roundWinnerOf s m .timeout = some a := by
      rw [hw, if_neg (by omega), if_pos hlt]
    rw [hev, hwn]
    exact List.mem_append_right _ (List.mem_cons_self _ _)
  · intro hlt
    have hwn : roundWinnerOf s m .timeout = some b := by
      rw [hw, if_neg (by omega), if_neg (by omega)]
    rw [hev, hwn]
    exact List.mem_append_right _ (List.mem_cons_self _ _)

/-- Witness for C7: a tied 40/40 timeout yields winner null and untouched scores;
a 70/40 timeout credits the healthier player 1. -/
theorem c7_witness :
    (⟨.roundEndMsg 1 2 none .timeout [(1, 0), (2, 0)], [1, 2]⟩ : Emitted) ∈
      (endRound c7S 1 .timeout).events ∧
    (⟨.roundEndMsg 1 2 (some 1) .timeout [(1, 1), (2, 0)], [1, 2]⟩ : Emitted) ∈
      (endRound c7S2 1 .timeout).events :=
  ⟨((c7_timeout_winner_attribution c7S 1 (demoMatch [1, 2] [(1, 0), (2, 0)] .active 2) 1 2
      (demoPlayer 1 (some 1) 40 true) (demoPlayer 2 (some 1) 40 true)
      rfl rfl rfl rfl rfl (by decide) (by decide)).1 rfl).1,
   ((c7_timeout_winner_attribution c7S2 1 (demoMatch [1, 2] [(1, 0), (2, 0)] .active 2) 1 2
      (demoPlayer 1 (some 1) 70 true) (demoPlayer 2 (some 1) 40 true)
      rfl rfl rfl rfl rfl (by decide) (by decide)).2.1 (by decide))⟩

/-- **C3**: whichever round-ending transition fires first is authoritative and the
later firing of the other path is a no-op, enforced solely by re-checking the
match's status at execution time: `endRound` leaves the state untouched whenever
the referenced match is missing or no longer `active`, and a pending
round-timeout timer firing after an elimination already closed the round leaves
the match table, the player registry and the emitted events unchanged. -/
theorem c3_timeout_after_elimination_noop :
    (∀ (s : ServerState) (mid : ℕ) (reason : RoundEndReason),
      (∀ m, lookupMatch s mid = some m → m.status ≠ MatchStatus.active) →
      endRound s mid reason = s) ∧
    (∀ (s : ServerState) (mid : ℕ) (m : MatchData) (now : ℕ),
      lookupMatch s mid = some m → m.status = MatchStatus.active →
      (fireTimer (endRound s mid .elimination) (.roundTimeout mid) now).activeMatches =
        (endRound s mid .elimination).activeMatches ∧
      (fireTimer (endRound s mid .elimination) (.roundTimeout mid) now).connectedPlayers =
        (endRound s mid .elimination).connectedPlayers ∧
      (fireTimer (endRound s mid .elimination) (.roundTimeout mid) now).events =
        (endRound s mid .elimination).events) := by
  refine ⟨endRound_of_not_active, ?_⟩
  intro s mid m now hm hact
  exact fireTimer_roundTimeout_noop _ mid now (fun m' hm' => by
    rw [endRound_closes s mid m .elimination hm hact m' hm']
    simp)

/-- Witness for C3 at concrete states: a timeout firing on an already closed
round is ignored, and the timeout timer firing after an elimination-triggered
`endRound` changes no events. -/
theorem c3_witness :
    endRound c3Sne 1 .timeout = c3Sne ∧
    (fireTimer (endRound c3S 1 .elimination) (.roundTimeout 1) 777).events =
      (endRound c3S 1 .elimination).events :=
  ⟨c3_timeout_after_elimination_noop.1 c3Sne 1 .timeout (fun m hm => by
      rw [show lookupMatch c3Sne 1 =
        some (demoMatch [1, 2] [(1, 0), (2, 0)] MatchStatus.round_ended 1) from rfl] at hm
      injection hm with h
      subst h
      decide),
   (c3_timeout_after_elimination_noop.2 c3S 1
      (demoMatch [1, 2] [(1, 0), (2, 0)] MatchStatus.active 1) 777 rfl rfl).2.2⟩

/-! ## The health-cap invariant (conditional on nonnegative hit damages) -/

theorem playersCap_sendTo (s : ServerState) (pid : ℕ) (msg : GameMsg) (h : PlayersCap s) :
    PlayersCap (sendTo s pid msg) := h

theorem playersCap_broadcast (s : ServerState) (msg : GameMsg) (ex : Option ℕ)
    (h : PlayersCap s) : PlayersCap (broadcast s msg ex) := h

theorem playersCap_updateMatch (s : ServerState) (mid : ℕ) (f : MatchData → MatchData)
    (h : PlayersCap s) : PlayersCap (updateMatch s mid f) := h

theorem playersCap_removeMatch (s : ServerState) (mid : ℕ) (h : PlayersCap s) :
    PlayersCap (removeMatch s mid) := h

theorem playersCap_updatePlayer (s : ServerState) (pid : ℕ) (f : PlayerInfo → PlayerInfo)
    (h : PlayersCap s) (hf : ∀ p, PCap p → PCap (f p)) :
    PlayersCap (updatePlayer s pid f) := by
  intro e he
  obtain ⟨e', he', hee⟩ := mem_aupdate he
  by_cases hx : e'.1 = pid
  · rw [hee, if_pos hx]
    exact hf _ (h e' he')
  · rw [hee, if_neg hx]
    exact h e' he'

theorem playersCap_connectPlayer (s : ServerState) (h : PlayersCap s) :
    PlayersCap (connectPlayer s) := by
  refine playersCap_sendTo _ _ _ ?_
  intro e he
  rcases List.mem_append.mp he with he | he
  · exact h e he
  · rw [List.mem_singleton] at he
    rw [he]
    exact ⟨⟨rfl, by norm_num [freshPlayer]⟩, by norm_num [freshPlayer]⟩

theorem playersCap_disconnectPlayer (s : ServerState) (pid : ℕ) (h : PlayersCap s) :
    PlayersCap (disconnectPlayer s pid) :=
  playersCap_broadcast _ _ _ (fun e he => h e (List.mem_of_mem_filter he))

theorem playersCap_resetForRound (mid : ℕ) (m : MatchData) (s : ServerState) (ip : ℕ × ℕ)
    (h : PlayersCap s) : PlayersCap (resetForRound mid m s ip) := by
  unfold resetForRound
  cases lookupPlayer s ip.2 with
  | none => exact h
  | some p =>
    refine playersCap_sendTo _ _ _ (playersCap_updatePlayer _ _ _ h ?_)
    intro q hq
    exact ⟨⟨hq.1.1, by rw [hq.1.1]; norm_num⟩, le_refl _⟩

theorem playersCap_startRound (s : ServerState) (mid : ℕ) (now : ℕ) (h : PlayersCap s) :
    PlayersCap (startRound s mid now) := by
  unfold startRound
  cases hm : lookupMatch s mid with
  | none => exact h
  | some m =>
    exact foldl_pres_prop PlayersCap (resetForRound mid m) (playersCap_resetForRound mid m) _ s h

theorem playersCap_startMatch (s : ServerState) (mid : ℕ) (now : ℕ) (h : PlayersCap s) :
    PlayersCap (startMatch s mid now) := by
  unfold startMatch
  cases lookupMatch s mid with
  | none => exact h
  | some _ => exact playersCap_startRound s mid now h

theorem playersCap_releasePlayer (s : ServerState) (pid : ℕ) (h : PlayersCap s) :
    PlayersCap (releasePlayer s pid) := by
  unfold releasePlayer
  cases lookupPlayer s pid with
  | none => exact h
  | some _ =>
    refine playersCap_updatePlayer s pid _ h ?_
    intro p hp
    exact ⟨⟨hp.1.1, by rw [hp.1.1]; norm_num⟩, le_refl _⟩

theorem playersCap_endMatch (s : ServerState) (mid : ℕ) (h : PlayersCap s) :
    PlayersCap (endMatch s mid) := by
  cases hm : lookupMatch s mid with
  | none =>
    rw [endMatch_eq_of_none s mid hm]
    exact h
  | some m =>
    rw [endMatch_eq_of_some s mid m hm]
    exact playersCap_removeMatch _ mid
      (foldl_pres_prop PlayersCap releasePlayer playersCap_releasePlayer m.players _
        (playersCap_broadcast _ _ _ (playersCap_updateMatch _ _ _ h)))

theorem playersCap_endRoundClose (s : ServerState) (mid : ℕ) (m : MatchData)
    (reason : RoundEndReason) (h : PlayersCap s) : PlayersCap (endRoundClose s mid m reason) := by
  unfold endRoundClose
  have h2 : PlayersCap (broadcast (updateMatch s mid (fun mm =>
      { mm with status := MatchStatus.round_ended,
                scores := newScoresOf m (roundWinnerOf s m reason) }))
      (.roundEndMsg mid m.currentRound (roundWinnerOf s m reason) reason
        (newScoresOf m (roundWinnerOf s m reason))) none) :=
    playersCap_broadcast _ _ _ (playersCap_updateMatch s mid _ h)
  by_cases hc : ((newScoresOf m (roundWinnerOf s m reason)).map (·.2)).foldl max 0 ≥
      (m.maxRounds + 1) / 2
  · rw [if_pos hc]
    exact playersCap_endMatch _ mid h2
  · rw [if_neg hc]
    exact h2

theorem playersCap_endRound (s : ServerState) (mid : ℕ) (reason : RoundEndReason)
    (h : PlayersCap s) : PlayersCap (endRound s mid reason) := by
  cases hm : lookupMatch s mid with
  | none =>
    rw [endRound_eq_of_none s mid reason hm]
    exact h
  | some m =>
    by_cases hst : m.status = .active
    · rw [endRound_eq_close s mid m reason hm hst]
      exact playersCap_endRoundClose s mid m reason h
    · rw [endRound_eq_of_inactive s mid reason m hm hst]
      exact h

theorem playersCap_checkRoundEnd (s : ServerState) (mid : ℕ) (reason : RoundEndReason)
    (h : PlayersCap s) : PlayersCap (checkRoundEnd s mid reason) := by
  cases hm : lookupMatch s mid with
  | none =>
    rw [checkRoundEnd_eq_of_none s mid reason hm]
    exact h
  | some m =>
    rw [checkRoundEnd_eq_of_some s mid reason m hm]
    by_cases hst : m.status = .active
    · rw [if_pos hst]
      by_cases hal : (m.players.filter (fun pid =>
          match lookupPlayer s pid with
          | some p => p.isAlive
          | none => false)).length ≤ 1
      · rw [if_pos hal]
        exact playersCap_endRound s mid reason h
      · rw [if_neg hal]
        exact h
    · rw [if_neg hst]
      exact h

theorem playersCap_handlePlayerDeath (s : ServerState) (kid vid : ℕ) (h : PlayersCap s) :
    PlayersCap (handlePlayerDeath s kid vid) := by
  cases hk : lookupPlayer s kid with
  | none =>
    rw [handlePlayerDeath_eq_of_noKiller s kid vid hk]
    exact h
  | some k =>
    cases hv : lookupPlayer s vid with
    | none =>
      rw [handlePlayerDeath_eq_of_noVictim s kid vid k hk hv]
      exact h
    | some victim =>
      rw [handlePlayerDeath_eq_of_some s kid vid k victim hk hv]
      have h3 : PlayersCap (broadcast (updatePlayer (updatePlayer s vid
          (fun p => { p with isAlive := false, deaths := p.deaths + 1 })) kid
          (fun p => { p with kills := p.kills + 1 }))
          (.playerDeath kid vid (decide (victim.health ≤ -65))) none) :=
        playersCap_broadcast _ _ _
          (playersCap_updatePlayer _ kid _
            (playersCap_updatePlayer _ vid _ h (fun p hp => hp)) (fun p hp => hp))
      cases victim.matchId with
      | none => exact h3
      | some mid0 => exact playersCap_checkRoundEnd _ mid0 .elimination h3

theorem playersCap_handlePlayerHit (s : ServerState) (sh tg : ℕ) (d : ℤ) (hs : Bool)
    (hd0 : 0 ≤ d) (h : PlayersCap s) : PlayersCap (handlePlayerHit s sh tg d hs) := by
  cases hsh : lookupPlayer s sh with
  | none =>
    rw [handlePlayerHit_eq_of_noShooter s sh tg d hs hsh]
    exact h
  | some p =>
    cases htg : lookupPlayer s tg with
    | none =>
      rw [handlePlayerHit_eq_of_noTarget s sh tg d hs p hsh htg]
      exact h
    | some target =>
      rw [handlePlayerHit_eq_of_some s sh tg d hs p target hsh htg]
      by_cases halive : target.isAlive
      · rw [if_pos halive]
        have h2 : PlayersCap (broadcast (updatePlayer s tg
            (fun q => { q with health := applyDamage q.health d }))
            (.playerHitMsg sh tg d hs (applyDamage target.health d)) none) := by
          refine playersCap_broadcast _ _ _ (playersCap_updatePlayer _ tg _ h ?_)
          intro q hq
          obtain ⟨⟨h100, hpos⟩, hcap⟩ := hq
          refine ⟨⟨h100, le_max_left 0 _⟩, ?_⟩
          show max 0 (q.health - d) ≤ q.maxHealth
          refine max_le (by rw [h100]; norm_num) (by omega)
        by_cases hdead : applyDamage target.health d ≤ 0
        · rw [if_pos hdead]
          exact playersCap_handlePlayerDeath _ sh tg h2
        · rw [if_neg hdead]
          exact h2
      · rw [if_neg halive]
        exact h

theorem playersCap_joinedNotifyRun (s : ServerState) (ps : List ℕ) (h : PlayersCap s) :
    PlayersCap (joinedNotifyRun s ps) := by
  unfold joinedNotifyRun
  refine foldl_pres_prop PlayersCap _ (fun s' pid h' => ?_) ps s h
  cases lookupPlayer s' pid with
  | none => exact h'
  | some p =>
    refine foldl_pres_prop PlayersCap _ (fun s2 other h2 => ?_) ps s' h'
    by_cases ho : other = pid
    · simp only [ho, if_true]
      exact h2
    · simp only [ho, if_false]
      cases lookupPlayer s2 other with
      | none => exact h2
      | some op => exact playersCap_sendTo _ _ _ h2

theorem playersCap_fireTimer (s : ServerState) (t : TimerTask) (now : ℕ) (h : PlayersCap s) :
    PlayersCap (fireTimer s t now) := by
  unfold fireTimer
  by_cases ht : t ∈ s.timers
  · rw [if_pos ht]
    have h1 : PlayersCap { s with timers := s.timers.erase t } := h
    cases t with
    | roundTimeout mid => exact playersCap_endRound _ mid .timeout h1
    | nextRoundStart mid => exact playersCap_startRound _ mid now h1
    | joinedNotify ps => exact playersCap_joinedNotifyRun _ ps h1
  · rw [if_neg ht]
    exact h

theorem playersCap_findMatchesLoop (now : ℕ) :
    ∀ (snap : List Ticket) (s : ServerState), PlayersCap s →
      PlayersCap (findMatchesLoop now s snap)
  | [], s, h => h
  | [t], s, h => h
  | t1 :: t2 :: rest, s, h => by
    show PlayersCap (findMatchesLoop now _ rest)
    refine playersCap_findMatchesLoop now rest _ ?_
    have h2 : PlayersCap { s with
        matchmakingQueue := removePairedTickets s.matchmakingQueue t1.playerId t2.playerId,
        matchIdCounter := s.matchIdCounter + 1,
        activeMatches := s.activeMatches ++
          [(s.matchIdCounter + 1, mkMatchData t1.playerId t2.playerId)] } := h
    cases lookupPlayer { s with
        matchmakingQueue := removePairedTickets s.matchmakingQueue t1.playerId t2.playerId,
        matchIdCounter := s.matchIdCounter + 1,
        activeMatches := s.activeMatches ++
          [(s.matchIdCounter + 1, mkMatchData t1.playerId t2.playerId)] } t1.playerId with
    | none => exact h2
    | some _ =>
      cases lookupPlayer { s with
          matchmakingQueue := removePairedTickets s.matchmakingQueue t1.playerId t2.playerId,
          matchIdCounter := s.matchIdCounter + 1,
          activeMatches := s.activeMatches ++
            [(s.matchIdCounter + 1, mkMatchData t1.playerId t2.playerId)] } t2.playerId with
      | none => exact h2
      | some _ =>
        refine playersCap_startMatch _ _ now ?_
        refine playersCap_updatePlayer _ t2.playerId _ ?_ (fun p hp => hp)
        exact playersCap_updatePlayer _ t1.playerId _ h2 (fun p hp => hp)

theorem playersCap_handleMatchmakingRequest (s : ServerState) (pid : ℕ) (mode : String)
    (now : ℕ) (h : PlayersCap s) : PlayersCap (handleMatchmakingRequest s pid mode now) := by
  cases hp : lookupPlayer s pid with
  | none =>
    rw [handleMatchmakingRequest_eq_of_none s pid mode now hp]
    exact h
  | some p =>
    by_cases hq : (s.matchmakingQueue.findIdx? (fun t => t.playerId == pid)).isSome = true
    · rw [handleMatchmakingRequest_eq_queued s pid mode now p hp hq]
      exact h
    · rw [handleMatchmakingRequest_eq_fresh s pid mode now p hp hq]
      exact playersCap_findMatchesLoop now _ _ h

theorem playersCap_step (s : ServerState) (ev : GameEvent) (hnn : NonnegHit ev)
    (h : PlayersCap s) : PlayersCap (step s ev) := by
  cases ev with
  | connect => exact playersCap_connectPlayer s h
  | disconnect pid => exact playersCap_disconnectPlayer s pid h
  | requestMatchmaking pid mode now => exact playersCap_handleMatchmakingRequest s pid mode now h
  | hitResolved sh tg d hs => exact playersCap_handlePlayerHit s sh tg d hs hnn h
  | timerFires t now => exact playersCap_fireTimer s t now h

theorem playersCap_foldl :
    ∀ (evs : List GameEvent) (s : ServerState), (∀ ev ∈ evs, NonnegHit ev) →
      PlayersCap s → PlayersCap (evs.foldl step s)
  | [], _s, _, h => h
  | ev :: t, s, hnn, h =>
    playersCap_foldl t (step s ev) (fun e he => hnn e (List.mem_cons_of_mem _ he))
      (playersCap_step s ev (hnn ev (List.mem_cons_self _ _)) h)

theorem playersCap_runEvents (evs : List GameEvent) (hnn : ∀ ev ∈ evs, NonnegHit ev) :
    PlayersCap (runEvents evs) :=
  playersCap_foldl evs initState hnn (fun e he => absurd he (by simp [initState]))

/-! ## Event tails of the round-end cascade -/

theorem lookupPlayer_updatePlayer_self (s : ServerState) (pid : ℕ)
    (f : PlayerInfo → PlayerInfo) :
    lookupPlayer (updatePlayer s pid f) pid = (lookupPlayer s pid).map f :=
  alookup_aupdate_self _ _ _

theorem lookupPlayer_updatePlayer_ne (s : ServerState) (pid pid' : ℕ)
    (f : PlayerInfo → PlayerInfo) (h : pid' ≠ pid) :
    lookupPlayer (updatePlayer s pid f) pid' = lookupPlayer s pid' :=
  alookup_aupdate_ne _ _ _ _ h

theorem lookupPlayer_broadcast (s : ServerState) (msg : GameMsg) (ex : Option ℕ) (pid : ℕ) :
    lookupPlayer (broadcast s msg ex) pid = lookupPlayer s pid := rfl

theorem endRoundClose_tail (s : ServerState) (mid : ℕ) (m : MatchData)
    (reason : RoundEndReason) (hm : lookupMatch s mid = some m) :
    ∃ l, (endRoundClose s mid m reason).events = s.events ++ l ∧
      (∀ em ∈ l, isDeathMsg (em : Emitted).msg = false) ∧
      ((∀ pid, lookupPlayer (endRoundClose s mid m reason) pid = lookupPlayer s pid) ∨
        ∃ em ∈ l, isMatchEndMsg (em : Emitted).msg = true) := by
  refine ⟨_, endRoundClose_events_exact s mid m reason hm, ?_, ?_⟩
  · intro em hem
    rcases List.mem_cons.mp hem with hem | hem
    · rw [hem]
      rfl
    · by_cases hc : ((newScoresOf m (roundWinnerOf s m reason)).map (·.2)).foldl max 0 ≥
          (m.maxRounds + 1) / 2
      · rw [if_pos hc, List.mem_singleton] at hem
        rw [hem]
        rfl
      · rw [if_neg hc] at hem
        exact absurd hem (List.not_mem_nil em)
  · by_cases hc : ((newScoresOf m (roundWinnerOf s m reason)).map (·.2)).foldl max 0 ≥
        (m.maxRounds + 1) / 2
    · right
      refine ⟨⟨.matchEndMsg mid (matchWinnerOf (newScoresOf m (roundWinnerOf s m reason)))
        (newScoresOf m (roundWinnerOf s m reason)) m.currentRound,
        s.connectedPlayers.map Prod.fst⟩, ?_, rfl⟩
      refine List.mem_cons_of_mem _ ?_
      rw [if_pos hc]
      exact List.mem_singleton.mpr rfl
    · left
      intro pid
      unfold endRoundClose
      rw [if_neg hc]
      rfl

theorem endRound_tail (s : ServerState) (mid : ℕ) (reason : RoundEndReason) :
    ∃ l, (endRound s mid reason).events = s.events ++ l ∧
      (∀ em ∈ l, isDeathMsg (em : Emitted).msg = false) ∧
      ((∀ pid, lookupPlayer (endRound s mid reason) pid = lookupPlayer s pid) ∨
        ∃ em ∈ l, isMatchEndMsg (em : Emitted).msg = true) := by
  cases hm : lookupMatch s mid with
  | none =>
    rw [endRound_eq_of_none s mid reason hm]
    exact ⟨[], by simp, by simp, Or.inl (fun pid => rfl)⟩
  | some m =>
    by_cases hst : m.status = .active
    · rw [endRound_eq_close s mid m reason hm hst]
      exact endRoundClose_tail s mid m reason hm
    · rw [endRound_eq_of_inactive s mid reason m hm hst]
      exact ⟨[], by simp, by simp, Or.inl (fun pid => rfl)⟩

theorem checkRoundEnd_tail (s : ServerState) (mid : ℕ) (reason : RoundEndReason) :
    ∃ l, (checkRoundEnd s mid reason).events = s.events ++ l ∧
      (∀ em ∈ l, isDeathMsg (em : Emitted).msg = false) ∧
      ((∀ pid, lookupPlayer (checkRoundEnd s mid reason) pid = lookupPlayer s pid) ∨
        ∃ em ∈ l, isMatchEndMsg (em : Emitted).msg = true) := by
  cases hm : lookupMatch s mid with
  | none =>
    rw [checkRoundEnd_eq_of_none s mid reason hm]
    exact ⟨[], by simp, by simp, Or.inl (fun pid => rfl)⟩
  | some m =>
    rw [checkRoundEnd_eq_of_some s mid reason m hm]
    by_cases hst : m.status = .active
    · rw [if_pos hst]
      by_cases hal : (m.players.filter (fun pid =>
          match lookupPlayer s pid with
          | some p => p.isAlive
          | none => false)).length ≤ 1
      · rw [if_pos hal]
        exact endRound_tail s mid reason
      · rw [if_neg hal]
        exact ⟨[], by simp, by simp, Or.inl (fun pid => rfl)⟩
    · rw [if_neg hst]
      exact ⟨[], by simp, by simp, Or.inl (fun pid => rfl)⟩

theorem handlePlayerDeath_tail (s : ServerState) (kid vid : ℕ) (k victim : PlayerInfo)
    (hk : lookupPlayer s kid = some k) (hv : lookupPlayer s vid = some victim) :
    ∃ l, (handlePlayerDeath s kid vid).events = s.events ++
        (⟨.playerDeath kid vid (decide (victim.health ≤ -65)),
          s.connectedPlayers.map Prod.fst⟩ :: l) ∧
      (∀ em ∈ l, isDeathMsg (em : Emitted).msg = false) ∧
      (((lookupPlayer (handlePlayerDeath s kid vid) vid).map PlayerInfo.isAlive = some false) ∨
        ∃ em ∈ l, isMatchEndMsg (em : Emitted).msg = true) := by
  rw [handlePlayerDeath_eq_of_some s kid vid k victim hk hv]
  have hev : (broadcast (updatePlayer (updatePlayer s vid
      (fun p => { p with isAlive := false, deaths := p.deaths + 1 })) kid
      (fun p => { p with kills := p.kills + 1 }))
      (.playerDeath kid vid (decide (victim.health ≤ -65))) none).events =
      s.events ++ [⟨.playerDeath kid vid (decide (victim.health ≤ -65)),
        s.connectedPlayers.map Prod.fst⟩] := by
    rw [broadcast_none_events, map_fst_updatePlayer, map_fst_updatePlayer]
    rfl
  have hv5 : (lookupPlayer (broadcast (updatePlayer (updatePlayer s vid
      (fun p => { p with isAlive := false, deaths := p.deaths + 1 })) kid
      (fun p => { p with kills := p.kills + 1 }))
      (.playerDeath kid vid (decide (victim.health ≤ -65))) none) vid).map PlayerInfo.isAlive =
      some false := by
    rw [lookupPlayer_broadcast]
    by_cases he : kid = vid
    · subst he
      rw [lookupPlayer_updatePlayer_self, lookupPlayer_updatePlayer_self, hv]
      rfl
    · rw [lookupPlayer_updatePlayer_ne _ _ _ _ (fun hh => he hh.symm),
        lookupPlayer_updatePlayer_self, hv]
      rfl
  cases victim.matchId with
  | none => exact ⟨[], hev, by simp, Or.inl hv5⟩
  | some mid =>
    obtain ⟨l, hl, hdf, hcp⟩ := checkRoundEnd_tail (broadcast (updatePlayer (updatePlayer s vid
      (fun p => { p with isAlive := false, deaths := p.deaths + 1 })) kid
      (fun p => { p with kills := p.kills + 1 }))
      (.playerDeath kid vid (decide (victim.health ≤ -65))) none) mid .elimination
    refine ⟨l, ?_, hdf, ?_⟩
    · rw [hl, hev, List.append_assoc]
      rfl
    · rcases hcp with hcp | hx
      · left
        rw [hcp vid]
        exact hv5
      · right
        exact hx

theorem handlePlayerHit_kill (s : ServerState) (sh tg : ℕ) (d : ℤ) (hs : Bool)
    (shooter target : PlayerInfo) (hsh : lookupPlayer s sh = some shooter)
    (htg : lookupPlayer s tg = some target) (halive : target.isAlive = true)
    (hkill : applyDamage target.health d ≤ 0) :
    ∃ l, (handlePlayerHit s sh tg d hs).events = s.events ++ l ∧
      l.countP (fun em => isDeathMsg (em : Emitted).msg) = 1 ∧
      (((lookupPlayer (handlePlayerHit s sh tg d hs) tg).map PlayerInfo.isAlive = some false) ∨
        ∃ em ∈ l, isMatchEndMsg (em : Emitted).msg = true) := by
  rw [handlePlayerHit_eq_of_some s sh tg d hs shooter target hsh htg, if_pos halive,
    if_pos hkill]
  have hv2 : lookupPlayer (broadcast (updatePlayer s tg
      (fun q => { q with health := applyDamage q.health d }))
      (.playerHitMsg sh tg d hs (applyDamage target.health d)) none) tg =
      some { target with health := applyDamage target.health d } := by
    rw [lookupPlayer_broadcast, lookupPlayer_updatePlayer_self, htg]
    rfl
  have hk2 : ∃ k', lookupPlayer (broadcast (updatePlayer s tg
      (fun q => { q with health := applyDamage q.health d }))
      (.playerHitMsg sh tg d hs (applyDamage target.health d)) none) sh = some k' := by
    by_cases he : sh = tg
    · subst he
      exact ⟨_, hv2⟩
    · refine ⟨shooter, ?_⟩
      rw [lookupPlayer_broadcast, lookupPlayer_updatePlayer_ne _ _ _ _ he]
      exact hsh
  obtain ⟨k', hk2⟩ := hk2
  obtain ⟨l, hl, hdf, hcp⟩ := handlePlayerDeath_tail _ sh tg k' _ hk2 hv2
  have hev2 : (broadcast (updatePlayer s tg
      (fun q => { q with health := applyDamage q.health d }))
      (.playerHitMsg sh tg d hs (applyDamage target.health d)) none).events =
      s.events ++ [⟨.playerHitMsg sh tg d hs (applyDamage target.health d),
        s.connectedPlayers.map Prod.fst⟩] := by
    rw [broadcast_none_events, map_fst_updatePlayer]
    rfl
  have h0 : l.countP (fun em => isDeathMsg (em : Emitted).msg) = 0 :=
    List.countP_eq_zero.mpr (fun em hem => by simp [hdf em hem])
  have hltot : (handlePlayerDeath (broadcast (updatePlayer s tg
      (fun q => { q with health := applyDamage q.health d }))
      (.playerHitMsg sh tg d hs (applyDamage target.health d)) none) sh tg).events =
      s.events ++
      (⟨.playerHitMsg sh tg d hs (applyDamage target.health d),
        s.connectedPlayers.map Prod.fst⟩ ::
       ⟨.playerDeath sh tg
          (decide (({ target with health := applyDamage target.health d } : PlayerInfo).health ≤ -65)),
        (broadcast (updatePlayer s tg (fun q => { q with health := applyDamage q.health d }))
          (.playerHitMsg sh tg d hs (applyDamage target.health d))
          none).connectedPlayers.map Prod.fst⟩ :: l) := by
    rw [hl, hev2, List.append_assoc]
    rfl
  refine ⟨_, hltot, ?_, ?_⟩
  · rw [List.countP_cons, List.countP_cons, h0]
    rfl
  · rcases hcp with hcp | ⟨em, hem, hmm⟩
    · exact Or.inl hcp
    · exact Or.inr ⟨em, List.mem_cons_of_mem _ (List.mem_cons_of_mem _ hem), hmm⟩

theorem shotDamage_pos (b : Bool) (dist : ℝ) : 0 < shotDamage b dist := by
  unfold shotDamage
  cases b with
  | true => norm_num
  | false =>
    simp only [Bool.false_eq_true, if_false]
    have h1 : (10 : ℤ) ≤ Int.floor (35 * max 0.3 (1 - dist / 100)) := by
      rw [Int.le_floor]
      have h2 : (0.3 : ℝ) ≤ max 0.3 (1 - dist / 100) := le_max_left _ _
      nlinarith
    omega

/-- **C8**: with every applied hit carrying nonnegative damage (the engine's
damages are all positive, `shotDamage_pos`), every reachable player's health
lies in `[0, maxHealth]`; a hit against an already-dead target is a complete
no-op (no damage, no events, no death handling); and a killing hit appends
exactly one `player_death` event, after which the victim's alive flag is
`false` — unless the kill completed the match, in which case a `match_end`
event was emitted (and the lobby reset re-raised the flag). -/
theorem c8_health_clamp_and_single_death :
    (∀ (evs : List GameEvent), (∀ ev ∈ evs, NonnegHit ev) →
      ∀ e ∈ (runEvents evs).connectedPlayers,
        0 ≤ (e : ℕ × PlayerInfo).2.health ∧ e.2.health ≤ e.2.maxHealth) ∧
    (∀ (s : ServerState) (sh tg : ℕ) (d : ℤ) (hs : Bool) (shooter target : PlayerInfo),
      lookupPlayer s sh = some shooter → lookupPlayer s tg = some target →
      target.isAlive = false → handlePlayerHit s sh tg d hs = s) ∧
    (∀ (s : ServerState) (sh tg : ℕ) (d : ℤ) (hs : Bool) (shooter target : PlayerInfo),
      lookupPlayer s sh = some shooter → lookupPlayer s tg = some target →
      target.isAlive = true → applyDamage target.health d ≤ 0 →
      ∃ l, (handlePlayerHit s sh tg d hs).events = s.events ++ l ∧
        l.countP (fun em => isDeathMsg (em : Emitted).msg) = 1 ∧
        (((lookupPlayer (handlePlayerHit s sh tg d hs) tg).map PlayerInfo.isAlive = some false) ∨
          ∃ em ∈ l, isMatchEndMsg (em : Emitted).msg = true)) := by
  refine ⟨?_, ?_, ?_⟩
  · intro evs hnn e he
    obtain ⟨⟨h100, hpos⟩, hcap⟩ := playersCap_runEvents evs hnn e he
    exact ⟨hpos, hcap⟩
  · intro s sh tg d hs shooter target hsh htg hdead
    rw [handlePlayerHit_eq_of_some s sh tg d hs shooter target hsh htg,
      if_neg (by simp [hdead])]
  · exact fun s sh tg d hs shooter target hsh htg halive hkill =>
      handlePlayerHit_kill s sh tg d hs shooter target hsh htg halive hkill

theorem c8_witness : handlePlayerHit c3S 1 2 30 false = c3S :=
  c8_health_clamp_and_single_death.2.1 c3S 1 2 30 false
    (demoPlayer 1 (some 1) 100 true) (demoPlayer 2 (some 1) 0 false)
    (by decide) (by decide) (by decide)

/-! ## The queue-uniqueness invariant -/

theorem qnd_eraseIdx (q : List Ticket) (i : ℕ) (h : (q.map Ticket.playerId).Nodup) :
    ((q.eraseIdx i).map Ticket.playerId).Nodup :=
  h.sublist ((q.eraseIdx_sublist i).map Ticket.playerId)

theorem qnd_eraseFirstTicket (q : List Ticket) (pid : ℕ) (h : (q.map Ticket.playerId).Nodup) :
    ((eraseFirstTicket q pid).map Ticket.playerId).Nodup := by
  unfold eraseFirstTicket
  cases q.findIdx? (fun t => t.playerId == pid) with
  | none => exact h
  | some i => exact qnd_eraseIdx q i h

theorem qnd_removePairedTickets (q : List Ticket) (a b : ℕ)
    (h : (q.map Ticket.playerId).Nodup) :
    ((removePairedTickets q a b).map Ticket.playerId).Nodup := by
  unfold removePairedTickets
  cases q.findIdx? (fun t => t.playerId == a) with
  | none =>
    cases q.findIdx? (fun t => t.playerId == b) with
    | none => exact h
    | some j => exact qnd_eraseIdx q (j - 1) h
  | some i =>
    cases q.findIdx? (fun t => t.playerId == b) with
    | none => exact qnd_eraseIdx q i h
    | some j => exact qnd_eraseIdx _ (j - 1) (qnd_eraseIdx q i h)

theorem qnd_sendTo (s : ServerState) (pid : ℕ) (msg : GameMsg) (h : QueueIdsNodup s) :
    QueueIdsNodup (sendTo s pid msg) := h

theorem qnd_broadcast (s : ServerState) (msg : GameMsg) (ex : Option ℕ) (h : QueueIdsNodup s) :
    QueueIdsNodup (broadcast s msg ex) := h

theorem qnd_updatePlayer (s : ServerState) (pid : ℕ) (f : PlayerInfo → PlayerInfo)
    (h : QueueIdsNodup s) : QueueIdsNodup (updatePlayer s pid f) := h

theorem qnd_updateMatch (s : ServerState) (mid : ℕ) (f : MatchData → MatchData)
    (h : QueueIdsNodup s) : QueueIdsNodup (updateMatch s mid f) := h

theorem qnd_removeMatch (s : ServerState) (mid : ℕ) (h : QueueIdsNodup s) :
    QueueIdsNodup (removeMatch s mid) := h

theorem qnd_connectPlayer (s : ServerState) (h : QueueIdsNodup s) :
    QueueIdsNodup (connectPlayer s) := h

theorem qnd_disconnectPlayer (s : ServerState) (pid : ℕ) (h : QueueIdsNodup s) :
    QueueIdsNodup (disconnectPlayer s pid) :=
  qnd_broadcast _ _ _ (qnd_eraseFirstTicket s.matchmakingQueue pid h)

theorem qnd_resetForRound (mid : ℕ) (m : MatchData) (s : ServerState) (ip : ℕ × ℕ)
    (h : QueueIdsNodup s) : QueueIdsNodup (resetForRound mid m s ip) := by
  unfold resetForRound
  cases lookupPlayer s ip.2 with
  | none => exact h
  | some p => exact qnd_sendTo _ _ _ (qnd_updatePlayer _ _ _ h)

theorem qnd_startRound (s : ServerState) (mid : ℕ) (now : ℕ) (h : QueueIdsNodup s) :
    QueueIdsNodup (startRound s mid now) := by
  unfold startRound
  cases hm : lookupMatch s mid with
  | none => exact h
  | some m =>
    exact foldl_pres_prop QueueIdsNodup (resetForRound mid m) (qnd_resetForRound mid m) _ s h

theorem qnd_startMatch (s : ServerState) (mid : ℕ) (now : ℕ) (h : QueueIdsNodup s) :
    QueueIdsNodup (startMatch s mid now) := by
  unfold startMatch
  cases lookupMatch s mid with
  | none => exact h
  | some _ => exact qnd_startRound s mid now h

theorem qnd_releasePlayer (s : ServerState) (pid : ℕ) (h : QueueIdsNodup s) :
    QueueIdsNodup (releasePlayer s pid) := by
  unfold releasePlayer
  cases lookupPlayer s pid with
  | none => exact h
  | some _ => exact qnd_updatePlayer s pid _ h

theorem qnd_endMatch (s : ServerState) (mid : ℕ) (h : QueueIdsNodup s) :
    QueueIdsNodup (endMatch s mid) := by
  cases hm : lookupMatch s mid with
  | none =>
    rw [endMatch_eq_of_none s mid hm]
    exact h
  | some m =>
    rw [endMatch_eq_of_some s mid m hm]
    exact qnd_removeMatch _ mid
      (foldl_pres_prop QueueIdsNodup releasePlayer qnd_releasePlayer m.players _
        (qnd_broadcast _ _ _ (qnd_updateMatch _ _ _ h)))

theorem qnd_endRoundClose (s : ServerState) (mid : ℕ) (m : MatchData)
    (reason : RoundEndReason) (h : QueueIdsNodup s) : QueueIdsNodup (endRoundClose s mid m reason) := by
  unfold endRoundClose
  have h2 : QueueIdsNodup (broadcast (updateMatch s mid (fun mm =>
      { mm with status := MatchStatus.round_ended,
                scores := newScoresOf m (roundWinnerOf s m reason) }))
      (.roundEndMsg mid m.currentRound (roundWinnerOf s m reason) reason
        (newScoresOf m (roundWinnerOf s m reason))) none) := h
  by_cases hc : ((newScoresOf m (roundWinnerOf s m reason)).map (·.2)).foldl max 0 ≥
      (m.maxRounds + 1) / 2
  · rw [if_pos hc]
    exact qnd_endMatch _ mid h2
  · rw [if_neg hc]
    exact h2

theorem qnd_endRound (s : ServerState) (mid : ℕ) (reason : RoundEndReason)
    (h : QueueIdsNodup s) : QueueIdsNodup (endRound s mid reason) := by
  cases hm : lookupMatch s mid with
  | none =>
    rw [endRound_eq_of_none s mid reason hm]
    exact h
  | some m =>
    by_cases hst : m.status = .active
    · rw [endRound_eq_close s mid m reason hm hst]
      exact qnd_endRoundClose s mid m reason h
    · rw [endRound_eq_of_inactive s mid reason m hm hst]
      exact h

theorem qnd_checkRoundEnd (s : ServerState) (mid : ℕ) (reason : RoundEndReason)
    (h : QueueIdsNodup s) : QueueIdsNodup (checkRoundEnd s mid reason) := by
  cases hm : lookupMatch s mid with
  | none =>
    rw [checkRoundEnd_eq_of_none s mid reason hm]
    exact h
  | some m =>
    rw [checkRoundEnd_eq_of_some s mid reason m hm]
    by_cases hst : m.status = .active
    · rw [if_pos hst]
      by_cases hal : (m.players.filter (fun pid =>
          match lookupPlayer s pid with
          | some p => p.isAlive
          | none => false)).length ≤ 1
      · rw [if_pos hal]
        exact qnd_endRound s mid reason h
      · rw [if_neg hal]
        exact h
    · rw [if_neg hst]
      exact h

theorem qnd_handlePlayerDeath (s : ServerState) (kid vid : ℕ) (h : QueueIdsNodup s) :
    QueueIdsNodup (handlePlayerDeath s kid vid) := by
  cases hk : lookupPlayer s kid with
  | none =>
    rw [handlePlayerDeath_eq_of_noKiller s kid vid hk]
    exact h
  | some k =>
    cases hv : lookupPlayer s vid with
    | none =>
      rw [handlePlayerDeath_eq_of_noVictim s kid vid k hk hv]
      exact h
    | some victim =>
      rw [handlePlayerDeath_eq_of_some s kid vid k victim hk hv]
      have h3 : QueueIdsNodup (broadcast (updatePlayer (updatePlayer s vid
          (fun p => { p with isAlive := false, deaths := p.deaths + 1 })) kid
          (fun p => { p with kills := p.kills + 1 }))
          (.playerDeath kid vid (decide (victim.health ≤ -65))) none) := h
      cases victim.matchId with
      | none => exact h3
      | some mid0 => exact qnd_checkRoundEnd _ mid0 .elimination h3

theorem qnd_handlePlayerHit (s : ServerState) (sh tg : ℕ) (d : ℤ) (hs : Bool)
    (h : QueueIdsNodup s) : QueueIdsNodup (handlePlayerHit s sh tg d hs) := by
  cases hsh : lookupPlayer s sh with
  | none =>
    rw [handlePlayerHit_eq_of_noShooter s sh tg d hs hsh]
    exact h
  | some p =>
    cases htg : lookupPlayer s tg with
    | none =>
      rw [handlePlayerHit_eq_of_noTarget s sh tg d hs p hsh htg]
      exact h
    | some target =>
      rw [handlePlayerHit_eq_of_some s sh tg d hs p target hsh htg]
      by_cases halive : target.isAlive
      · rw [if_pos halive]
        have h2 : QueueIdsNodup (broadcast (updatePlayer s tg
            (fun q => { q with health := applyDamage q.health d }))
            (.playerHitMsg sh tg d hs (applyDamage target.health d)) none) := h
        by_cases hdead : applyDamage target.health d ≤ 0
        · rw [if_pos hdead]
          exact qnd_handlePlayerDeath _ sh tg h2
        · rw [if_neg hdead]
          exact h2
      · rw [if_neg halive]
        exact h

theorem qnd_joinedNotifyRun (s : ServerState) (ps : List ℕ) (h : QueueIdsNodup s) :
    QueueIdsNodup (joinedNotifyRun s ps) := by
  unfold joinedNotifyRun
  refine foldl_pres_prop QueueIdsNodup _ (fun s' pid h' => ?_) ps s h
  cases lookupPlayer s' pid with
  | none => exact h'
  | some p =>
    refine foldl_pres_prop QueueIdsNodup _ (fun s2 other h2 => ?_) ps s' h'
    by_cases ho : other = pid
    · simp only [ho, if_true]
      exact h2
    · simp only [ho, if_false]
      cases lookupPlayer s2 other with
      | none => exact h2
      | some op => exact qnd_sendTo _ _ _ h2

theorem qnd_fireTimer (s : ServerState) (t : TimerTask) (now : ℕ) (h : QueueIdsNodup s) :
    QueueIdsNodup (fireTimer s t now) := by
  unfold fireTimer
  by_cases ht : t ∈ s.timers
  · rw [if_pos ht]
    have h1 : QueueIdsNodup { s with timers := s.timers.erase t } := h
    cases t with
    | roundTimeout mid => exact qnd_endRound _ mid .timeout h1
    | nextRoundStart mid => exact qnd_startRound _ mid now h1
    | joinedNotify ps => exact qnd_joinedNotifyRun _ ps h1
  · rw [if_neg ht]
    exact h

theorem qnd_findMatchesLoop (now : ℕ) :
    ∀ (snap : List Ticket) (s : ServerState), QueueIdsNodup s →
      QueueIdsNodup (findMatchesLoop now s snap)
  | [], _s, h => h
  | [t], _s, h => h
  | t1 :: t2 :: rest, s, h => by
    show QueueIdsNodup (findMatchesLoop now _ rest)
    refine qnd_findMatchesLoop now rest _ ?_
    have h2 : QueueIdsNodup { s with
        matchmakingQueue := removePairedTickets s.matchmakingQueue t1.playerId t2.playerId,
        matchIdCounter := s.matchIdCounter + 1,
        activeMatches := s.activeMatches ++
          [(s.matchIdCounter + 1, mkMatchData t1.playerId t2.playerId)] } :=
      qnd_removePairedTickets s.matchmakingQueue t1.playerId t2.playerId h
    cases lookupPlayer { s with
        matchmakingQueue := removePairedTickets s.matchmakingQueue t1.playerId t2.playerId,
        matchIdCounter := s.matchIdCounter + 1,
        activeMatches := s.activeMatches ++
          [(s.matchIdCounter + 1, mkMatchData t1.playerId t2.playerId)] } t1.playerId with
    | none => exact h2
    | some _ =>
      cases lookupPlayer { s with
          matchmakingQueue := removePairedTickets s.matchmakingQueue t1.playerId t2.playerId,
          matchIdCounter := s.matchIdCounter + 1,
          activeMatches := s.activeMatches ++
            [(s.matchIdCounter + 1, mkMatchData t1.playerId t2.playerId)] } t2.playerId with
      | none => exact h2
      | some _ =>
        refine qnd_startMatch _ _ now ?_
        exact qnd_updatePlayer _ t2.playerId _ (qnd_updatePlayer _ t1.playerId _ h2)

theorem qnd_handleMatchmakingRequest (s : ServerState) (pid : ℕ) (mode : String)
    (now : ℕ) (h : QueueIdsNodup s) : QueueIdsNodup (handleMatchmakingRequest s pid mode now) := by
  cases hp : lookupPlayer s pid with
  | none =>
    rw [handleMatchmakingRequest_eq_of_none s pid mode now hp]
    exact h
  | some p =>
    by_cases hq : (s.matchmakingQueue.findIdx? (fun t => t.playerId == pid)).isSome = true
    · rw [handleMatchmakingRequest_eq_queued s pid mode now p hp hq]
      exact h
    · rw [handleMatchmakingRequest_eq_fresh s pid mode now p hp hq]
      refine qnd_findMatchesLoop now _ _ ?_
      show ((s.matchmakingQueue ++ [(⟨pid, mode, now⟩ : Ticket)]).map Ticket.playerId).Nodup
      rw [List.map_append, List.nodup_append]
      refine ⟨h, by simp, ?_⟩
      intro a ha hb
      simp only [List.map_cons, List.map_nil, List.mem_singleton] at hb
      have hnone : s.matchmakingQueue.findIdx? (fun t => t.playerId == pid) = none :=
        Option.not_isSome_iff_eq_none.mp hq
      rw [List.findIdx?_eq_none_iff] at hnone
      obtain ⟨t, ht, hta⟩ := List.mem_map.mp ha
      have h5 := hnone t ht
      rw [hta, hb] at h5
      simp at h5

theorem qnd_step (s : ServerState) (ev : GameEvent) (h : QueueIdsNodup s) :
    QueueIdsNodup (step s ev) := by
  cases ev with
  | connect => exact qnd_connectPlayer s h
  | disconnect pid => exact qnd_disconnectPlayer s pid h
  | requestMatchmaking pid mode now => exact qnd_handleMatchmakingRequest s pid mode now h
  | hitResolved sh tg d hs => exact qnd_handlePlayerHit s sh tg d hs h
  | timerFires t now => exact qnd_fireTimer s t now h

theorem qnd_runEvents (evs : List GameEvent) : QueueIdsNodup (runEvents evs) := by
  unfold runEvents
  exact foldl_pres_prop QueueIdsNodup step qnd_step evs initState (by simp [QueueIdsNodup, initState])

/-- The two `findIndex`/`splice` calls of `findMatches` remove exactly the two
paired tickets when the queue holds one ticket per player: splitting the queue
as `c1 ++ t1 :: c2 ++ t2 :: c3`, the result is `c1 ++ c2 ++ c3`. -/
theorem removePairedTickets_decomp (c1 c2 c3 : List Ticket) (t1 t2 : Ticket)
    (hnd : ((c1 ++ t1 :: (c2 ++ t2 :: c3)).map Ticket.playerId).Nodup) :
    removePairedTickets (c1 ++ t1 :: (c2 ++ t2 :: c3)) t1.playerId t2.playerId =
      c1 ++ (c2 ++ c3) := by
  rw [List.map_append, List.map_cons, List.map_append, List.map_cons] at hnd
  obtain ⟨hnd1, hnd2, hdisj⟩ := List.nodup_append.mp hnd
  obtain ⟨hp1notin, hnd3⟩ := List.nodup_cons.mp hnd2
  obtain ⟨hnd4, hnd5, hdisj2⟩ := List.nodup_append.mp hnd3
  have hp2mem : t2.playerId ∈ t1.playerId :: (c2.map Ticket.playerId ++
      t2.playerId :: c3.map Ticket.playerId) :=
    List.mem_cons_of_mem _ (List.mem_append_right _ (List.mem_cons_self _ _))
  have f1 : ∀ t ∈ c1, (t.playerId == t1.playerId) = false := by
    intro t ht
    rw [beq_eq_false_iff_ne]
    intro hh
    exact hdisj (List.mem_map_of_mem _ ht) (by rw [hh]; exact List.mem_cons_self _ _)
  have f2 : ∀ t ∈ c1, (t.playerId == t2.playerId) = false := by
    intro t ht
    rw [beq_eq_false_iff_ne]
    intro hh
    exact hdisj (List.mem_map_of_mem _ ht) (by rw [hh]; exact hp2mem)
  have f3 : (t1.playerId == t2.playerId) = false := by
    rw [beq_eq_false_iff_ne]
    intro hh
    exact hp1notin (by rw [hh]; exact List.mem_append_right _ (List.mem_cons_self _ _))
  have f4 : ∀ t ∈ c2, (t.playerId == t2.playerId) = false := by
    intro t ht
    rw [beq_eq_false_iff_ne]
    intro hh
    exact hdisj2 (List.mem_map_of_mem _ ht) (by rw [hh]; exact List.mem_cons_self _ _)
  have h0a : List.findIdx? (fun t => t.playerId == t1.playerId) c1 = none :=
    List.findIdx?_eq_none_iff.mpr f1
  have h0b : List.findIdx? (fun t => t.playerId == t2.playerId) c1 = none :=
    List.findIdx?_eq_none_iff.mpr f2
  have h0c : List.findIdx? (fun t => t.playerId == t2.playerId) c2 = none :=
    List.findIdx?_eq_none_iff.mpr f4
  have hi1 : List.findIdx? (fun t => t.playerId == t1.playerId)
      (c1 ++ t1 :: (c2 ++ t2 :: c3)) = some c1.length := by
    rw [List.findIdx?_append, h0a]
    simp [List.findIdx?_cons]
  have hi2 : List.findIdx? (fun t => t.playerId == t2.playerId)
      (c1 ++ t1 :: (c2 ++ t2 :: c3)) = some (c1.length + c2.length + 1) := by
    rw [List.findIdx?_append, h0b]
    rw [List.findIdx?_cons, f3]
    simp only [Bool.false_eq_true, if_false]
    rw [List.findIdx?_start_succ, List.findIdx?_append, h0c]
    simp [List.findIdx?_cons]
    omega
  have he1 : (c1 ++ t1 :: (c2 ++ t2 :: c3)).eraseIdx c1.length = c1 ++ (c2 ++ t2 :: c3) := by
    rw [List.eraseIdx_append_of_length_le (le_refl c1.length)]
    simp
  have he2 : (c1 ++ (c2 ++ t2 :: c3)).eraseIdx (c1.length + c2.length + 1 - 1) =
      c1 ++ (c2 ++ c3) := by
    have hsub : c1.length + c2.length + 1 - 1 = (c1 ++ c2).length := by
      rw [List.length_append]
      omega
    rw [hsub, ← List.append_assoc, List.eraseIdx_append_of_length_le (le_refl (c1 ++ c2).length)]
    simp
  unfold removePairedTickets
  rw [hi1, hi2]
  show ((c1 ++ t1 :: (c2 ++ t2 :: c3)).eraseIdx c1.length).eraseIdx
    (c1.length + c2.length + 1 - 1) = c1 ++ (c2 ++ c3)
  rw [he1, he2]

theorem findMatchesLoop_nil (now : ℕ) (s : ServerState) :
    findMatchesLoop now s [] = s := rfl

theorem findMatchesLoop_pair (now : ℕ) (s : ServerState) (t1 t2 : Ticket)
    (rest : List Ticket) :
    findMatchesLoop now s (t1 :: t2 :: rest) =
      findMatchesLoop now (pairStep now s t1 t2) rest := rfl

theorem pairBase_matchmakingQueue (s : ServerState) (t1 t2 : Ticket) :
    (pairBase s t1 t2).matchmakingQueue =
      removePairedTickets s.matchmakingQueue t1.playerId t2.playerId := rfl

theorem pairBase_matchIdCounter (s : ServerState) (t1 t2 : Ticket) :
    (pairBase s t1 t2).matchIdCounter = s.matchIdCounter + 1 := rfl

theorem matchmakingQueue_updatePlayer (s : ServerState) (pid : ℕ)
    (f : PlayerInfo → PlayerInfo) :
    (updatePlayer s pid f).matchmakingQueue = s.matchmakingQueue := rfl

theorem resetForRound_matchmakingQueue (mid : ℕ) (m : MatchData) (s : ServerState)
    (ip : ℕ × ℕ) : (resetForRound mid m s ip).matchmakingQueue = s.matchmakingQueue := by
  unfold resetForRound
  cases lookupPlayer s ip.2 <;> rfl

theorem startRound_matchmakingQueue (s : ServerState) (mid : ℕ) (now : ℕ) :
    (startRound s mid now).matchmakingQueue = s.matchmakingQueue := by
  unfold startRound
  cases hm : lookupMatch s mid with
  | none => rfl
  | some m =>
    show (m.players.enum.foldl (resetForRound mid m) s).matchmakingQueue = s.matchmakingQueue
    exact foldl_preserve (resetForRound mid m) (fun st => st.matchmakingQueue)
      (resetForRound_matchmakingQueue mid m) _ s

theorem startMatch_matchmakingQueue (s : ServerState) (mid : ℕ) (now : ℕ) :
    (startMatch s mid now).matchmakingQueue = s.matchmakingQueue := by
  unfold startMatch
  cases lookupMatch s mid with
  | none => rfl
  | some _ => exact startRound_matchmakingQueue s mid now

theorem resetForRound_matchIdCounter (mid : ℕ) (m : MatchData) (s : ServerState)
    (ip : ℕ × ℕ) : (resetForRound mid m s ip).matchIdCounter = s.matchIdCounter := by
  unfold resetForRound
  cases lookupPlayer s ip.2 <;> rfl

theorem startRound_matchIdCounter (s : ServerState) (mid : ℕ) (now : ℕ) :
    (startRound s mid now).matchIdCounter = s.matchIdCounter := by
  unfold startRound
  cases hm : lookupMatch s mid with
  | none => rfl
  | some m =>
    show (m.players.enum.foldl (resetForRound mid m) s).matchIdCounter = s.matchIdCounter
    exact foldl_preserve (resetForRound mid m) (fun st => st.matchIdCounter)
      (resetForRound_matchIdCounter mid m) _ s

theorem startMatch_matchIdCounter (s : ServerState) (mid : ℕ) (now : ℕ) :
    (startMatch s mid now).matchIdCounter = s.matchIdCounter := by
  unfold startMatch
  cases lookupMatch s mid with
  | none => rfl
  | some _ => exact startRound_matchIdCounter s mid now

/-- One pairing iteration: the two tickets leave the queue, the id counter
advances once, and the freshly registered match lists the two players in
snapshot (FIFO) order. -/
theorem pairStep_spec (now : ℕ) (s0 : ServerState) (t1 t2 : Ticket) (p2 : PlayerInfo)
    (hq2 : lookupPlayer s0 t2.playerId = some p2)
    (hfresh : lookupMatch s0 (s0.matchIdCounter + 1) = none) :
    (pairStep now s0 t1 t2).matchmakingQueue =
      removePairedTickets s0.matchmakingQueue t1.playerId t2.playerId ∧
    (pairStep now s0 t1 t2).matchIdCounter = s0.matchIdCounter + 1 ∧
    ∃ m, lookupMatch (pairStep now s0 t1 t2) (s0.matchIdCounter + 1) = some m ∧
      m.players = [t1.playerId, t2.playerId] := by
  have hfresh' : alookup s0.activeMatches (s0.matchIdCounter + 1) = none := hfresh
  have hbase0 : lookupMatch (pairBase s0 t1 t2) (s0.matchIdCounter + 1) =
      some (mkMatchData t1.playerId t2.playerId) := by
    show alookup (s0.activeMatches ++
      [(s0.matchIdCounter + 1, mkMatchData t1.playerId t2.playerId)])
      (s0.matchIdCounter + 1) = some (mkMatchData t1.playerId t2.playerId)
    rw [alookup_append, hfresh']
    simp [alookup_cons]
  cases hl1 : lookupPlayer (pairBase s0 t1 t2) t1.playerId with
  | none =>
    have hstep : pairStep now s0 t1 t2 = pairBase s0 t1 t2 := by
      unfold pairStep
      rw [hl1]
    rw [hstep]
    exact ⟨pairBase_matchmakingQueue s0 t1 t2, pairBase_matchIdCounter s0 t1 t2,
      mkMatchData t1.playerId t2.playerId, hbase0, rfl⟩
  | some p1 =>
    cases hl2 : lookupPlayer (pairBase s0 t1 t2) t2.playerId with
    | none =>
      exfalso
      have hq2' : lookupPlayer (pairBase s0 t1 t2) t2.playerId = some p2 := hq2
      rw [hl2] at hq2'
      exact absurd hq2' (by simp)
    | some p2' =>
      have hstep : pairStep now s0 t1 t2 =
          startMatch (updatePlayer (updatePlayer (pairBase s0 t1 t2) t1.playerId
            (fun p => { p with matchId := some (s0.matchIdCounter + 1), team := some "team1" }))
            t2.playerId
            (fun p => { p with matchId := some (s0.matchIdCounter + 1), team := some "team2" }))
            (s0.matchIdCounter + 1) now := by
        unfold pairStep
        rw [hl1, hl2]
      rw [hstep]
      have hbase : lookupMatch (updatePlayer (updatePlayer (pairBase s0 t1 t2) t1.playerId
          (fun p => { p with matchId := some (s0.matchIdCounter + 1), team := some "team1" }))
          t2.playerId
          (fun p => { p with matchId := some (s0.matchIdCounter + 1), team := some "team2" }))
          (s0.matchIdCounter + 1) = some (mkMatchData t1.playerId t2.playerId) := hbase0
      obtain ⟨m', hm', hsc', hpl'⟩ := lookupMatch_startMatch_of_some _ (s0.matchIdCounter + 1)
        now (s0.matchIdCounter + 1) _ hbase
      refine ⟨?_, ?_, m', hm', ?_⟩
      · rw [startMatch_matchmakingQueue, matchmakingQueue_updatePlayer,
          matchmakingQueue_updatePlayer]
        exact pairBase_matchmakingQueue s0 t1 t2
      · rw [startMatch_matchIdCounter]
        exact pairBase_matchIdCounter s0 t1 t2
      · rw [hpl']
        rfl

/-- One enqueue onto a queue holding exactly one waiting 1v1 ticket pairs the
waiting player (the older ticket) with the requester (FIFO order): the two
tickets are removed, exactly one fresh match is registered, and its player list
is `[waiting, requester]`. -/
theorem handleMatchmakingRequest_pairs (s : ServerState) (pid now : ℕ) (p : PlayerInfo)
    (t1 : Ticket) (hp : lookupPlayer s pid = some p)
    (hq : s.matchmakingQueue.findIdx? (fun t => t.playerId == pid) = none)
    (hone : s.matchmakingQueue.filter (fun t => t.gameMode == "1v1") = [t1])
    (hnd : QueueIdsNodup s)
    (hfresh : lookupMatch s (s.matchIdCounter + 1) = none) :
    (handleMatchmakingRequest s pid "1v1" now).matchmakingQueue =
      s.matchmakingQueue.filter (fun t => !(t.gameMode == "1v1")) ∧
    (handleMatchmakingRequest s pid "1v1" now).matchIdCounter = s.matchIdCounter + 1 ∧
    ∃ m, lookupMatch (handleMatchmakingRequest s pid "1v1" now) (s.matchIdCounter + 1) =
      some m ∧ m.players = [t1.playerId, pid] := by
  rw [handleMatchmakingRequest_eq_fresh s pid "1v1" now p hp (by simp [hq])]
  obtain ⟨c1, c2, hq_eq, hc1, hpt1, hc2f⟩ := List.filter_eq_cons_iff.mp hone
  rw [List.filter_eq_nil_iff] at hc2f
  have htkt : ((⟨pid, "1v1", now⟩ : Ticket).gameMode == "1v1") = true := rfl
  have hsnap : (s.matchmakingQueue ++ [(⟨pid, "1v1", now⟩ : Ticket)]).filter
      (fun t => t.gameMode == "1v1") = [t1, ⟨pid, "1v1", now⟩] := by
    rw [List.filter_append, hone]
    simp [htkt]
  have hndq : ((s.matchmakingQueue ++ [(⟨pid, "1v1", now⟩ : Ticket)]).map
      Ticket.playerId).Nodup := by
    rw [List.map_append, List.nodup_append]
    refine ⟨hnd, by simp, ?_⟩
    intro a ha hb
    simp only [List.map_cons, List.map_nil, List.mem_singleton] at hb
    rw [List.findIdx?_eq_none_iff] at hq
    obtain ⟨t, ht, hta⟩ := List.mem_map.mp ha
    have h5 := hq t ht
    rw [hta, hb] at h5
    simp at h5
  have hrm : removePairedTickets (s.matchmakingQueue ++ [(⟨pid, "1v1", now⟩ : Ticket)])
      t1.playerId pid = c1 ++ (c2 ++ []) := by
    have hsplit : s.matchmakingQueue ++ [(⟨pid, "1v1", now⟩ : Ticket)] =
        c1 ++ t1 :: (c2 ++ (⟨pid, "1v1", now⟩ : Ticket) :: []) := by
      rw [hq_eq]
      simp
    rw [hsplit]
    rw [hsplit] at hndq
    exact removePairedTickets_decomp c1 c2 [] t1 ⟨pid, "1v1", now⟩ hndq
  have hqfilter : s.matchmakingQueue.filter (fun t => !(t.gameMode == "1v1")) = c1 ++ c2 := by
    rw [hq_eq, List.filter_append, List.filter_cons]
    have hpt1' : (!(t1.gameMode == "1v1")) = false := by rw [hpt1]; rfl
    rw [hpt1']
    simp only [Bool.false_eq_true, if_false]
    have hcc1 : c1.filter (fun t => !(t.gameMode == "1v1")) = c1 := by
      refine List.filter_eq_self.mpr (fun t ht => ?_)
      cases hb : (t.gameMode == "1v1") with
      | true => exact absurd hb (hc1 t ht)
      | false => simp [hb]
    have hcc2 : c2.filter (fun t => !(t.gameMode == "1v1")) = c2 := by
      refine List.filter_eq_self.mpr (fun t ht => ?_)
      cases hb : (t.gameMode == "1v1") with
      | true => exact absurd hb (hc2f t ht)
      | false => simp [hb]
    rw [hcc1, hcc2]
  unfold findMatches
  rw [show ({ s with matchmakingQueue := s.matchmakingQueue ++
      [(⟨pid, "1v1", now⟩ : Ticket)] } : ServerState).matchmakingQueue =
      s.matchmakingQueue ++ [(⟨pid, "1v1", now⟩ : Ticket)] from rfl,
    hsnap, findMatchesLoop_pair, findMatchesLoop_nil]
  have hrm' : removePairedTickets (s.matchmakingQueue ++ [(⟨pid, "1v1", now⟩ : Ticket)])
      t1.playerId pid = s.matchmakingQueue.filter (fun t => !(t.gameMode == "1v1")) := by
    rw [hrm, hqfilter]
    simp
  have hq2 : lookupPlayer ({ s with matchmakingQueue := s.matchmakingQueue ++
      [(⟨pid, "1v1", now⟩ : Ticket)] } : ServerState)
      (⟨pid, "1v1", now⟩ : Ticket).playerId = some p := hp
  have hfresh2 : lookupMatch ({ s with matchmakingQueue := s.matchmakingQueue ++
      [(⟨pid, "1v1", now⟩ : Ticket)] } : ServerState)
      (({ s with matchmakingQueue := s.matchmakingQueue ++
        [(⟨pid, "1v1", now⟩ : Ticket)] } : ServerState).matchIdCounter + 1) = none := hfresh
  obtain ⟨hA, hB, m, hC, hD⟩ := pairStep_spec now ({ s with matchmakingQueue :=
    s.matchmakingQueue ++ [(⟨pid, "1v1", now⟩ : Ticket)] } : ServerState) t1
    ⟨pid, "1v1", now⟩ p hq2 hfresh2
  refine ⟨?_, ?_, m, hC, hD⟩
  · rw [hA]
    exact hrm'
  · exact hB

theorem startMatch_activeMatches_players (s : ServerState) (mid now : ℕ) :
    ∀ e ∈ (startMatch s mid now).activeMatches,
      ∃ e' ∈ s.activeMatches, (e : ℕ × MatchData).2.players = e'.2.players := by
  unfold startMatch
  cases h : lookupMatch s mid with
  | none => exact fun e he => ⟨e, he, rfl⟩
  | some m =>
    intro e he
    rcases startRound_activeMatches_char s mid now with hc | hc
    · rw [hc] at he
      exact ⟨e, he, rfl⟩
    · rw [hc] at he
      obtain ⟨e', he', hee⟩ := mem_aupdate he
      refine ⟨e', he', ?_⟩
      rw [hee]
      by_cases hx : e'.1 = mid
      · rw [if_pos hx]
      · rw [if_neg hx]

theorem pairStep_players (now : ℕ) (s : ServerState) (t1 t2 : Ticket) :
    ∀ e ∈ (pairStep now s t1 t2).activeMatches,
      (∃ e' ∈ s.activeMatches, (e : ℕ × MatchData).2.players = e'.2.players) ∨
      (e : ℕ × MatchData).2.players = [t1.playerId, t2.playerId] := by
  have hbasecase : ∀ e ∈ (pairBase s t1 t2).activeMatches,
      (∃ e' ∈ s.activeMatches, (e : ℕ × MatchData).2.players = e'.2.players) ∨
      (e : ℕ × MatchData).2.players = [t1.playerId, t2.playerId] := by
    intro e he
    have he2 : e ∈ s.activeMatches ++
        [(s.matchIdCounter + 1, mkMatchData t1.playerId t2.playerId)] := he
    rcases List.mem_append.mp he2 with h | h
    · exact Or.inl ⟨e, h, rfl⟩
    · rw [List.mem_singleton] at h
      rw [h]
      exact Or.inr rfl
  cases hl1 : lookupPlayer (pairBase s t1 t2) t1.playerId with
  | none =>
    have hstep : pairStep now s t1 t2 = pairBase s t1 t2 := by
      unfold pairStep
      rw [hl1]
    rw [hstep]
    exact hbasecase
  | some p1 =>
    cases hl2 : lookupPlayer (pairBase s t1 t2) t2.playerId with
    | none =>
      have hstep : pairStep now s t1 t2 = pairBase s t1 t2 := by
        unfold pairStep
        rw [hl1, hl2]
      rw [hstep]
      exact hbasecase
    | some p2 =>
      have hstep : pairStep now s t1 t2 =
          startMatch (updatePlayer (updatePlayer (pairBase s t1 t2) t1.playerId
            (fun p => { p with matchId := some (s.matchIdCounter + 1), team := some "team1" }))
            t2.playerId
            (fun p => { p with matchId := some (s.matchIdCounter + 1), team := some "team2" }))
            (s.matchIdCounter + 1) now := by
        unfold pairStep
        rw [hl1, hl2]
      rw [hstep]
      intro e he
      obtain ⟨e', he', hee⟩ := startMatch_activeMatches_players _ (s.matchIdCounter + 1) now e he
      have he'' : e' ∈ (pairBase s t1 t2).activeMatches := he'
      rcases hbasecase e' he'' with ⟨e2, he2, hp2⟩ | hp2
      · exact Or.inl ⟨e2, he2, hee.trans hp2⟩
      · exact Or.inr (hee.trans hp2)

theorem findMatchesLoop_players_from_snap (now : ℕ) :
    ∀ (snap : List Ticket) (s : ServerState),
      ∀ e ∈ (findMatchesLoop now s snap).activeMatches,
        (∃ e' ∈ s.activeMatches, (e : ℕ × MatchData).2.players = e'.2.players) ∨
        (∃ ta ∈ snap, ∃ tb ∈ snap,
          (e : ℕ × MatchData).2.players = [Ticket.playerId ta, Ticket.playerId tb])
  | [], _s, e, he => Or.inl ⟨e, he, rfl⟩
  | [t], _s, e, he => Or.inl ⟨e, he, rfl⟩
  | t1 :: t2 :: rest, s, e, he => by
    have he' : e ∈ (findMatchesLoop now (pairStep now s t1 t2) rest).activeMatches := he
    rcases findMatchesLoop_players_from_snap now rest (pairStep now s t1 t2) e he' with
      ⟨e', he'', hpe⟩ | ⟨ta, hta, tb, htb, hpe⟩
    · rcases pairStep_players now s t1 t2 e' he'' with ⟨e2, he2, hp2⟩ | hp2
      · exact Or.inl ⟨e2, he2, hpe.trans hp2⟩
      · refine Or.inr ⟨t1, List.mem_cons_self _ _, t2,
          List.mem_cons_of_mem _ (List.mem_cons_self _ _), hpe.trans hp2⟩
    · exact Or.inr ⟨ta, List.mem_cons_of_mem _ (List.mem_cons_of_mem _ hta), tb,
        List.mem_cons_of_mem _ (List.mem_cons_of_mem _ htb), hpe⟩

theorem findMatches_players_from_tickets (s : ServerState) (now : ℕ) :
    ∀ e ∈ (findMatches s now).activeMatches,
      (∃ e' ∈ s.activeMatches, (e : ℕ × MatchData).2.players = e'.2.players) ∨
      (∃ ta ∈ s.matchmakingQueue, ∃ tb ∈ s.matchmakingQueue,
        ta.gameMode = "1v1" ∧ tb.gameMode = "1v1" ∧
        (e : ℕ × MatchData).2.players = [Ticket.playerId ta, Ticket.playerId tb]) := by
  intro e he
  rcases findMatchesLoop_players_from_snap now
      (s.matchmakingQueue.filter (fun t => t.gameMode == "1v1")) s e he with
    ⟨e', he', hpe⟩ | ⟨ta, hta, tb, htb, hpe⟩
  · exact Or.inl ⟨e', he', hpe⟩
  · obtain ⟨hta', htam⟩ := List.mem_filter.mp hta
    obtain ⟨htb', htbm⟩ := List.mem_filter.mp htb
    exact Or.inr ⟨ta, hta', tb, htb', eq_of_beq htam, eq_of_beq htbm, hpe⟩

/-- Amended **C9**: matchmaking is FIFO for the `"1v1"` mode only. Enqueueing a
player who already holds a ticket changes nothing; in every reachable state the
queue holds at most one ticket per player; a request that finds one waiting 1v1
ticket pairs the waiting (older) player with the requester in FIFO order,
removes exactly those two tickets, and registers exactly one fresh match; and a
match created by pairing only ever lists players that held a 1v1 ticket in the
queue when `findMatches` ran.  (As stated the claim is false: tickets of any
mode other than `"1v1"` are never paired, see the counterexample.) -/
theorem c9_fifo_pairing_amended :
    (∀ (s : ServerState) (pid : ℕ) (mode : String) (now : ℕ) (p : PlayerInfo),
      lookupPlayer s pid = some p →
      (s.matchmakingQueue.findIdx? (fun t => t.playerId == pid)).isSome = true →
      handleMatchmakingRequest s pid mode now = s) ∧
    (∀ (evs : List GameEvent), QueueIdsNodup (runEvents evs)) ∧
    (∀ (s : ServerState) (pid now : ℕ) (p : PlayerInfo) (t1 : Ticket),
      lookupPlayer s pid = some p →
      s.matchmakingQueue.findIdx? (fun t => t.playerId == pid) = none →
      s.matchmakingQueue.filter (fun t => t.gameMode == "1v1") = [t1] →
      QueueIdsNodup s →
      lookupMatch s (s.matchIdCounter + 1) = none →
      (handleMatchmakingRequest s pid "1v1" now).matchmakingQueue =
        s.matchmakingQueue.filter (fun t => !(t.gameMode == "1v1")) ∧
      (handleMatchmakingRequest s pid "1v1" now).matchIdCounter = s.matchIdCounter + 1 ∧
      ∃ m, lookupMatch (handleMatchmakingRequest s pid "1v1" now) (s.matchIdCounter + 1) =
        some m ∧ m.players = [t1.playerId, pid]) ∧
    (∀ (s : ServerState) (now : ℕ), ∀ e ∈ (findMatches s now).activeMatches,
      (∃ e' ∈ s.activeMatches, (e : ℕ × MatchData).2.players = e'.2.players) ∨
      (∃ ta ∈ s.matchmakingQueue, ∃ tb ∈ s.matchmakingQueue,
        ta.gameMode = "1v1" ∧ tb.gameMode = "1v1" ∧
        (e : ℕ × MatchData).2.players = [Ticket.playerId ta, Ticket.playerId tb])) := by
  refine ⟨?_, qnd_runEvents, handleMatchmakingRequest_pairs, findMatches_players_from_tickets⟩
  intro s pid mode now p hp hq
  exact handleMatchmakingRequest_eq_queued s pid mode now p hp hq

/-- Counterexample to C9 as stated: two players request the same mode `"2v2"`;
two same-mode tickets wait in the queue, yet no pairing happens — `findMatches`
only ever pairs the `"1v1"` sub-queue. -/
theorem c9_counterexample :
    c9run.matchmakingQueue.length = 2 ∧
    (c9run.matchmakingQueue.map Ticket.gameMode = ["2v2", "2v2"]) ∧
    c9run.activeMatches = [] := by
  decide

theorem c9_witness :
    ((handleMatchmakingRequest c9S 2 "1v1" 99).matchmakingQueue =
      c9S.matchmakingQueue.filter (fun t => !(t.gameMode == "1v1"))) ∧
    ((handleMatchmakingRequest c9S 2 "1v1" 99).matchIdCounter = c9S.matchIdCounter + 1) ∧
    ∃ m, lookupMatch (handleMatchmakingRequest c9S 2 "1v1" 99) (c9S.matchIdCounter + 1) =
      some m ∧ m.players = [1, 2] :=
  c9_fifo_pairing_amended.2.2.1 c9S 2 99 (freshPlayer 2) ⟨1, "1v1", 10⟩
    (by decide) (by decide) (by decide)
    (show (c9S.matchmakingQueue.map Ticket.playerId).Nodup by decide) (by decide)

/-- Amended **C5**: the server has no match-scoped delivery.  `sendTo` reaches
exactly the one addressed player, and every `broadcast` reaches every connected
player (a player is skipped only when the exclusion id is truthy and equals
their id); in particular a `player_hit` event of a match is delivered to all
connected players, including those outside the match. -/
theorem c5_delivery_amended :
    (∀ (s : ServerState) (pid : ℕ) (msg : GameMsg),
      (sendTo s pid msg).events = s.events ++ [⟨msg, [pid]⟩]) ∧
    (∀ (s : ServerState) (msg : GameMsg),
      (broadcast s msg none).events =
        s.events ++ [⟨msg, s.connectedPlayers.map Prod.fst⟩]) ∧
    (∀ (s : ServerState) (msg : GameMsg) (ex : ℕ),
      (broadcast s msg (some ex)).events = s.events ++
        [⟨msg, s.connectedPlayers.filterMap (fun e =>
          if ex ≠ 0 ∧ e.1 = ex then none else some e.1)⟩]) ∧
    (∀ (s : ServerState) (sh tg : ℕ) (d : ℤ) (hs : Bool) (shooter target : PlayerInfo),
      lookupPlayer s sh = some shooter → lookupPlayer s tg = some target →
      target.isAlive = true → 0 < applyDamage target.health d →
      (handlePlayerHit s sh tg d hs).events = s.events ++
        [⟨.playerHitMsg sh tg d hs (applyDamage target.health d),
          s.connectedPlayers.map Prod.fst⟩]) := by
  refine ⟨fun s pid msg => rfl, broadcast_none_events, fun s msg ex => rfl, ?_⟩
  intro s sh tg d hs shooter target hsh htg halive hlive
  rw [handlePlayerHit_eq_of_some s sh tg d hs shooter target hsh htg, if_pos halive,
    if_neg (by omega)]
  rw [broadcast_none_events, map_fst_updatePlayer]
  rfl

/-- Counterexample to C5 as stated: after `c5run`, the `player_hit` event of the
match between players 1 and 2 was delivered to player 3, a connected player
outside that match. -/
theorem c5_counterexample :
    ((⟨.playerHitMsg 1 2 10 false 90, [1, 2, 3]⟩ : Emitted) ∈ c5run.events) ∧
    ((lookupPlayer c5run 3).map PlayerInfo.matchId = some none) ∧
    ((lookupMatch c5run 1).map MatchData.players = some [1, 2]) := by
  decide

theorem c5_witness :
    (handlePlayerHit c5S 1 2 10 false).events =
      c5S.events ++ [⟨.playerHitMsg 1 2 10 false 90, [1, 2, 3]⟩] :=
  c5_delivery_amended.2.2.2 c5S 1 2 10 false c4wP c5P2
    (by decide) (by decide) (by decide) (by decide)

/-! ## Concrete ray evaluations -/

theorem ray_eval_z (z : ℝ) (hz : 0 < z) (hz100 : z ≤ 100) :
    calculateRaycastHit ⟨0, 0, 0⟩ ⟨0, 0, 1⟩ ⟨0, 0, z⟩ 100 = ⟨true, z, 0⟩ := by
  simp only [calculateRaycastHit]
  have e1 : ((z:ℝ) - 0) * (z - 0) = z * z := by ring
  have e2 : ((0:ℝ) - 0) * (0 - 0) = 0 := by ring
  have e3 : Real.sqrt ((0:ℝ) * 0 + 0 * 0 + 1 * 1) = 1 := by
    rw [show (0:ℝ) * 0 + 0 * 0 + 1 * 1 = 1 by norm_num]
    exact Real.sqrt_one
  have e4 : Real.sqrt (((0:ℝ) - 0) * (0 - 0) + (0 - 0) * (0 - 0) + (z - 0) * (z - 0)) = z := by
    rw [e1, e2, show (0:ℝ) + 0 + z * z = z * z by ring]
    exact Real.sqrt_mul_self hz.le
  rw [e4, e3]
  rw [if_neg (by push_neg; exact hz100)]
  have e5 : ((0:ℝ) / 1) * ((0 - 0) / z) + (0 / 1) * ((0 - 0) / z) + (1 / 1) * ((z - 0) / z) = 1 := by
    field_simp
  rw [e5, if_pos (by norm_num)]
  have e6 : (0:ℝ) + 0 / 1 * z = 0 := by ring
  rw [e6]

theorem performHitDetectionLoop_cons (shooterId : ℕ) (direction shooterPosition : Vec3R)
    (getTarget : ℕ → Option TargetState) (tid : ℕ) (rest : List ℕ) (cd : ℝ)
    (acc : Option HitOutcome) :
    performHitDetectionLoop shooterId direction shooterPosition getTarget (tid :: rest) cd acc =
      if tid = shooterId then
        performHitDetectionLoop shooterId direction shooterPosition getTarget rest cd acc
      else
        match getTarget tid with
        | none => performHitDetectionLoop shooterId direction shooterPosition getTarget rest cd acc
        | some target =>
          if target.isAlive then
            if (calculateRaycastHit shooterPosition direction target.position 100).hit ∧
                (calculateRaycastHit shooterPosition direction target.position 100).distance < cd then
              performHitDetectionLoop shooterId direction shooterPosition getTarget rest
                (calculateRaycastHit shooterPosition direction target.position 100).distance
                (some ⟨true, some tid,
                  shotDamage (decide ((calculateRaycastHit shooterPosition direction
                    target.position 100).hitHeight > 1.6))
                    (calculateRaycastHit shooterPosition direction target.position 100).distance,
                  decide ((calculateRaycastHit shooterPosition direction
                    target.position 100).hitHeight > 1.6),
                  (calculateRaycastHit shooterPosition direction target.position 100).distance⟩)
            else
              performHitDetectionLoop shooterId direction shooterPosition getTarget rest cd acc
          else
            performHitDetectionLoop shooterId direction shooterPosition getTarget rest cd acc := rfl

theorem performHitDetectionLoop_cons_shooter (shooterId : ℕ)
    (direction shooterPosition : Vec3R) (getTarget : ℕ → Option TargetState) (tid : ℕ)
    (rest : List ℕ) (cd : ℝ) (acc : Option HitOutcome) (h1 : tid = shooterId) :
    performHitDetectionLoop shooterId direction shooterPosition getTarget (tid :: rest) cd acc =
      performHitDetectionLoop shooterId direction shooterPosition getTarget rest cd acc := by
  rw [performHitDetectionLoop_cons, if_pos h1]

theorem performHitDetectionLoop_cons_noTarget (shooterId : ℕ)
    (direction shooterPosition : Vec3R) (getTarget : ℕ → Option TargetState) (tid : ℕ)
    (rest : List ℕ) (cd : ℝ) (acc : Option HitOutcome) (h1 : ¬tid = shooterId)
    (hg : getTarget tid = none) :
    performHitDetectionLoop shooterId direction shooterPosition getTarget (tid :: rest) cd acc =
      performHitDetectionLoop shooterId direction shooterPosition getTarget rest cd acc := by
  rw [performHitDetectionLoop_cons, if_neg h1, hg]

theorem performHitDetectionLoop_cons_target (shooterId : ℕ)
    (direction shooterPosition : Vec3R) (getTarget : ℕ → Option TargetState) (tid : ℕ)
    (rest : List ℕ) (cd : ℝ) (acc : Option HitOutcome) (target : TargetState)
    (h1 : ¬tid = shooterId) (hg : getTarget tid = some target) :
    performHitDetectionLoop shooterId direction shooterPosition getTarget (tid :: rest) cd acc =
      (if target.isAlive = true then
        (if (calculateRaycastHit shooterPosition direction target.position 100).hit = true ∧
            (calculateRaycastHit shooterPosition direction target.position 100).distance < cd then
          performHitDetectionLoop shooterId direction shooterPosition getTarget rest
            (calculateRaycastHit shooterPosition direction target.position 100).distance
            (some ⟨true, some tid,
              shotDamage (decide ((calculateRaycastHit shooterPosition direction
                target.position 100).hitHeight > 1.6))
                (calculateRaycastHit shooterPosition direction target.position 100).distance,
              decide ((calculateRaycastHit shooterPosition direction
                target.position 100).hitHeight > 1.6),
              (calculateRaycastHit shooterPosition direction target.position 100).distance⟩)
        else
          performHitDetectionLoop shooterId direction shooterPosition getTarget rest cd acc)
      else
        performHitDetectionLoop shooterId direction shooterPosition getTarget rest cd acc) := by
  rw [performHitDetectionLoop_cons, if_neg h1, hg]

theorem performHitDetectionLoop_isSome (shooterId : ℕ) (direction shooterPosition : Vec3R)
    (getTarget : ℕ → Option TargetState) :
    ∀ (ids : List ℕ) (cd : ℝ) (o0 : HitOutcome),
      ∃ o, performHitDetectionLoop shooterId direction shooterPosition getTarget ids cd
        (some o0) = some o
  | [], _cd, o0 => ⟨o0, rfl⟩
  | tid :: rest, cd, o0 => by
    by_cases h1 : tid = shooterId
    · rw [performHitDetectionLoop_cons_shooter shooterId direction shooterPosition getTarget
        tid rest cd (some o0) h1]
      exact performHitDetectionLoop_isSome shooterId direction shooterPosition getTarget rest cd o0
    · cases hg : getTarget tid with
      | none =>
        rw [performHitDetectionLoop_cons_noTarget shooterId direction shooterPosition getTarget
          tid rest cd (some o0) h1 hg]
        exact performHitDetectionLoop_isSome shooterId direction shooterPosition getTarget
          rest cd o0
      | some target =>
        rw [performHitDetectionLoop_cons_target shooterId direction shooterPosition getTarget
          tid rest cd (some o0) target h1 hg]
        by_cases ha : target.isAlive = true
        · rw [if_pos ha]
          by_cases hc : (calculateRaycastHit shooterPosition direction target.position 100).hit =
              true ∧
              (calculateRaycastHit shooterPosition direction target.position 100).distance < cd
          · rw [if_pos hc]
            exact performHitDetectionLoop_isSome shooterId direction shooterPosition getTarget
              rest _ _
          · rw [if_neg hc]
            exact performHitDetectionLoop_isSome shooterId direction shooterPosition getTarget
              rest cd o0
        · rw [if_neg ha]
          exact performHitDetectionLoop_isSome shooterId direction shooterPosition getTarget
            rest cd o0

theorem performHitDetectionLoop_none_iff (shooterId : ℕ) (direction shooterPosition : Vec3R)
    (getTarget : ℕ → Option TargetState) :
    ∀ (ids : List ℕ) (cd : ℝ),
      performHitDetectionLoop shooterId direction shooterPosition getTarget ids cd none =
          none ↔
        ∀ tid ∈ ids, tid ≠ shooterId → ∀ t, getTarget tid = some t → t.isAlive = true →
          ¬((calculateRaycastHit shooterPosition direction t.position 100).hit = true ∧
            (calculateRaycastHit shooterPosition direction t.position 100).distance < cd)
  | [], cd => by
    constructor
    · intro _ tid htid
      exact absurd htid (List.not_mem_nil tid)
    · intro _
      rfl
  | tid :: rest, cd => by
    by_cases h1 : tid = shooterId
    · rw [performHitDetectionLoop_cons_shooter shooterId direction shooterPosition getTarget
        tid rest cd none h1, performHitDetectionLoop_none_iff shooterId direction shooterPosition
        getTarget rest cd]
      constructor
      · intro h tid' htid' hne t hg ha
        rcases List.mem_cons.mp htid' with heq | htid'
        · rw [heq] at hne
          exact absurd h1 hne
        · exact h tid' htid' hne t hg ha
      · intro h tid' htid' hne t hg ha
        exact h tid' (List.mem_cons_of_mem _ htid') hne t hg ha
    · cases hg0 : getTarget tid with
      | none =>
        rw [performHitDetectionLoop_cons_noTarget shooterId direction shooterPosition getTarget
          tid rest cd none h1 hg0,
          performHitDetectionLoop_none_iff shooterId direction shooterPosition
          getTarget rest cd]
        constructor
        · intro h tid' htid' hne t hg ha
          rcases List.mem_cons.mp htid' with heq | htid'
          · rw [heq] at hg
            rw [hg0] at hg
            exact absurd hg (by simp)
          · exact h tid' htid' hne t hg ha
        · intro h tid' htid' hne t hg ha
          exact h tid' (List.mem_cons_of_mem _ htid') hne t hg ha
      | some target =>
        rw [performHitDetectionLoop_cons_target shooterId direction shooterPosition getTarget
          tid rest cd none target h1 hg0]
        by_cases ha0 : target.isAlive = true
        · rw [if_pos ha0]
          by_cases hc : (calculateRaycastHit shooterPosition direction target.position 100).hit =
              true ∧
              (calculateRaycastHit shooterPosition direction target.position 100).distance < cd
          · rw [if_pos hc]
            obtain ⟨o, ho⟩ := performHitDetectionLoop_isSome shooterId direction shooterPosition
              getTarget rest
              (calculateRaycastHit shooterPosition direction target.position 100).distance
              ⟨true, some tid,
                shotDamage (decide ((calculateRaycastHit shooterPosition direction
                  target.position 100).hitHeight > 1.6))
                  (calculateRaycastHit shooterPosition direction target.position 100).distance,
                decide ((calculateRaycastHit shooterPosition direction
                  target.position 100).hitHeight > 1.6),
                (calculateRaycastHit shooterPosition direction target.position 100).distance⟩
            rw [ho]
            constructor
            · intro h
              exact absurd h (by simp)
            · intro h
              exact absurd hc (h tid (List.mem_cons_self _ _) h1 target hg0 ha0)
          · rw [if_neg hc]
            rw [performHitDetectionLoop_none_iff shooterId direction shooterPosition
              getTarget rest cd]
            constructor
            · intro h tid' htid' hne t hg ha
              rcases List.mem_cons.mp htid' with heq | htid'
              · rw [heq] at hg
                rw [hg0] at hg
                obtain rfl : target = t := by injection hg
                exact hc
              · exact h tid' htid' hne t hg ha
            · intro h tid' htid' hne t hg ha
              exact h tid' (List.mem_cons_of_mem _ htid') hne t hg ha
        · rw [if_neg ha0]
          rw [performHitDetectionLoop_none_iff shooterId direction shooterPosition
            getTarget rest cd]
          constructor
          · intro h tid' htid' hne t hg ha
            rcases List.mem_cons.mp htid' with heq | htid'
            · rw [heq] at hg
              rw [hg0] at hg
              obtain rfl : target = t := by injection hg
              exact absurd ha ha0
            · exact h tid' htid' hne t hg ha
          · intro h tid' htid' hne t hg ha
            exact h tid' (List.mem_cons_of_mem _ htid') hne t hg ha

theorem performHitDetectionLoop_some_spec (shooterId : ℕ) (direction shooterPosition : Vec3R)
    (getTarget : ℕ → Option TargetState) :
    ∀ (ids : List ℕ) (cd : ℝ) (acc : Option HitOutcome) (o : HitOutcome),
      (∀ o0, acc = some o0 → o0.distance = cd) →
      performHitDetectionLoop shooterId direction shooterPosition getTarget ids cd acc =
        some o →
      o.distance ≤ cd ∧
      (acc = none → o.distance < cd) ∧
      (acc = some o ∨ ∃ tid ∈ ids, FromTid shooterId direction shooterPosition getTarget tid o) ∧
      (∀ tid ∈ ids, tid ≠ shooterId → ∀ t, getTarget tid = some t → t.isAlive = true →
        (calculateRaycastHit shooterPosition direction t.position 100).hit = true →
        (calculateRaycastHit shooterPosition direction t.position 100).distance < cd →
        o.distance ≤ (calculateRaycastHit shooterPosition direction t.position 100).distance)
  | [], cd, acc, o, hacc, hres => by
    have hacc' : acc = some o := hres
    refine ⟨le_of_eq (hacc o hacc'), ?_, Or.inl hacc', ?_⟩
    · intro hnone
      rw [hnone] at hacc'
      exact absurd hacc' (by simp)
    · intro tid htid
      exact absurd htid (List.not_mem_nil tid)
  | tid :: rest, cd, acc, o, hacc, hres => by
    by_cases h1 : tid = shooterId
    · rw [performHitDetectionLoop_cons_shooter shooterId direction shooterPosition getTarget
        tid rest cd acc h1] at hres
      obtain ⟨hle, hlt, hprov, hmin⟩ := performHitDetectionLoop_some_spec shooterId direction
        shooterPosition getTarget rest cd acc o hacc hres
      refine ⟨hle, hlt, ?_, ?_⟩
      · rcases hprov with h | ⟨tid', htid', hf⟩
        · exact Or.inl h
        · exact Or.inr ⟨tid', List.mem_cons_of_mem _ htid', hf⟩
      · intro tid' htid' hne t hg ha hhit hltc
        rcases List.mem_cons.mp htid' with heq | htid'
        · rw [heq] at hne
          exact absurd h1 hne
        · exact hmin tid' htid' hne t hg ha hhit hltc
    · cases hg0 : getTarget tid with
      | none =>
        rw [performHitDetectionLoop_cons_noTarget shooterId direction shooterPosition getTarget
          tid rest cd acc h1 hg0] at hres
        obtain ⟨hle, hlt, hprov, hmin⟩ := performHitDetectionLoop_some_spec shooterId direction
          shooterPosition getTarget rest cd acc o hacc hres
        refine ⟨hle, hlt, ?_, ?_⟩
        · rcases hprov with h | ⟨tid', htid', hf⟩
          · exact Or.inl h
          · exact Or.inr ⟨tid', List.mem_cons_of_mem _ htid', hf⟩
        · intro tid' htid' hne t hg ha hhit hltc
          rcases List.mem_cons.mp htid' with heq | htid'
          · rw [heq] at hg
            rw [hg0] at hg
            exact absurd hg (by simp)
          · exact hmin tid' htid' hne t hg ha hhit hltc
      | some target =>
        rw [performHitDetectionLoop_cons_target shooterId direction shooterPosition getTarget
          tid rest cd acc target h1 hg0] at hres
        by_cases ha0 : target.isAlive = true
        · rw [if_pos ha0] at hres
          by_cases hc : (calculateRaycastHit shooterPosition direction target.position 100).hit =
              true ∧
              (calculateRaycastHit shooterPosition direction target.position 100).distance < cd
          · rw [if_pos hc] at hres
            obtain ⟨hle, hlt, hprov, hmin⟩ := performHitDetectionLoop_some_spec shooterId
              direction shooterPosition getTarget rest
              (calculateRaycastHit shooterPosition direction target.position 100).distance
              (some ⟨true, some tid,
                shotDamage (decide ((calculateRaycastHit shooterPosition direction
                  target.position 100).hitHeight > 1.6))
                  (calculateRaycastHit shooterPosition direction target.position 100).distance,
                decide ((calculateRaycastHit shooterPosition direction
                  target.position 100).hitHeight > 1.6),
                (calculateRaycastHit shooterPosition direction target.position 100).distance⟩)
              o (by intro o0 h0; injection h0 with h0; rw [← h0]) hres
            have hofin : o.distance ≤
                (calculateRaycastHit shooterPosition direction target.position 100).distance :=
              hle
            refine ⟨le_of_lt (lt_of_le_of_lt hofin hc.2), fun _ => lt_of_le_of_lt hofin hc.2,
              ?_, ?_⟩
            · rcases hprov with h | ⟨tid', htid', hf⟩
              · refine Or.inr ⟨tid, List.mem_cons_self _ _, h1, target, hg0, ha0, hc.1, ?_⟩
                injection h with h
                exact h.symm
              · exact Or.inr ⟨tid', List.mem_cons_of_mem _ htid', hf⟩
            · intro tid' htid' hne t hg ha hhit hltc
              rcases List.mem_cons.mp htid' with heq | htid'
              · rw [heq] at hg
                rw [hg0] at hg
                obtain rfl : target = t := by injection hg
                exact hofin
              · by_cases hcase : (calculateRaycastHit shooterPosition direction
                    t.position 100).distance <
                    (calculateRaycastHit shooterPosition direction target.position 100).distance
                · exact hmin tid' htid' hne t hg ha hhit hcase
                · push_neg at hcase
                  exact le_trans hofin hcase
          · rw [if_neg hc] at hres
            obtain ⟨hle, hlt, hprov, hmin⟩ := performHitDetectionLoop_some_spec shooterId
              direction shooterPosition getTarget rest cd acc o hacc hres
            refine ⟨hle, hlt, ?_, ?_⟩
            · rcases hprov with h | ⟨tid', htid', hf⟩
              · exact Or.inl h
              · exact Or.inr ⟨tid', List.mem_cons_of_mem _ htid', hf⟩
            · intro tid' htid' hne t hg ha hhit hltc
              rcases List.mem_cons.mp htid' with heq | htid'
              · rw [heq] at hg
                rw [hg0] at hg
                obtain rfl : target = t := by injection hg
                exact absurd ⟨hhit, hltc⟩ hc
              · exact hmin tid' htid' hne t hg ha hhit hltc
        · rw [if_neg ha0] at hres
          obtain ⟨hle, hlt, hprov, hmin⟩ := performHitDetectionLoop_some_spec shooterId
            direction shooterPosition getTarget rest cd acc o hacc hres
          refine ⟨hle, hlt, ?_, ?_⟩
          · rcases hprov with h | ⟨tid', htid', hf⟩
            · exact Or.inl h
            · exact Or.inr ⟨tid', List.mem_cons_of_mem _ htid', hf⟩
          · intro tid' htid' hne t hg ha hhit hltc
            rcases List.mem_cons.mp htid' with heq | htid'
            · rw [heq] at hg
              rw [hg0] at hg
              obtain rfl : target = t := by injection hg
              exact absurd ha ha0
            · exact hmin tid' htid' hne t hg ha hhit hltc

/-- The engine's per-target hit flag agrees exactly with the spec's
qualification words: within range (`≤ 100`) and aim cosine at least `0.95`. -/
theorem calculateRaycastHit_hit_iff (shooterPos direction targetPos : Vec3R) :
    (calculateRaycastHit shooterPos direction targetPos 100).hit = true ↔
      specQualifies shooterPos direction targetPos := by
  simp only [calculateRaycastHit, specQualifies]
  split_ifs with h1 h2
  · constructor
    · intro h
      exact absurd h (by simp)
    · rintro ⟨ha, -⟩
      exfalso
      linarith
  · constructor
    · intro _
      exact ⟨le_of_not_lt h1, h2⟩
    · intro _
      rfl
  · constructor
    · intro h
      exact absurd h (by simp)
    · rintro ⟨-, hb⟩
      exact absurd hb h2

/-- Amended **C1**: the per-candidate qualification test matches the spec's
words exactly (distance `≤ 100` and cosine `≥ 0.95`), but selection is stricter
than qualification: the loop keeps a candidate only when its distance is
strictly below the running closest distance, which starts at the maximum range
100 — so the engine returns the closest candidate whose distance is *strictly
less than* 100, and reports no hit when no candidate passes that strict test,
even if a candidate qualifies at distance exactly 100. -/
theorem c1_closest_hit_amended :
    (∀ (shooterPos direction targetPos : Vec3R),
      ((calculateRaycastHit shooterPos direction targetPos 100).hit = true ↔
        specQualifies shooterPos direction targetPos)) ∧
    (∀ (shooterId : ℕ) (direction shooterPosition : Vec3R) (matchPlayers : List ℕ)
      (getTarget : ℕ → Option TargetState),
      (∀ tid ∈ matchPlayers, tid ≠ shooterId → ∀ t, getTarget tid = some t →
        t.isAlive = true →
        ¬((calculateRaycastHit shooterPosition direction t.position 100).hit = true ∧
          (calculateRaycastHit shooterPosition direction t.position 100).distance < 100)) →
      performHitDetection shooterId direction shooterPosition matchPlayers getTarget =
        ⟨false, none, 0, false, 0⟩) ∧
    (∀ (shooterId : ℕ) (direction shooterPosition : Vec3R) (matchPlayers : List ℕ)
      (getTarget : ℕ → Option TargetState) (tid0 : ℕ) (t0 : TargetState),
      tid0 ∈ matchPlayers → tid0 ≠ shooterId → getTarget tid0 = some t0 →
      t0.isAlive = true →
      (calculateRaycastHit shooterPosition direction t0.position 100).hit = true →
      (calculateRaycastHit shooterPosition direction t0.position 100).distance < 100 →
      ∃ tid t, tid ∈ matchPlayers ∧ tid ≠ shooterId ∧ getTarget tid = some t ∧
        t.isAlive = true ∧
        (calculateRaycastHit shooterPosition direction t.position 100).hit = true ∧
        (calculateRaycastHit shooterPosition direction t.position 100).distance < 100 ∧
        performHitDetection shooterId direction shooterPosition matchPlayers getTarget =
          ⟨true, some tid,
            shotDamage (decide ((calculateRaycastHit shooterPosition direction
              t.position 100).hitHeight > 1.6))
              (calculateRaycastHit shooterPosition direction t.position 100).distance,
            decide ((calculateRaycastHit shooterPosition direction
              t.position 100).hitHeight > 1.6),
            (calculateRaycastHit shooterPosition direction t.position 100).distance⟩ ∧
        (∀ tid' ∈ matchPlayers, tid' ≠ shooterId → ∀ t', getTarget tid' = some t' →
          t'.isAlive = true →
          (calculateRaycastHit shooterPosition direction t'.position 100).hit = true →
          (calculateRaycastHit shooterPosition direction t'.position 100).distance < 100 →
          (calculateRaycastHit shooterPosition direction t.position 100).distance ≤
            (calculateRaycastHit shooterPosition direction t'.position 100).distance)) := by
  refine ⟨calculateRaycastHit_hit_iff, ?_, ?_⟩
  · intro shooterId direction shooterPosition matchPlayers getTarget h
    unfold performHitDetection
    rw [(performHitDetectionLoop_none_iff shooterId direction shooterPosition getTarget
      matchPlayers 100).mpr h]
    rfl
  · intro shooterId direction shooterPosition matchPlayers getTarget tid0 t0 htid0 hne0 hg0
      ha0 hhit0 hlt0
    cases hres : performHitDetectionLoop shooterId direction shooterPosition getTarget
        matchPlayers 100 none with
    | none =>
      exact absurd ⟨hhit0, hlt0⟩
        ((performHitDetectionLoop_none_iff shooterId direction shooterPosition getTarget
          matchPlayers 100).mp hres tid0 htid0 hne0 t0 hg0 ha0)
    | some o =>
      obtain ⟨hle, hlt, hprov, hmin⟩ := performHitDetectionLoop_some_spec shooterId direction
        shooterPosition getTarget matchPlayers 100 none o
        (fun o0 h0 => absurd h0 (by simp)) hres
      rcases hprov with h | ⟨tid, htid, hne, t, hg, ha, hhit, ho⟩
      · exact absurd h (by simp)
      · refine ⟨tid, t, htid, hne, hg, ha, hhit, ?_, ?_, ?_⟩
        · have hod : o.distance =
              (calculateRaycastHit shooterPosition direction t.position 100).distance := by
            rw [ho]
          rw [← hod]
          exact hlt rfl
        · unfold performHitDetection
          rw [hres]
          rw [ho]
          rfl
        · intro tid' htid' hne' t' hg' ha' hhit' hlt'
          have hod : o.distance =
              (calculateRaycastHit shooterPosition direction t.position 100).distance := by
            rw [ho]
          rw [← hod]
          exact hmin tid' htid' hne' t' hg' ha' hhit' hlt'

/-- Counterexample to C1 as stated: a perfectly aimed candidate at distance
exactly 100 qualifies (within maximum range, cosine 1), and the raycast flags
the hit, yet hit resolution reports no hit — the selection test demands a
distance strictly below the initial closest distance of 100. -/
theorem c1_counterexample :
    specQualifies ⟨0, 0, 0⟩ ⟨0, 0, 1⟩ ⟨0, 0, 100⟩ ∧
    (calculateRaycastHit ⟨0, 0, 0⟩ ⟨0, 0, 1⟩ ⟨0, 0, 100⟩ 100).hit = true ∧
    zTarget 100 2 = some ⟨⟨0, 0, 100⟩, true⟩ ∧
    performHitDetection 1 ⟨0, 0, 1⟩ ⟨0, 0, 0⟩ [2] (zTarget 100) =
      ⟨false, none, 0, false, 0⟩ := by
  have hray : calculateRaycastHit ⟨0, 0, 0⟩ ⟨0, 0, 1⟩ ⟨0, 0, 100⟩ 100 =
      ⟨true, 100, 0⟩ := ray_eval_z 100 (by norm_num) (by norm_num)
  have hhit : (calculateRaycastHit ⟨0, 0, 0⟩ ⟨0, 0, 1⟩ ⟨0, 0, 100⟩ 100).hit = true := by
    rw [hray]
  refine ⟨(calculateRaycastHit_hit_iff _ _ _).mp hhit, hhit, rfl, ?_⟩
  unfold performHitDetection
  rw [performHitDetectionLoop_cons_target 1 ⟨0, 0, 1⟩ ⟨0, 0, 0⟩ (zTarget 100) 2 [] 100 none
    ⟨⟨0, 0, 100⟩, true⟩ (by norm_num) rfl]
  rw [if_pos rfl, if_neg (by rw [hray]; simp)]
  rfl

theorem c1_witness :
    ∃ tid t, tid ∈ [2] ∧ tid ≠ 1 ∧ zTarget 50 tid = some t ∧ t.isAlive = true ∧
      (calculateRaycastHit ⟨0, 0, 0⟩ ⟨0, 0, 1⟩ t.position 100).hit = true ∧
      (calculateRaycastHit ⟨0, 0, 0⟩ ⟨0, 0, 1⟩ t.position 100).distance < 100 ∧
      performHitDetection 1 ⟨0, 0, 1⟩ ⟨0, 0, 0⟩ [2] (zTarget 50) =
        ⟨true, some tid,
          shotDamage (decide ((calculateRaycastHit ⟨0, 0, 0⟩ ⟨0, 0, 1⟩
            t.position 100).hitHeight > 1.6))
            (calculateRaycastHit ⟨0, 0, 0⟩ ⟨0, 0, 1⟩ t.position 100).distance,
          decide ((calculateRaycastHit ⟨0, 0, 0⟩ ⟨0, 0, 1⟩ t.position 100).hitHeight > 1.6),
          (calculateRaycastHit ⟨0, 0, 0⟩ ⟨0, 0, 1⟩ t.position 100).distance⟩ ∧
      (∀ tid' ∈ [2], tid' ≠ 1 → ∀ t', zTarget 50 tid' = some t' → t'.isAlive = true →
        (calculateRaycastHit ⟨0, 0, 0⟩ ⟨0, 0, 1⟩ t'.position 100).hit = true →
        (calculateRaycastHit ⟨0, 0, 0⟩ ⟨0, 0, 1⟩ t'.position 100).distance < 100 →
        (calculateRaycastHit ⟨0, 0, 0⟩ ⟨0, 0, 1⟩ t.position 100).distance ≤
          (calculateRaycastHit ⟨0, 0, 0⟩ ⟨0, 0, 1⟩ t'.position 100).distance) :=
  c1_closest_hit_amended.2.2 1 ⟨0, 0, 1⟩ ⟨0, 0, 0⟩ [2] (zTarget 50) 2 ⟨⟨0, 0, 50⟩, true⟩
    (by norm_num) (by norm_num) rfl rfl
    (by rw [ray_eval_z 50 (by norm_num) (by norm_num)])
    (by rw [ray_eval_z 50 (by norm_num) (by norm_num)]; norm_num)

/-- **C2**: damage is a deterministic function of the hit classification and
distance alone: a headshot (aim-ray height above 1.6 at the target's distance)
deals the fixed value 100, which drives any (clamped, capped) health to exactly
0; a body hit deals `floor (35 * max 0.3 (1 - distance / 100))`; and every hit
the engine returns carries exactly `shotDamage isHeadshot distance` for its own
classification and distance fields. -/
theorem c2_damage_model :
    (∀ d : ℝ, shotDamage true d = 100) ∧
    (∀ d : ℝ, shotDamage false d = Int.floor (35 * max 0.3 (1 - d / 100))) ∧
    (∀ h : ℤ, 0 ≤ h → h ≤ 100 → applyDamage h 100 = 0) ∧
    (∀ (shooterId : ℕ) (direction shooterPosition : Vec3R) (matchPlayers : List ℕ)
      (getTarget : ℕ → Option TargetState) (o : HitOutcome),
      performHitDetectionLoop shooterId direction shooterPosition getTarget matchPlayers
        100 none = some o →
      ∃ tid t, tid ∈ matchPlayers ∧ getTarget tid = some t ∧ t.isAlive = true ∧
        o.isHeadshot = decide ((calculateRaycastHit shooterPosition direction
          t.position 100).hitHeight > 1.6) ∧
        o.distance = (calculateRaycastHit shooterPosition direction t.position 100).distance ∧
        o.damage = shotDamage o.isHeadshot o.distance) := by
  refine ⟨fun d => rfl, fun d => rfl, ?_, ?_⟩
  · intro h h0 h100
    show max 0 (h - 100) = 0
    exact max_eq_left (by omega)
  · intro shooterId direction shooterPosition matchPlayers getTarget o hres
    obtain ⟨hle, hlt, hprov, hmin⟩ := performHitDetectionLoop_some_spec shooterId direction
      shooterPosition getTarget matchPlayers 100 none o
      (fun o0 h0 => absurd h0 (by simp)) hres
    rcases hprov with h | ⟨tid, htid, hne, t, hg, ha, hhit, ho⟩
    · exact absurd h (by simp)
    · refine ⟨tid, t, htid, hg, ha, ?_, ?_, ?_⟩
      · rw [ho]
      · rw [ho]
      · rw [ho]

theorem c2_witness :
    applyDamage 100 100 = 0 ∧ shotDamage true 50 = 100 ∧
    shotDamage false 50 = Int.floor (35 * max 0.3 (1 - (50 : ℝ) / 100)) :=
  ⟨c2_damage_model.2.2.1 100 (by norm_num) (by norm_num),
   c2_damage_model.1 50, c2_damage_model.2.1 50⟩

end Arena
